import Mathlib

/-!
# ExtIO_RTL band configuration: `src/config_file.cpp`

A shallow embedding of the configuration loader and of the band resolver of
`config_file.cpp`, followed by theorems about them.

Modelling conventions

* `double` is `Double`: a rational (the finite values), the two infinities or
  NaN, with the IEEE-754 comparisons (every comparison with NaN is false). The
  sign of zero is not represented: both zeros compare equal in C++ as well.
* a pointer to a `BandAction` is a `BandPtr`: null, the address of the static
  `initial_band_action`, or the address of an element of the vector
  `band_actions`, given by its index.
* the file-scope variables are the fields of `Globals`; every function takes the
  globals and returns the new ones.
* reading through a null or dangling pointer ends the run: the functions return
  `Option`, `none` being that outcome.
* a `std::ofstream` is an `OfStream`: text sent to a stream that is not open is
  dropped, as in C++.
* a `toml::table` is the list of its entries in iteration order.
-/

namespace ExtIO

/-! ## `double` -/

/-- A `double`: NaN, the infinities, or a finite value. -/
inductive Double where
  | nan
  | negInf
  | fin (q : ℚ)
  | posInf
deriving DecidableEq

namespace Double

/-- The C++ `a <= b` on doubles. -/
def le : Double → Double → Bool
  | nan, _ => false
  | _, nan => false
  | negInf, _ => true
  | _, posInf => true
  | fin a, fin b => decide (a ≤ b)
  | fin _, negInf => false
  | posInf, _ => false

/-- The C++ `a < b` on doubles. -/
def lt : Double → Double → Bool
  | nan, _ => false
  | _, nan => false
  | posInf, _ => false
  | _, negInf => false
  | fin a, fin b => decide (a < b)
  | negInf, _ => true
  | fin _, posInf => true

/-- The C++ `a > b` on doubles. -/
def gt (a b : Double) : Bool := lt b a

/-- Whether the value is NaN. -/
def isNaN : Double → Bool
  | nan => true
  | _ => false

end Double

/-! ## `BandAction` and the file-scope variables -/

/-- Modelled from the spec: the enumeration `BandAction::Band_Info` of
`config_file.h`, the overall outcome of the load (spec section 3, BandStatus). -/
inductive Band_Info where
  | info_not_loaded
  | info_disabled
  | info_no_bands
  | info_ok
  | info_parse_error
deriving DecidableEq

/-- Modelled from the spec: the record `BandAction` of `config_file.h` (spec
section 3). The first four members are in the order of the initialiser of
`initial_band_action`; every member but `id`, `freq_from` and `freq_to` is
optional. -/
structure BandAction where
  id : String
  name : Option String := none
  freq_from : Double
  freq_to : Double
  sampling_mode : Option Char := none
  samplerate : Option Double := none
  tuner_bandwidth : Option Double := none
  r820t_tuner_band_center : Option Double := none
  tuning_sideband : Option Char := none
  tuner_rf_agc : Option Bool := none
  tuner_rf_gain_db : Option Double := none
  tuner_if_agc : Option Bool := none
  tuner_if_gain_db : Option Double := none
  rtl_digital_agc : Option Bool := none
  gpio_button0 : Option Bool := none
  gpio_button1 : Option Bool := none
  gpio_button2 : Option Bool := none
  gpio_button3 : Option Bool := none
  gpio_button4 : Option Bool := none
deriving DecidableEq

/-- The test `band.freq_from <= f && f <= band.freq_to` of `update_band_action`. -/
def BandAction.contains (band : BandAction) (f : Double) : Bool :=
  Double.le band.freq_from f && Double.le f band.freq_to

/-- A `const BandAction*`. -/
inductive BandPtr where
  | null
  | initial
  | elem (i : Nat)
deriving DecidableEq

/-- The static `initial_band_action{ "_init_", {}, -1.0, -1.0 }`. -/
def initial_band_action : BandAction :=
  { id := "_init_", name := none, freq_from := Double.fin (-1), freq_to := Double.fin (-1) }

/-- The file-scope variables of `config_file.cpp`, and the function-local static
`processed` of `init_toml_config`. -/
structure Globals where
  confFile : String
  band_actions : List BandAction
  band_status : Band_Info
  current_band_action : BandPtr
  processed : Bool
deriving DecidableEq

/-- The values of the variables at program start. -/
def Globals.start : Globals :=
  { confFile := "", band_actions := [], band_status := Band_Info.info_not_loaded,
    current_band_action := BandPtr.initial, processed := false }

/-- Reading `*p`: `none` for the null pointer and for an index outside the vector. -/
def Globals.deref (g : Globals) : BandPtr → Option BandAction
  | BandPtr.null => none
  | BandPtr.initial => some initial_band_action
  | BandPtr.elem i => g.band_actions[i]?

/-- A pointer that may be stored in the cursor without dangling. -/
def Globals.validPtr (g : Globals) : BandPtr → Bool
  | BandPtr.null => true
  | BandPtr.initial => true
  | BandPtr.elem i => decide (i < g.band_actions.length)

/-! ## `update_band_action` -/

/-- The loop `for (const auto& band : band_actions)` of `update_band_action`: the
index of the first band from position `i` on that contains `f`. -/
def scan_bands (f : Double) : List BandAction → Nat → Option Nat
  | [], _ => none
  | band :: rest, i => if band.contains f then some i else scan_bands f rest (i + 1)

/-- The end of `update_band_action`, after the two early returns: the cursor is
set to null, then to the first band that contains the frequency, if there is
one; the cursor is also what is returned. -/
def search_bands (new_frequency : Double) (g : Globals) : BandPtr × Globals :=
  match scan_bands new_frequency g.band_actions 0 with
  | some i => (BandPtr.elem i, { g with current_band_action := BandPtr.elem i })
  | none => (BandPtr.null, { g with current_band_action := BandPtr.null })

/-- The function `update_band_action`: the returned pointer and the new globals.
`none` is the read through a dangling cursor. -/
def update_band_action (new_frequency : Double) (g : Globals) : Option (BandPtr × Globals) :=
  if g.band_actions.length = 0 then
    some (BandPtr.null, g)
  else
    match g.current_band_action with
    | BandPtr.null => some (search_bands new_frequency g)
    | p =>
      match g.deref p with
      | none => none
      | some cur =>
        if cur.contains new_frequency then
          -- still in last band
          some (BandPtr.null, g)
        else
          -- moved out of last band
          some (search_bands new_frequency g)

/-! ## The TOML document -/

/-- A `toml::node`. A table carries its entries in iteration order. -/
inductive Node where
  | table (entries : List (String × Node))
  | array (elems : List Node)
  | string (s : String)
  | integer (i : Int)
  | floating_point (d : Double)
  | boolean (b : Bool)
  | date
  | time
  | date_time

/-- A `toml::table`: its entries in iteration order. -/
abbrev Table := List (String × Node)

namespace Node

/-- The member `is_table`. -/
def is_table : Node → Bool
  | table _ => true
  | _ => false

/-- The member `is_string`. -/
def is_string : Node → Bool
  | string _ => true
  | _ => false

/-- The member `is_integer`. -/
def is_integer : Node → Bool
  | integer _ => true
  | _ => false

/-- The member `is_floating_point`. -/
def is_floating_point : Node → Bool
  | floating_point _ => true
  | _ => false

/-- The member `is_number`: an integer or a floating-point value. -/
def is_number (n : Node) : Bool := n.is_integer || n.is_floating_point

/-- The member `is_boolean`. -/
def is_boolean : Node → Bool
  | boolean _ => true
  | _ => false

/-- The value behind `as_table()`; `none` is the null pointer. -/
def as_table : Node → Option Table
  | table t => some t
  | _ => none

/-- The value behind `as_string()`; `none` is the null pointer. -/
def as_string : Node → Option String
  | string s => some s
  | _ => none

/-- The value behind `as_floating_point()`; `none` is the null pointer, returned
for every node that is not a floating-point value, an integer included. -/
def as_floating_point : Node → Option Double
  | floating_point d => some d
  | _ => none

/-- The value behind `as_boolean()`; `none` is the null pointer. -/
def as_boolean : Node → Option Bool
  | boolean b => some b
  | _ => none

end Node

/-- The member `toml::table::find`: the value stored under `key`, `none` for `end()`. -/
def toml_find : Table → String → Option Node
  | [], _ => none
  | (k, v) :: rest, key => if k = key then some v else toml_find rest key

/-- Insertion into a `toml::table`, which keeps its entries sorted by key (the
order of `std::string`, here on the characters) and keeps the entry already
stored under a key. -/
def toml_insert (key : String) (val : Node) : Table → Table
  | [] => [(key, val)]
  | (k, v) :: rest =>
    if key.data < k.data then (key, val) :: (k, v) :: rest
    else if key = k then (k, v) :: rest
    else (k, v) :: toml_insert key val rest

/-- The constructor of `toml::table` from an initialiser list. -/
def toml_table (init : List (String × Node)) : Table :=
  init.foldl (fun t e => toml_insert e.1 e.2 t) []

/-! ## The diagnostics stream -/

/-- One operand of `<<`. -/
inductive Frag where
  | text (s : String)
  | int (n : Nat)
  | dbl (d : Double)
  | bool (b : Bool)
  | parse_error (description : String)
deriving DecidableEq

/-- A `std::ofstream`: whether it is open, and what has been written to it. -/
structure OfStream where
  is_open : Bool
  written : List Frag
deriving DecidableEq

/-- A chain `out << a << b << ...`: dropped when the stream is not open. -/
def OfStream.write (out : OfStream) (frags : List Frag) : OfStream :=
  if out.is_open then { out with written := out.written ++ frags } else out

/-! ## Keys of the configuration file -/

def config_fn : String := "rtl_sdr_extio.cfg"
def key_enable : String := "enable"
def key_log : String := "log"
def key_band_name : String := "name"
def key_freq_from : String := "freq_from"
def key_freq_to : String := "freq_to"
def key_sampling_mode : String := "sampling_mode"
def key_samplerate : String := "samplerate"
def key_tuner_bandwidth : String := "tuner_bandwidth"
def key_r820t_tuner_band_center : String := "r820t_tuner_band_center"
def key_tuning_sideband : String := "tuning_sideband"
def key_tuner_rf_agc : String := "tuner_rf_agc"
def key_tuner_rf_gain_db : String := "tuner_rf_gain_db"
def key_tuner_if_agc : String := "tuner_if_agc"
def key_tuner_if_gain_db : String := "tuner_if_gain_db"
def key_rtl_digital_agc : String := "rtl_digital_agc"
def key_bias_tee : String := "bias_tee"
def key_gpio_button0 : String := "gpio_button0"
def key_gpio_button1 : String := "gpio_button1"
def key_gpio_button2 : String := "gpio_button2"
def key_gpio_button3 : String := "gpio_button3"
def key_gpio_button4 : String := "gpio_button4"

/-! ## `is_expected_value_type`, `is_expected_bool_type` -/

/-- The function `is_expected_value_type`: its result and the stream after it. -/
def is_expected_value_type (id key expected_key : String) (val : Node) (info_out : OfStream) :
    Bool × OfStream :=
  if key = expected_key then
    if !val.is_number then
      (false, info_out.write
        [Frag.text "error: '", Frag.text key, Frag.text "' for band '", Frag.text id,
         Frag.text "' is no value!\n"])
    else (true, info_out)
  else (false, info_out)

/-- The function `is_expected_bool_type`: its result and the stream after it. -/
def is_expected_bool_type (id key expected_key : String) (val : Node) (info_out : OfStream) :
    Bool × OfStream :=
  if key = expected_key then
    if !val.is_boolean then
      (false, info_out.write
        [Frag.text "error: '", Frag.text key, Frag.text "' for band '", Frag.text id,
         Frag.text "' is no bool!\n"])
    else (true, info_out)
  else (false, info_out)

/-! ## `parse_band_action` -/

/-- One pass of the body of the loop `for (auto const& [key, val] : tbl)` of
`parse_band_action`, on the record `ba` under construction. `none` is the read
through the null pointer that `as_floating_point()` returns for an integer. -/
def band_field (id key : String) (val : Node) (ba : BandAction) (info_out : OfStream) :
    Option (BandAction × OfStream) :=
  if key = key_freq_from ∨ key = key_freq_to then
    some (ba, info_out)
  else if key = key_band_name then
    if !val.is_string then
      some (ba, info_out.write
        [Frag.text "error: '", Frag.text key, Frag.text "' for band '", Frag.text id,
         Frag.text "' is no string!\n"])
    else
      val.as_string.map fun val_str => ({ ba with name := some val_str }, info_out)
  else if key = key_sampling_mode then
    if !val.is_string then
      some (ba, info_out.write
        [Frag.text "error: '", Frag.text key, Frag.text "' for band '", Frag.text id,
         Frag.text "' is no string! expected 'I', 'Q' or 'C'.\n"])
    else
      val.as_string.map fun val_str =>
        if val_str = "I" ∨ val_str = "Q" ∨ val_str = "C" then
          ({ ba with sampling_mode := some (val_str.get 0) }, info_out)
        else
          (ba, info_out.write
            [Frag.text "error: expected 'I', 'Q' or 'C' for key '", Frag.text key,
             Frag.text "' for band '", Frag.text id, Frag.text "!\n"])
  else if key = key_tuning_sideband then
    if !val.is_string then
      some (ba, info_out.write
        [Frag.text "error: '", Frag.text key, Frag.text "' for band '", Frag.text id,
         Frag.text "' is no string! expected 'L' or 'U'.\n"])
    else
      val.as_string.map fun val_str =>
        if val_str = "L" ∨ val_str = "U" then
          ({ ba with tuning_sideband := some (val_str.get 0) }, info_out)
        else
          (ba, info_out.write
            [Frag.text "error: expected 'L' or 'U' for key '", Frag.text key,
             Frag.text "' for band '", Frag.text id, Frag.text "!\n"])
  else
    match is_expected_value_type id key key_samplerate val info_out with
    | (true, info_out) =>
      val.as_floating_point.map fun d => ({ ba with samplerate := some d }, info_out)
    | (false, info_out) =>
    match is_expected_value_type id key key_tuner_bandwidth val info_out with
    | (true, info_out) =>
      val.as_floating_point.map fun d => ({ ba with tuner_bandwidth := some d }, info_out)
    | (false, info_out) =>
    match is_expected_value_type id key key_r820t_tuner_band_center val info_out with
    | (true, info_out) =>
      val.as_floating_point.map fun d => ({ ba with r820t_tuner_band_center := some d }, info_out)
    | (false, info_out) =>
    match is_expected_value_type id key key_tuner_rf_gain_db val info_out with
    | (true, info_out) =>
      val.as_floating_point.map fun d => ({ ba with tuner_rf_gain_db := some d }, info_out)
    | (false, info_out) =>
    match is_expected_value_type id key key_tuner_if_gain_db val info_out with
    | (true, info_out) =>
      val.as_floating_point.map fun d => ({ ba with tuner_if_gain_db := some d }, info_out)
    | (false, info_out) =>
    match is_expected_bool_type id key key_tuner_rf_agc val info_out with
    | (true, info_out) =>
      val.as_boolean.map fun b => ({ ba with tuner_rf_agc := some b }, info_out)
    | (false, info_out) =>
    match is_expected_bool_type id key key_tuner_if_agc val info_out with
    | (true, info_out) =>
      val.as_boolean.map fun b => ({ ba with tuner_if_agc := some b }, info_out)
    | (false, info_out) =>
    match is_expected_bool_type id key key_rtl_digital_agc val info_out with
    | (true, info_out) =>
      val.as_boolean.map fun b => ({ ba with rtl_digital_agc := some b }, info_out)
    | (false, info_out) =>
    match is_expected_bool_type id key key_bias_tee val info_out with
    | (true, info_out) =>
      val.as_boolean.map fun b => ({ ba with gpio_button0 := some b }, info_out)
    | (false, info_out) =>
    match is_expected_bool_type id key key_gpio_button0 val info_out with
    | (true, info_out) =>
      val.as_boolean.map fun b => ({ ba with gpio_button0 := some b }, info_out)
    | (false, info_out) =>
    match is_expected_bool_type id key key_gpio_button1 val info_out with
    | (true, info_out) =>
      val.as_boolean.map fun b => ({ ba with gpio_button1 := some b }, info_out)
    | (false, info_out) =>
    match is_expected_bool_type id key key_gpio_button2 val info_out with
    | (true, info_out) =>
      val.as_boolean.map fun b => ({ ba with gpio_button2 := some b }, info_out)
    | (false, info_out) =>
    match is_expected_bool_type id key key_gpio_button3 val info_out with
    | (true, info_out) =>
      val.as_boolean.map fun b => ({ ba with gpio_button3 := some b }, info_out)
    | (false, info_out) =>
    match is_expected_bool_type id key key_gpio_button4 val info_out with
    | (true, info_out) =>
      val.as_boolean.map fun b => ({ ba with gpio_button4 := some b }, info_out)
    | (false, info_out) =>
      some (ba, info_out.write
        [Frag.text "warning: '", Frag.text key, Frag.text "' for band '", Frag.text id,
         Frag.text "' is unknown.\n"])

/-- The loop `for (auto const& [key, val] : tbl)` of `parse_band_action`. -/
def band_fields (id : String) : Table → BandAction → OfStream → Option (BandAction × OfStream)
  | [], ba, info_out => some (ba, info_out)
  | (key, val) :: rest, ba, info_out =>
    match band_field id key val ba info_out with
    | none => none
    | some (ba, info_out) => band_fields id rest ba info_out

/-- The text of the warning of `parse_band_action` for reversed bounds, with the
bounds as they are after the swap. -/
def swap_warning (id : String) (freq_from freq_to : Double) : List Frag :=
  [Frag.text "warning: freq_from = ", Frag.dbl freq_from,
   Frag.text " is greater than freq_to = ", Frag.dbl freq_to,
   Frag.text "for band '", Frag.text id, Frag.text "'. swapped.\n"]

/-- The block of `parse_band_action` that reads `freq_from` and `freq_to`: the
record with its bounds (swapped when reversed) and the stream, or, when a bound
is absent or is no floating-point value, only the stream with the error. -/
def band_bounds (id : String) (tbl : Table) (info_out : OfStream) :
    Option (BandAction × OfStream) ⊕ OfStream :=
  match toml_find tbl key_freq_from with
  | none =>
    Sum.inr (info_out.write
      [Frag.text "error: no 'freq_from' for band '", Frag.text id, Frag.text "'\n"])
  | some it_freq_from =>
    if !it_freq_from.is_floating_point then
      Sum.inr (info_out.write
        [Frag.text "error: 'freq_from' value for band '", Frag.text id,
         Frag.text "' is not floating point!\n"])
    else
      match toml_find tbl key_freq_to with
      | none =>
        Sum.inr (info_out.write
          [Frag.text "error: no 'freq_to' for band '", Frag.text id, Frag.text "'\n"])
      | some it_freq_to =>
        if !it_freq_to.is_floating_point then
          Sum.inr (info_out.write
            [Frag.text "error: 'freq_to' value for band '", Frag.text id,
             Frag.text "' is not floating point!\n"])
        else
          Sum.inl <|
            it_freq_from.as_floating_point.bind fun freq_from =>
            it_freq_to.as_floating_point.map fun freq_to =>
              let ba : BandAction := { id := id, freq_from := freq_from, freq_to := freq_to }
              if Double.gt ba.freq_from ba.freq_to then
                let ba : BandAction := { ba with freq_from := ba.freq_to, freq_to := ba.freq_from }
                (ba, info_out.write (swap_warning id ba.freq_from ba.freq_to))
              else
                (ba, info_out)

/-- The function `parse_band_action`: the globals (of which it changes
`band_actions` only) and the stream after it. -/
def parse_band_action (id : String) (tbl : Table) (g : Globals) (info_out : OfStream) :
    Option (Globals × OfStream) :=
  match band_bounds id tbl info_out with
  | Sum.inr out => some (g, out)
  | Sum.inl none => none
  | Sum.inl (some (ba, out)) =>
    match band_fields id tbl ba out with
    | none => none
    | some (ba, out) =>
      some ({ g with band_actions := g.band_actions ++ [ba] },
        out.write [Frag.text "info: adding band '", Frag.text id, Frag.text "'\n"])

/-! ## `print_toml_tables` -/

/-- The test `key.length() && key[0] == '#'`. -/
def is_comment (key : String) : Bool :=
  key.length != 0 && key.get 0 == '#'

mutual
/-- The function `print_toml_tables`, on the entries of `tbl` in iteration order. -/
def print_toml_tables (level : Nat) : Table → Globals → OfStream → Bool →
    Option (Globals × OfStream)
  | [], g, info_out, _ => some (g, info_out)
  | (key, val) :: rest, g, info_out, is_band =>
    match print_toml_entry level key val g info_out is_band with
    | none => none
    | some (g, info_out) => print_toml_tables level rest g info_out is_band
/-- The body of the loop of `print_toml_tables` for the entry `key`, `val`. -/
def print_toml_entry (level : Nat) (key : String) (val : Node) (g : Globals)
    (info_out : OfStream) (is_band : Bool) : Option (Globals × OfStream) :=
  let info_out := info_out.write
    [Frag.text "level ", Frag.int level, Frag.text "  key: '", Frag.text key, Frag.text "'"]
  if is_comment key then
    some (g, info_out.write [Frag.text "\n"])
  else
    match val with
    | Node.table sub =>
      match print_toml_tables (level + 1) sub g (info_out.write [Frag.text "\n"])
          (decide (key = "bands")) with
      | none => none
      | some (g, info_out) =>
        if is_band then parse_band_action key sub g info_out else some (g, info_out)
    | Node.boolean b =>
      some (g, info_out.write [Frag.text "  bool: ", Frag.bool b, Frag.text "\n"])
    | Node.floating_point d =>
      some (g, info_out.write [Frag.text "  float: ", Frag.dbl d, Frag.text "\n"])
    | Node.string s =>
      some (g, info_out.write [Frag.text "  string: ", Frag.text s, Frag.text "\n"])
    | _ => some (g, info_out.write [Frag.text "  some other type\n"])
end

/-! ## `write_default_config` and `init_toml_config` -/

/-- What `toml::parse_file` makes of a file: the table, or the `toml::parse_error`
it throws. -/
inductive ParseResult where
  | ok (tbl : Table)
  | parse_error (description : String)

/-- The part of the machine outside the program that `init_toml_config` uses.
`profile_dir` is the directory `SHGetFolderPathA` gives, `none` when it fails
(the directory is at most `MAX_PATH` characters, so nothing is truncated by the
`strncat` calls); `config_file` is the file at the configuration path as
`toml::parse_file` would read it, `none` when it cannot be opened for reading;
`config_writable` and `log_openable` say whether the two output files can be
opened for writing; `parsed_infos` is the content of `parsed_infos.txt`, `none`
while the program has not created it. -/
structure World where
  profile_dir : Option String
  config_file : Option ParseResult
  config_writable : Bool
  log_openable : Bool
  parsed_infos : Option (List Frag)

/-- The table `tbl` that `write_default_config` builds. The values 16.6, 11.2, 20.7
and 32.8 are written as fractions in lowest terms. -/
def default_config : Table :=
  toml_table [
    ("# comment1", Node.string "info: keys starting with a '#' are interpreted as comments and ignored"),
    ("# comment2", Node.string "this file is automatically created as example/template, showing possible keys"),
    ("# enable", Node.string "thus, set enable to 'true' to activate; keep 'false' to deactivate"),
    ("# log", Node.string "log parsing to the file 'parsed_infos.txt'"),
    (key_enable, Node.boolean false),
    (key_log, Node.boolean false),
    ("bands", Node.table (toml_table [
      ("# name", Node.string "optional: band name to display"),
      ("# freq_from", Node.string "mandatory: low band edge: frequency in Hz"),
      ("# freq_to", Node.string "mandatory: high band edge: frequency in Hz"),
      ("# sampling_mode", Node.string "optional: 'I', 'Q' or 'C' for complex/both lines"),
      ("# samplerate", Node.string "optional: samplerate"),
      ("# tuner_bandwidth", Node.string "optional"),
      ("# r820t_tuner_band_center", Node.string "optional"),
      ("# tuning_sideband", Node.string "optional: tuning_sideband"),
      ("# tuner_rf_agc", Node.string "optional: "),
      ("# tuner_rf_gain_db", Node.string "optional"),
      ("# tuner_if_agc", Node.string "optional"),
      ("# tuner_if_gain_db", Node.string "optional"),
      ("# rtl_digital_agc", Node.string "optional"),
      ("# bias_tee", Node.string "optional: alias for 'gpio_button0'"),
      ("# gpio_button0", Node.string "optional: equals bias_tee"),
      ("# gpio_button1", Node.string "optional: the button state - NOT the GPIO state!"),
      ("# gpio_button2", Node.string "optional"),
      ("# gpio_button3", Node.string "optional"),
      ("# gpio_button4", Node.string "optional"),
      ("1", Node.table (toml_table [
        (key_band_name, Node.string "0..13 MHz (HF-DS)"),
        (key_freq_from, Node.floating_point (Double.fin 0)),
        (key_freq_to, Node.floating_point (Double.fin 13000000)),
        (key_sampling_mode, Node.string "Q"),
        (key_bias_tee, Node.boolean false),
        (key_tuner_rf_agc, Node.boolean true),
        (key_tuner_if_agc, Node.boolean true)])),
      ("2", Node.table (toml_table [
        (key_band_name, Node.string "13..24.5 MHz (HF-DS)"),
        (key_freq_from, Node.floating_point (Double.fin 13000000)),
        (key_freq_to, Node.floating_point (Double.fin 24500000)),
        (key_sampling_mode, Node.string "Q"),
        (key_bias_tee, Node.boolean true),
        (key_tuner_rf_agc, Node.boolean true),
        (key_tuner_if_agc, Node.boolean true)])),
      ("3", Node.table (toml_table [
        (key_band_name, Node.string "24.5..108 MHz"),
        (key_freq_from, Node.floating_point (Double.fin 24500000)),
        (key_freq_to, Node.floating_point (Double.fin 108000000)),
        (key_sampling_mode, Node.string "C"),
        (key_bias_tee, Node.boolean true),
        (key_tuner_rf_gain_db, Node.floating_point (Double.fin ⟨83, 5, by decide, by decide⟩)),
        (key_tuner_if_gain_db, Node.floating_point (Double.fin ⟨56, 5, by decide, by decide⟩))])),
      ("4", Node.table (toml_table [
        (key_band_name, Node.string "108..300 MHz"),
        (key_freq_from, Node.floating_point (Double.fin 108000000)),
        (key_freq_to, Node.floating_point (Double.fin 300000000)),
        (key_sampling_mode, Node.string "C"),
        (key_bias_tee, Node.boolean true),
        (key_tuner_rf_gain_db, Node.floating_point (Double.fin ⟨207, 10, by decide, by decide⟩)),
        (key_tuner_if_gain_db, Node.floating_point (Double.fin ⟨56, 5, by decide, by decide⟩))])),
      ("5", Node.table (toml_table [
        (key_band_name, Node.string "300..2000 MHz"),
        (key_freq_from, Node.floating_point (Double.fin 300000000)),
        (key_freq_to, Node.floating_point (Double.fin 2000000000)),
        (key_sampling_mode, Node.string "C"),
        (key_bias_tee, Node.boolean true),
        (key_tuner_rf_gain_db, Node.floating_point (Double.fin ⟨164, 5, by decide, by decide⟩)),
        (key_tuner_if_gain_db, Node.floating_point (Double.fin ⟨56, 5, by decide, by decide⟩))]))]))]

/-- The function `write_default_config`: whether the file could be written, and
the machine after it. The file it writes reads back as `default_config`. -/
def write_default_config (w : World) : Bool × World :=
  if w.config_writable then
    (true, { w with config_file := some (ParseResult.ok default_config) })
  else
    (false, w)

/-- The call `toml::parse_file(fn)`: a file that cannot be opened is a parse error. -/
def toml_parse_file (w : World) : ParseResult :=
  match w.config_file with
  | some r => r
  | none => ParseResult.parse_error "File could not be opened for reading"

/-- The call `parsed_infos.open("parsed_infos.txt")`: the stream and the machine. -/
def open_parsed_infos (w : World) (parsed_infos : OfStream) : OfStream × World :=
  if w.log_openable then
    ({ parsed_infos with is_open := true }, { w with parsed_infos := some [] })
  else
    (parsed_infos, w)

/-- The call `parsed_infos.close()`: what was written is now the content of the file. -/
def close_parsed_infos (w : World) (parsed_infos : OfStream) : World :=
  if parsed_infos.is_open then { w with parsed_infos := some parsed_infos.written } else w

/-- The function `init_toml_config`: the returned path, the globals and the
machine after it. -/
def init_toml_config (w : World) (g : Globals) : Option (String × Globals × World) :=
  -- process only once
  if g.processed then
    some (g.confFile, g, w)
  else
    let g := { g with processed := true }
    let g := { g with confFile := config_fn }
    let g :=
      match w.profile_dir with
      | some dir => { g with confFile := dir ++ "\\" ++ config_fn }
      | none => g
    let fn := g.confFile
    let w :=
      match w.config_file with
      | none => (write_default_config w).2
      | some _ => w
    let parsed_infos : OfStream := { is_open := false, written := [] }
    match toml_parse_file w with
    | ParseResult.parse_error err =>
      let g := { g with band_status := Band_Info.info_parse_error }
      let parsed_infos := parsed_infos.write
        [Frag.text "Parsing failed : \n", Frag.parse_error err, Frag.text "\n"]
      some (fn, g, close_parsed_infos w parsed_infos)
    | ParseResult.ok tbl =>
      let log : Bool :=
        match toml_find tbl key_log with
        | some (Node.boolean b) => b
        | _ => false
      let opened := if log then open_parsed_infos w parsed_infos else (parsed_infos, w)
      let parse_cfg : Bool :=
        match toml_find tbl key_enable with
        | some (Node.boolean b) => b
        | _ => false
      if parse_cfg then
        match print_toml_tables 0 tbl g opened.1 false with
        | none => none
        | some (g, parsed_infos) =>
          let g :=
            if g.band_actions.length = 0 then
              { g with band_status := Band_Info.info_no_bands }
            else
              { g with band_status := Band_Info.info_ok }
          some (fn, g, close_parsed_infos opened.2 parsed_infos)
      else
        let g := { g with band_status := Band_Info.info_disabled }
        some (fn, g, close_parsed_infos opened.2 opened.1)

/-- The function `get_band_info`. -/
def get_band_info (g : Globals) : Band_Info := g.band_status

/-- States reachable from `g0` by calls of `update_band_action`. -/
inductive Reachable (g0 : Globals) : Globals → Prop where
  | start : Reachable g0 g0
  | step {g g1 : Globals} (f : Double) (p : BandPtr) :
      Reachable g0 g → update_band_action f g = some (p, g1) → Reachable g0 g1

/-! ## Notions used by the statements -/

/-- The band at index `j` is the first band of the list, in list order, whose
inclusive interval contains `f`. -/
def FirstMatch (bands : List BandAction) (f : Double) (j : Nat) : Prop :=
  ∃ b, bands[j]? = some b ∧ b.contains f = true ∧
    ∀ i b0, i < j → bands[i]? = some b0 → b0.contains f = false

/-- The bands of the first two examples of the default configuration:
`A = [0, 13e6]` followed by `B = [13e6, 24.5e6]`. -/
def bandsAB : List BandAction :=
  [{ id := "1", freq_from := Double.fin 0, freq_to := Double.fin 13000000 },
   { id := "2", freq_from := Double.fin 13000000, freq_to := Double.fin 24500000 }]

/-- The globals after a load that produced `bands`, before any frequency change. -/
def loaded (bands : List BandAction) : Globals :=
  { confFile := config_fn, band_actions := bands, band_status := Band_Info.info_ok,
    current_band_action := BandPtr.initial, processed := true }

/-- A band list with one band, `[-2, 0]`, which contains the frequency `-1.0`. -/
def bandsNeg : List BandAction :=
  [{ id := "n", freq_from := Double.fin (-2), freq_to := Double.fin 0 }]

/-- The five optional numeric keys, read with `is_expected_value_type`. -/
def numeric_keys : List String :=
  [key_samplerate, key_tuner_bandwidth, key_r820t_tuner_band_center, key_tuner_rf_gain_db,
   key_tuner_if_gain_db]

/-- No optional numeric key of the table holds an integer. -/
def numeric_ok (tbl : Table) : Bool :=
  tbl.all fun e => !(decide (e.1 ∈ numeric_keys) && e.2.is_integer)

mutual
/-- In no table of the entries, nested ones included, does an optional numeric key
hold an integer. -/
def safe_table : Table → Bool
  | [] => true
  | (_, val) :: rest => safe_node val && safe_table rest
/-- In no table below the node does an optional numeric key hold an integer. -/
def safe_node : Node → Bool
  | Node.table sub => numeric_ok sub && safe_table sub
  | _ => true
end

/-- The table has both `freq_from` and `freq_to`, and both are floating-point values. -/
def float_bounds (tbl : Table) : Bool :=
  match toml_find tbl key_freq_from, toml_find tbl key_freq_to with
  | some a, some b => a.is_floating_point && b.is_floating_point
  | _, _ => false

/-- The stream `out1` is `out` after zero or more writes: as open as `out`, with
the text of `out` followed by more text. -/
def OfStream.Extends (out out1 : OfStream) : Prop :=
  out1.is_open = out.is_open ∧ ∃ extra, out1.written = out.written ++ extra

/-- The record `ba1` has the `id` and the bounds of `ba`. -/
def SameKey (ba ba1 : BandAction) : Prop :=
  ba1.id = ba.id ∧ ba1.freq_from = ba.freq_from ∧ ba1.freq_to = ba.freq_to

/-- The invariant `freq_from <= freq_to` of a record. -/
def BandAction.ordered (ba : BandAction) : Bool := Double.le ba.freq_from ba.freq_to

/-- The record that `parse_band_action` starts from, and the stream, for the
floating-point bounds `a` and `b` as given. -/
def bounds_record (id : String) (a b : Double) (out : OfStream) : BandAction × OfStream :=
  if Double.gt a b then
    ({ id := id, freq_from := b, freq_to := a }, out.write (swap_warning id b a))
  else
    ({ id := id, freq_from := a, freq_to := b }, out)

/-- Every non-comment sub-table of `T` with floating-point bounds has a record of
its key among `new`. -/
def AppendsBands (T : Table) (new : List BandAction) : Prop :=
  ∀ k t, (k, Node.table t) ∈ T → is_comment k = false → float_bounds t = true →
    ∃ b ∈ new, b.id = k

/-- The walk `print_toml_tables` of the table `D` with the flag `b` for `is_band`
comes to the table `T` with the flag `c`: `T` is `D` itself, or the walk comes
to it from a sub-table of `D` whose key is no comment, which is walked with
the flag "the key is `bands`". -/
inductive Walks : Table → Bool → Table → Bool → Prop where
  | here (D : Table) (b : Bool) : Walks D b D b
  | sub {D : Table} {b : Bool} {k : String} {S T : Table} {c : Bool} :
      (k, Node.table S) ∈ D → is_comment k = false →
      Walks S (decide (k = "bands")) T c → Walks D b T c

/-- A band sub-table with floating-point bounds `[1, 2]`. -/
def tableOk : Table :=
  [(key_freq_from, Node.floating_point (Double.fin 1)),
   (key_freq_to, Node.floating_point (Double.fin 2))]

/-- A band sub-table without `freq_to`. -/
def tableNoTo : Table :=
  [(key_freq_from, Node.floating_point (Double.fin 1))]

/-- A band sub-table with reversed floating-point bounds, `freq_from = 5` and
`freq_to = 3`. -/
def tableReversed : Table :=
  [(key_freq_from, Node.floating_point (Double.fin 5)),
   (key_freq_to, Node.floating_point (Double.fin 3))]

/-- A band sub-table whose `freq_from` is NaN (the TOML float `nan`). -/
def tableNaN : Table :=
  [(key_freq_from, Node.floating_point Double.nan),
   (key_freq_to, Node.floating_point (Double.fin 1))]

/-- An enabled document whose `bands` table holds a sub-table without `freq_to`
and a sibling with floating-point bounds. -/
def docSiblings : Table :=
  [("bands", Node.table [("bad", Node.table tableNoTo), ("ok", Node.table tableOk)]),
   (key_enable, Node.boolean true)]

/-- A document with `enable = false` and a valid band. -/
def docDisabled : Table :=
  [("bands", Node.table [("ok", Node.table tableOk)]),
   (key_enable, Node.boolean false)]

/-- A machine on which the configuration file exists and reads as `doc`. -/
def worldWith (doc : Table) : World :=
  { profile_dir := none, config_file := some (ParseResult.ok doc), config_writable := false,
    log_openable := true, parsed_infos := none }

/-- A closed stream on which nothing has been written. -/
def closedStream : OfStream := { is_open := false, written := [] }

/-- An open stream on which nothing has been written. -/
def openStream : OfStream := { is_open := true, written := [] }

mutual
/-- The ids of the bands that a walk `print_toml_tables` of the entries, with the
flag `is_band`, is to append, in the order of the walk. -/
def band_ids (is_band : Bool) : Table → List String
  | [] => []
  | (key, val) :: rest => band_ids_entry is_band key val ++ band_ids is_band rest
/-- The ids of the bands that the walk is to append at the entry `key`, `val`:
none for a comment key and for a value that is no table; for a table, the ids
found in it, then `key` when the entry is inside a table keyed `bands` and has
floating-point bounds. -/
def band_ids_entry (is_band : Bool) (key : String) : Node → List String
  | Node.table sub =>
    if is_comment key then []
    else band_ids (decide (key = "bands")) sub ++
      (if is_band && float_bounds sub then [key] else [])
  | _ => []
end

/-- The globals of `init_toml_config` once the path is in `confFile`, before the
file is read. -/
def init_globals (w : World) (g : Globals) : Globals :=
  match w.profile_dir with
  | some dir => { g with processed := true, confFile := dir ++ "\\" ++ config_fn }
  | none => { g with processed := true, confFile := config_fn }

/-- The machine when `init_toml_config` calls `toml::parse_file`: the default
configuration has been written if the file could not be opened. -/
def init_world (w : World) : World :=
  match w.config_file with
  | none => (write_default_config w).2
  | some _ => w

/-- The value `parse_cfg` of `init_toml_config`: the top-level `enable`, when it is
a boolean. -/
def init_enable (tbl : Table) : Bool :=
  match toml_find tbl key_enable with
  | some (Node.boolean b) => b
  | _ => false

/-- The stream `parsed_infos` and the machine of `init_toml_config` after the
top-level `log` has been read: the stream is opened when `log` is true. -/
def init_stream (w : World) (tbl : Table) : OfStream × World :=
  if (match toml_find tbl key_log with
      | some (Node.boolean b) => b
      | _ => false) then
    open_parsed_infos (init_world w) { is_open := false, written := [] }
  else ({ is_open := false, written := [] }, init_world w)

/-- An enabled document with two tables keyed `bands`: the top-level one, whose
only sub-table has no `freq_to`, and one inside the table `more`, with a valid
sub-table `b`. -/
def docTwoBands : Table :=
  [("bands", Node.table [("a", Node.table tableNoTo)]),
   (key_enable, Node.boolean true),
   ("more", Node.table [("bands", Node.table [("b", Node.table tableOk)])])]

/-- An enabled document with two tables keyed `bands`, in the order in which a
table is iterated: one inside the table `#old`, with a valid sub-table `a`,
and the top-level one, whose only sub-table has no `freq_to`. -/
def docShadowed : Table :=
  [("#old", Node.table [("bands", Node.table [("a", Node.table tableOk)])]),
   ("bands", Node.table [("a", Node.table tableNoTo)]),
   (key_enable, Node.boolean true)]

/-- An enabled document whose only table keyed `bands` is inside a table whose key
begins with `#`. -/
def docCommentAncestor : Table :=
  [("#old", Node.table [("bands", Node.table [("a", Node.table tableOk)])]),
   (key_enable, Node.boolean true)]

/-- The table that toml++ holds for an enabled document that lists, under `bands`,
the band `b` before the band `a`. -/
def docOrder : Table :=
  toml_table
    [(key_enable, Node.boolean true),
     ("bands", Node.table (toml_table [("b", Node.table tableOk), ("a", Node.table tableOk)]))]

/-- A machine whose configuration file exists and does not parse; the log file
could be opened. -/
def worldBroken : World :=
  { profile_dir := none,
    config_file := some (ParseResult.parse_error "Error while parsing key-value pair"),
    config_writable := true, log_openable := true, parsed_infos := none }

/-- The globals after a first load, without profile directory, of a document with
`enable = false`. -/
def startDisabled : Globals :=
  { Globals.start with
    processed := true, confFile := config_fn, band_status := Band_Info.info_disabled }

/-- A machine without a configuration file, on which one can be written. -/
def worldNoFile : World :=
  { profile_dir := none, config_file := none, config_writable := true, log_openable := true,
    parsed_infos := none }

/-- What one entry `key`, `val` of a band sub-table stores in the record `ba`: a
recognised optional key stores its value when the value has the type of the
key (a string, one of the letters of an enumeration, a floating-point value, a
boolean); every other entry leaves the record as it is. The keys `bias_tee`
and `gpio_button0` store into the same member. -/
def store_field (key : String) (val : Node) (ba : BandAction) : BandAction :=
  if key = key_band_name then
    match val with
    | Node.string s => { ba with name := some s }
    | _ => ba
  else if key = key_sampling_mode then
    match val with
    | Node.string s =>
      if s = "I" ∨ s = "Q" ∨ s = "C" then { ba with sampling_mode := some (s.get 0) } else ba
    | _ => ba
  else if key = key_tuning_sideband then
    match val with
    | Node.string s =>
      if s = "L" ∨ s = "U" then { ba with tuning_sideband := some (s.get 0) } else ba
    | _ => ba
  else if key = key_samplerate then
    match val with
    | Node.floating_point d => { ba with samplerate := some d }
    | _ => ba
  else if key = key_tuner_bandwidth then
    match val with
    | Node.floating_point d => { ba with tuner_bandwidth := some d }
    | _ => ba
  else if key = key_r820t_tuner_band_center then
    match val with
    | Node.floating_point d => { ba with r820t_tuner_band_center := some d }
    | _ => ba
  else if key = key_tuner_rf_gain_db then
    match val with
    | Node.floating_point d => { ba with tuner_rf_gain_db := some d }
    | _ => ba
  else if key = key_tuner_if_gain_db then
    match val with
    | Node.floating_point d => { ba with tuner_if_gain_db := some d }
    | _ => ba
  else if key = key_tuner_rf_agc then
    match val with
    | Node.boolean b => { ba with tuner_rf_agc := some b }
    | _ => ba
  else if key = key_tuner_if_agc then
    match val with
    | Node.boolean b => { ba with tuner_if_agc := some b }
    | _ => ba
  else if key = key_rtl_digital_agc then
    match val with
    | Node.boolean b => { ba with rtl_digital_agc := some b }
    | _ => ba
  else if key = key_bias_tee then
    match val with
    | Node.boolean b => { ba with gpio_button0 := some b }
    | _ => ba
  else if key = key_gpio_button0 then
    match val with
    | Node.boolean b => { ba with gpio_button0 := some b }
    | _ => ba
  else if key = key_gpio_button1 then
    match val with
    | Node.boolean b => { ba with gpio_button1 := some b }
    | _ => ba
  else if key = key_gpio_button2 then
    match val with
    | Node.boolean b => { ba with gpio_button2 := some b }
    | _ => ba
  else if key = key_gpio_button3 then
    match val with
    | Node.boolean b => { ba with gpio_button3 := some b }
    | _ => ba
  else if key = key_gpio_button4 then
    match val with
    | Node.boolean b => { ba with gpio_button4 := some b }
    | _ => ba
  else ba

/-- What the entries of a band sub-table, in iteration order, store in the record. -/
def store_fields : Table → BandAction → BandAction
  | [], ba => ba
  | (key, val) :: rest, ba => store_fields rest (store_field key val ba)

/-- The value `new` when it is set, else `old`. -/
def keep_or {α : Type} (new old : Option α) : Option α :=
  match new with
  | some x => some x
  | none => old

/-- The letter that a value under `sampling_mode` stands for: the string `I`, `Q`
or `C`. -/
def sampling_mode_value : Node → Option Char
  | Node.string s => if s = "I" ∨ s = "Q" ∨ s = "C" then some (s.get 0) else none
  | _ => none

/-- The letter that a value under `tuning_sideband` stands for: the string `L` or
`U`. -/
def tuning_sideband_value : Node → Option Char
  | Node.string s => if s = "L" ∨ s = "U" then some (s.get 0) else none
  | _ => none

/-- The optional members of the record `ba` hold what the band sub-table `tbl`
gives them: each member holds the value under its key when that value has the
type of the key, and is unset otherwise; `gpio_button0` holds the boolean under
`gpio_button0` when `bias_tee` has no boolean, and the boolean under `bias_tee`
when `gpio_button0` has none. -/
def StoredFields (tbl : Table) (ba : BandAction) : Prop :=
  ba.name = (toml_find tbl key_band_name).bind Node.as_string ∧
  ba.sampling_mode = (toml_find tbl key_sampling_mode).bind sampling_mode_value ∧
  ba.samplerate = (toml_find tbl key_samplerate).bind Node.as_floating_point ∧
  ba.tuner_bandwidth = (toml_find tbl key_tuner_bandwidth).bind Node.as_floating_point ∧
  ba.r820t_tuner_band_center = (toml_find tbl key_r820t_tuner_band_center).bind Node.as_floating_point ∧
  ba.tuning_sideband = (toml_find tbl key_tuning_sideband).bind tuning_sideband_value ∧
  ba.tuner_rf_agc = (toml_find tbl key_tuner_rf_agc).bind Node.as_boolean ∧
  ba.tuner_rf_gain_db = (toml_find tbl key_tuner_rf_gain_db).bind Node.as_floating_point ∧
  ba.tuner_if_agc = (toml_find tbl key_tuner_if_agc).bind Node.as_boolean ∧
  ba.tuner_if_gain_db = (toml_find tbl key_tuner_if_gain_db).bind Node.as_floating_point ∧
  ba.rtl_digital_agc = (toml_find tbl key_rtl_digital_agc).bind Node.as_boolean ∧
  ba.gpio_button1 = (toml_find tbl key_gpio_button1).bind Node.as_boolean ∧
  ba.gpio_button2 = (toml_find tbl key_gpio_button2).bind Node.as_boolean ∧
  ba.gpio_button3 = (toml_find tbl key_gpio_button3).bind Node.as_boolean ∧
  ba.gpio_button4 = (toml_find tbl key_gpio_button4).bind Node.as_boolean ∧
  ((toml_find tbl key_bias_tee).bind Node.as_boolean = none →
    ba.gpio_button0 = (toml_find tbl key_gpio_button0).bind Node.as_boolean) ∧
  ((toml_find tbl key_gpio_button0).bind Node.as_boolean = none →
    ba.gpio_button0 = (toml_find tbl key_bias_tee).bind Node.as_boolean)

/-- A band sub-table in which `bias_tee` is true and `gpio_button0` is false, in
the order in which a table is iterated. -/
def tableBoth : Table :=
  [(key_bias_tee, Node.boolean true),
   (key_freq_from, Node.floating_point (Double.fin 1)),
   (key_freq_to, Node.floating_point (Double.fin 2)),
   (key_gpio_button0, Node.boolean false)]

/-- A band sub-table with a wrong-typed `name`, a letter that is no sampling mode,
an unknown key and a floating-point `samplerate`, in the order in which a table
is iterated. -/
def tableMixed : Table :=
  [(key_freq_from, Node.floating_point (Double.fin 1)),
   (key_freq_to, Node.floating_point (Double.fin 2)),
   (key_band_name, Node.integer 7),
   (key_sampling_mode, Node.string "X"),
   (key_samplerate, Node.floating_point (Double.fin 2400000)),
   ("whatever", Node.boolean true)]

/-- A band sub-table whose `samplerate` is the TOML integer 2400000. -/
def tableIntRate : Table :=
  [(key_freq_from, Node.floating_point (Double.fin 1)),
   (key_freq_to, Node.floating_point (Double.fin 2)),
   (key_samplerate, Node.integer 2400000)]

/-- An enabled document whose only band has an integer `samplerate`. -/
def docIntRate : Table :=
  [("bands", Node.table [("x", Node.table tableIntRate)]),
   (key_enable, Node.boolean true)]

/-! ## Lemmas on `scan_bands` -/

theorem scan_bands_some (f : Double) (l : List BandAction) (i j : Nat)
    (h : scan_bands f l i = some j) :
    ∃ k b, j = i + k ∧ l[k]? = some b ∧ b.contains f = true ∧
      ∀ m b0, m < k → l[m]? = some b0 → b0.contains f = false := by
  induction l generalizing i with
  | nil => simp [scan_bands] at h
  | cons band rest ih =>
    unfold scan_bands at h
    by_cases hc : band.contains f = true
    · rw [if_pos hc] at h
      refine ⟨0, band, ?_, by simp, hc, ?_⟩
      · simpa using h.symm
      · intro m b0 hm; omega
    · rw [if_neg hc] at h
      obtain ⟨k, b, hj, hb, hcb, hfirst⟩ := ih (i + 1) h
      refine ⟨k + 1, b, by omega, by simpa using hb, hcb, ?_⟩
      intro m b0 hm hget
      cases m with
      | zero =>
        simp at hget
        subst hget
        simpa using hc
      | succ m => exact hfirst m b0 (by omega) (by simpa using hget)

theorem scan_bands_none (f : Double) (l : List BandAction) (i : Nat)
    (h : scan_bands f l i = none) : ∀ b ∈ l, b.contains f = false := by
  induction l generalizing i with
  | nil => simp
  | cons band rest ih =>
    unfold scan_bands at h
    by_cases hc : band.contains f = true
    · rw [if_pos hc] at h; cases h
    · rw [if_neg hc] at h
      intro b hb
      rcases List.mem_cons.mp hb with rfl | hb
      · simpa using hc
      · exact ih (i + 1) h b hb

theorem scan_bands_first (f : Double) (l : List BandAction) (j : Nat)
    (h : scan_bands f l 0 = some j) : FirstMatch l f j := by
  obtain ⟨k, b, hj, hb, hc, hfirst⟩ := scan_bands_some f l 0 j h
  have hkj : j = k := by omega
  subst hkj
  exact ⟨b, hb, hc, hfirst⟩

theorem scan_bands_exists (f : Double) (l : List BandAction)
    (h : ∃ b ∈ l, b.contains f = true) : ∃ j, scan_bands f l 0 = some j := by
  cases hs : scan_bands f l 0 with
  | some j => exact ⟨j, rfl⟩
  | none =>
    obtain ⟨b, hb, hc⟩ := h
    have := scan_bands_none f l 0 hs b hb
    rw [hc] at this
    cases this

/-! ## Lemmas on `update_band_action` -/

theorem update_band_action_cases (f : Double) (g : Globals) :
    update_band_action f g = some (BandPtr.null, g) ∨
    update_band_action f g = none ∨
    (update_band_action f g = some (search_bands f g) ∧ g.band_actions ≠ [] ∧
      ∀ cur, g.deref g.current_band_action = some cur → cur.contains f = false) := by
  unfold update_band_action
  by_cases hlen : g.band_actions.length = 0
  · simp [hlen]
  · have hne : g.band_actions ≠ [] := fun h => hlen (by simp [h])
    rw [if_neg hlen]
    cases hp : g.current_band_action with
    | null =>
      right; right
      exact ⟨rfl, hne, by simp [Globals.deref]⟩
    | initial =>
      simp only [Globals.deref]
      by_cases hc : initial_band_action.contains f = true
      · left; simp [hc]
      · right; right
        refine ⟨by simp [hc, search_bands], hne, ?_⟩
        intro cur hcur
        simp at hcur
        subst hcur
        simpa using hc
    | elem i =>
      simp only [Globals.deref]
      cases hget : g.band_actions[i]? with
      | none => right; left; rfl
      | some cur =>
        by_cases hc : cur.contains f = true
        · left; simp [hc]
        · right; right
          refine ⟨by simp [hc, search_bands], hne, ?_⟩
          intro cur0 hcur0
          simp at hcur0
          subst hcur0
          simpa using hc

theorem search_bands_elem (f : Double) (g g1 : Globals) (j : Nat)
    (h : search_bands f g = (BandPtr.elem j, g1)) :
    scan_bands f g.band_actions 0 = some j ∧
      g1 = { g with current_band_action := BandPtr.elem j } := by
  unfold search_bands at h
  cases hs : scan_bands f g.band_actions 0 with
  | none => rw [hs] at h; simp at h
  | some i =>
    rw [hs] at h
    simp only [Prod.mk.injEq, BandPtr.elem.injEq] at h
    obtain ⟨hi, hg⟩ := h
    subst hi
    exact ⟨rfl, hg.symm⟩

theorem update_band_action_elem (f : Double) (g g1 : Globals) (j : Nat)
    (h : update_band_action f g = some (BandPtr.elem j, g1)) :
    scan_bands f g.band_actions 0 = some j ∧
      g1 = { g with current_band_action := BandPtr.elem j } ∧
      ∀ cur, g.deref g.current_band_action = some cur → cur.contains f = false := by
  rcases update_band_action_cases f g with h0 | h0 | ⟨h0, _, hcur⟩
  · rw [h0] at h; simp at h
  · rw [h0] at h; simp at h
  · rw [h0] at h
    simp only [Option.some.injEq] at h
    obtain ⟨hs, hg⟩ := search_bands_elem f g g1 j h
    exact ⟨hs, hg, hcur⟩

theorem scan_bands_eq_none (f : Double) (l : List BandAction)
    (h : ∀ b ∈ l, b.contains f = false) : scan_bands f l 0 = none := by
  cases hs : scan_bands f l 0 with
  | none => rfl
  | some j =>
    exfalso
    obtain ⟨b, hb, hc, _⟩ := scan_bands_first f l j hs
    have hmem : b ∈ l := List.getElem?_mem hb
    rw [h b hmem] at hc
    cases hc

theorem update_band_action_search (f : Double) (g : Globals)
    (hne : g.band_actions ≠ [])
    (hv : g.validPtr g.current_band_action = true)
    (hcur : ∀ c, g.deref g.current_band_action = some c → c.contains f = false) :
    update_band_action f g = some (search_bands f g) := by
  have hlen : ¬ g.band_actions.length = 0 := fun h => hne (List.length_eq_zero.mp h)
  unfold update_band_action
  rw [if_neg hlen]
  cases hp : g.current_band_action with
  | null => rfl
  | initial =>
    have := hcur initial_band_action (by rw [hp]; rfl)
    simp [Globals.deref, this, search_bands]
  | elem i =>
    rw [hp] at hv
    simp only [Globals.validPtr, decide_eq_true_eq] at hv
    have hget : g.band_actions[i]? = some (g.band_actions[i]) := List.getElem?_eq_getElem hv
    have := hcur (g.band_actions[i]) (by rw [hp]; simp [Globals.deref])
    simp [Globals.deref, hget, this, search_bands]

theorem initial_band_action_contains (f : Double) (hf : f ≠ Double.fin (-1)) :
    initial_band_action.contains f = false := by
  cases f with
  | nan => rfl
  | negInf => rfl
  | posInf => rfl
  | fin q =>
    have hq : q ≠ -1 := fun h => hf (by rw [h])
    simp only [BandAction.contains, initial_band_action, Double.le, Bool.and_eq_false_imp,
      decide_eq_true_eq, decide_eq_false_iff_not, not_le]
    intro h1
    exact lt_of_le_of_ne h1 (Ne.symm hq)

/-! ## Theorems on `update_band_action` -/

/-- C1: whenever `update_band_action f` returns a band, that band is the first
band in list order whose inclusive interval contains `f`: a returned pointer
that is not null points to an element of the band list, at an index `j`, that
element contains `f`, and no earlier element does. -/
theorem update_band_action_returns_first (f : Double) (g g1 : Globals) (p : BandPtr)
    (h : update_band_action f g = some (p, g1)) :
    p = BandPtr.null ∨ ∃ j, p = BandPtr.elem j ∧ FirstMatch g.band_actions f j := by
  rcases update_band_action_cases f g with h0 | h0 | ⟨h0, _, _⟩
  · rw [h0] at h
    simp only [Option.some.injEq, Prod.mk.injEq] at h
    exact Or.inl h.1.symm
  · rw [h0] at h; cases h
  · rw [h0] at h
    simp only [Option.some.injEq] at h
    unfold search_bands at h
    cases hs : scan_bands f g.band_actions 0 with
    | none =>
      rw [hs] at h
      simp only [Prod.mk.injEq] at h
      exact Or.inl h.1.symm
    | some j =>
      rw [hs] at h
      simp only [Prod.mk.injEq] at h
      exact Or.inr ⟨j, h.1.symm, scan_bands_first f g.band_actions j hs⟩

/-- Witness of C1: with `A = [0, 13e6]` followed by `B = [13e6, 24.5e6]` and the
initial cursor, the call at `13e6` returns `A` (index 0), not `B`, and the
returned band is the first band that contains `13e6`. -/
theorem update_band_action_returns_first_witness :
    update_band_action (Double.fin 13000000) (loaded bandsAB)
        = some (BandPtr.elem 0, { loaded bandsAB with current_band_action := BandPtr.elem 0 }) ∧
      (BandPtr.elem 0 = BandPtr.null ∨
        ∃ j, BandPtr.elem 0 = BandPtr.elem j ∧
          FirstMatch (loaded bandsAB).band_actions (Double.fin 13000000) j) :=
  ⟨by decide,
   update_band_action_returns_first (Double.fin 13000000) (loaded bandsAB)
     { loaded bandsAB with current_band_action := BandPtr.elem 0 } (BandPtr.elem 0) (by decide)⟩

/-- C2: if the cursor points to a band `b` (readable through the cursor) whose
inclusive interval contains `f`, the call returns none (the null pointer) and
changes nothing, the cursor included; consequently, right after a call at `f`
that returned a band, a second call at the same `f` returns none. -/
theorem update_band_action_still_in_band (f : Double) (g : Globals) :
    (∀ b, g.deref g.current_band_action = some b → b.contains f = true →
        update_band_action f g = some (BandPtr.null, g)) ∧
    (∀ j g1, update_band_action f g = some (BandPtr.elem j, g1) →
        update_band_action f g1 = some (BandPtr.null, g1)) := by
  have key : ∀ (g0 : Globals) (b : BandAction), g0.deref g0.current_band_action = some b →
      b.contains f = true → update_band_action f g0 = some (BandPtr.null, g0) := by
    intro g0 b hb hc
    rcases update_band_action_cases f g0 with h0 | h0 | ⟨_, _, hcur⟩
    · exact h0
    · exfalso
      unfold update_band_action at h0
      by_cases hlen : g0.band_actions.length = 0
      · simp [hlen] at h0
      · rw [if_neg hlen] at h0
        cases hp : g0.current_band_action with
        | null => rw [hp] at hb; simp [Globals.deref] at hb
        | initial => rw [hp] at hb h0; simp [hb, hc] at h0
        | elem i => rw [hp] at hb h0; simp [hb, hc] at h0
    · rw [hcur b hb] at hc; cases hc
  refine ⟨key g, ?_⟩
  intro j g1 h
  obtain ⟨hs, hg, _⟩ := update_band_action_elem f g g1 j h
  obtain ⟨b, hb, hc, _⟩ := scan_bands_first f g.band_actions j hs
  apply key g1 b ?_ hc
  subst hg
  simpa [Globals.deref] using hb

/-- Witness of C2: with the bands `A`, `B` and the cursor on `A`, the call at
`5e6` returns none and changes nothing; and after the call at `5e6` from the
initial cursor returned `A`, the second call at `5e6` returns none. -/
theorem update_band_action_still_in_band_witness :
    update_band_action (Double.fin 5000000)
        { loaded bandsAB with current_band_action := BandPtr.elem 0 }
      = some (BandPtr.null, { loaded bandsAB with current_band_action := BandPtr.elem 0 }) ∧
    (update_band_action (Double.fin 5000000) (loaded bandsAB)
        = some (BandPtr.elem 0, { loaded bandsAB with current_band_action := BandPtr.elem 0 }) ∧
     update_band_action (Double.fin 5000000)
        { loaded bandsAB with current_band_action := BandPtr.elem 0 }
      = some (BandPtr.null, { loaded bandsAB with current_band_action := BandPtr.elem 0 })) :=
  ⟨(update_band_action_still_in_band (Double.fin 5000000)
      { loaded bandsAB with current_band_action := BandPtr.elem 0 }).1
      { id := "1", freq_from := Double.fin 0, freq_to := Double.fin 13000000 }
      (by decide) (by decide),
   by decide,
   (update_band_action_still_in_band (Double.fin 5000000) (loaded bandsAB)).2 0
      { loaded bandsAB with current_band_action := BandPtr.elem 0 } (by decide)⟩

/-- C3: a band is returned only when the current band changes: if the call
returns the band at index `j`, the cursor before the call was not that list
element (and the band it pointed to, if any, did not contain `f`, while the
returned one does), and after the call the cursor is that element. -/
theorem update_band_action_returns_change (f : Double) (g g1 : Globals) (j : Nat)
    (h : update_band_action f g = some (BandPtr.elem j, g1)) :
    g.current_band_action ≠ BandPtr.elem j ∧
      g1.current_band_action = BandPtr.elem j ∧
      (∀ cur b, g.deref g.current_band_action = some cur → g.band_actions[j]? = some b →
        cur ≠ b) := by
  obtain ⟨hs, hg, hcur⟩ := update_band_action_elem f g g1 j h
  obtain ⟨b, hb, hc, _⟩ := scan_bands_first f g.band_actions j hs
  refine ⟨?_, by rw [hg], ?_⟩
  · intro hp
    have := hcur b (by rw [hp]; simpa [Globals.deref] using hb)
    rw [hc] at this
    cases this
  · intro cur b0 hcur0 hb0 heq
    rw [hb] at hb0
    simp only [Option.some.injEq] at hb0
    subst hb0
    subst heq
    rw [hcur cur hcur0] at hc
    cases hc

/-- Witness of C3: with the bands `A`, `B` and the cursor on `A`, the call at
`20e6` returns `B`; the cursor was not on `B` before and is on `B` after. -/
theorem update_band_action_returns_change_witness :
    ({ loaded bandsAB with current_band_action := BandPtr.elem 0 } : Globals).current_band_action
        ≠ BandPtr.elem 1 ∧
      ({ loaded bandsAB with current_band_action := BandPtr.elem 1 } : Globals).current_band_action
        = BandPtr.elem 1 :=
  ⟨(update_band_action_returns_change (Double.fin 20000000)
      { loaded bandsAB with current_band_action := BandPtr.elem 0 }
      { loaded bandsAB with current_band_action := BandPtr.elem 1 } 1 (by decide)).1,
   (update_band_action_returns_change (Double.fin 20000000)
      { loaded bandsAB with current_band_action := BandPtr.elem 0 }
      { loaded bandsAB with current_band_action := BandPtr.elem 1 } 1 (by decide)).2.1⟩

/-- C4: on a non-empty band list, with a cursor that does not dangle, a call at a
frequency `x` that lies in no band and not in the band under the cursor returns
none and sets the cursor to null; and the following call at a frequency `f` that
lies in some band returns the first band containing `f`, whichever band was
current before the call at `x`. -/
theorem update_band_action_gap (x : Double) (g : Globals)
    (hne : g.band_actions ≠ [])
    (hv : g.validPtr g.current_band_action = true)
    (hno : ∀ b ∈ g.band_actions, b.contains x = false)
    (hcur : ∀ c, g.deref g.current_band_action = some c → c.contains x = false) :
    update_band_action x g = some (BandPtr.null, { g with current_band_action := BandPtr.null }) ∧
    ∀ f, (∃ b ∈ g.band_actions, b.contains f = true) →
      ∃ j, update_band_action f { g with current_band_action := BandPtr.null }
          = some (BandPtr.elem j, { g with current_band_action := BandPtr.elem j }) ∧
        FirstMatch g.band_actions f j := by
  constructor
  · rw [update_band_action_search x g hne hv hcur]
    simp [search_bands, scan_bands_eq_none x g.band_actions hno]
  · intro f hex
    obtain ⟨j, hj⟩ := scan_bands_exists f g.band_actions hex
    refine ⟨j, ?_, scan_bands_first f g.band_actions j hj⟩
    rw [update_band_action_search f { g with current_band_action := BandPtr.null } hne rfl
      (by intro c hc; simp [Globals.deref] at hc)]
    simp [search_bands, hj]

/-- Witness of C4: with the bands `A`, `B` and the cursor on `A`, the call at `1e9`
returns none and clears the cursor, and the following call at `5e6` returns `A`
again. -/
theorem update_band_action_gap_witness :
    update_band_action (Double.fin 1000000000)
        { loaded bandsAB with current_band_action := BandPtr.elem 0 }
      = some (BandPtr.null, { loaded bandsAB with current_band_action := BandPtr.null }) ∧
    ∃ j, update_band_action (Double.fin 5000000)
          { loaded bandsAB with current_band_action := BandPtr.null }
        = some (BandPtr.elem j, { loaded bandsAB with current_band_action := BandPtr.elem j }) ∧
      FirstMatch bandsAB (Double.fin 5000000) j :=
  ⟨(update_band_action_gap (Double.fin 1000000000)
      { loaded bandsAB with current_band_action := BandPtr.elem 0 }
      (by decide) (by decide) (by decide) (by decide)).1,
   (update_band_action_gap (Double.fin 1000000000)
      { loaded bandsAB with current_band_action := BandPtr.elem 0 }
      (by decide) (by decide) (by decide) (by decide)).2 (Double.fin 5000000)
      ⟨{ id := "1", freq_from := Double.fin 0, freq_to := Double.fin 13000000 },
        by decide, by decide⟩⟩

/-- C5, as stated, fails: from the initial cursor, with the single band `[-2, 0]`,
the call at `-1.0` returns none although that band is the first band containing
`-1.0`: the sentinel, whose bounds are both `-1.0`, matches that frequency. -/
theorem update_band_action_sentinel_matches :
    (loaded bandsNeg).band_actions ≠ [] ∧
    (loaded bandsNeg).current_band_action = BandPtr.initial ∧
    FirstMatch (loaded bandsNeg).band_actions (Double.fin (-1)) 0 ∧
    update_band_action (Double.fin (-1)) (loaded bandsNeg) = some (BandPtr.null, loaded bandsNeg) :=
  ⟨by decide, rfl,
   ⟨{ id := "n", freq_from := Double.fin (-2), freq_to := Double.fin 0 }, rfl, by decide,
     fun i _ hi _ => absurd hi (Nat.not_lt_zero i)⟩,
   by decide⟩

/-- C5, amended: for every frequency `f` other than `-1.0` (so for every
frequency that is not negative, and also for NaN and the infinities), the first
call made with the initial sentinel cursor returns the first band whose interval
contains `f`, when such a band exists, and sets the cursor to it. -/
theorem update_band_action_from_initial (f : Double) (g : Globals)
    (hinit : g.current_band_action = BandPtr.initial)
    (hf : f ≠ Double.fin (-1))
    (hex : ∃ b ∈ g.band_actions, b.contains f = true) :
    ∃ j, update_band_action f g
        = some (BandPtr.elem j, { g with current_band_action := BandPtr.elem j }) ∧
      FirstMatch g.band_actions f j := by
  obtain ⟨j, hj⟩ := scan_bands_exists f g.band_actions hex
  have hne : g.band_actions ≠ [] := by
    obtain ⟨b, hb, _⟩ := hex
    exact List.ne_nil_of_mem hb
  refine ⟨j, ?_, scan_bands_first f g.band_actions j hj⟩
  rw [update_band_action_search f g hne (by rw [hinit]; rfl)
    (by
      intro c hc
      rw [hinit] at hc
      simp only [Globals.deref, Option.some.injEq] at hc
      subst hc
      exact initial_band_action_contains f hf)]
  simp [search_bands, hj]

/-- Witness of C5, amended: from the initial cursor, with the bands `A`, `B`, the
call at `13e6` returns a first band containing that frequency. -/
theorem update_band_action_from_initial_witness :
    ∃ j, update_band_action (Double.fin 13000000) (loaded bandsAB)
        = some (BandPtr.elem j, { loaded bandsAB with current_band_action := BandPtr.elem j }) ∧
      FirstMatch (loaded bandsAB).band_actions (Double.fin 13000000) j :=
  update_band_action_from_initial (Double.fin 13000000) (loaded bandsAB) rfl (by decide)
    ⟨{ id := "1", freq_from := Double.fin 0, freq_to := Double.fin 13000000 },
      by decide, by decide⟩

/-- C6: with an empty band list, `update_band_action f` returns none (the null
pointer) and changes nothing, for every frequency and every cursor. -/
theorem update_band_action_empty (f : Double) (g : Globals) :
    update_band_action f { g with band_actions := [] }
      = some (BandPtr.null, { g with band_actions := [] }) := by
  simp [update_band_action]

/-- C7: `update_band_action` changes nothing but the cursor: whenever a call
returns, the configuration path, the band list, the load status and the
`processed` flag are what they were before it; and a call returns whenever the
cursor does not dangle. -/
theorem update_band_action_frame (f : Double) (g : Globals) :
    (∀ p g1, update_band_action f g = some (p, g1) →
      g1.confFile = g.confFile ∧ g1.band_actions = g.band_actions ∧
      g1.band_status = g.band_status ∧ g1.processed = g.processed) ∧
    (g.validPtr g.current_band_action = true →
      ∃ p c, update_band_action f g = some (p, { g with current_band_action := c })) := by
  have hsearch : ∃ c, (search_bands f g).2 = { g with current_band_action := c } := by
    unfold search_bands
    cases scan_bands f g.band_actions 0 with
    | none => exact ⟨BandPtr.null, rfl⟩
    | some i => exact ⟨BandPtr.elem i, rfl⟩
  constructor
  · intro p g1 h
    rcases update_band_action_cases f g with h0 | h0 | ⟨h0, _, _⟩
    · rw [h0] at h
      simp only [Option.some.injEq, Prod.mk.injEq] at h
      rw [← h.2]
      exact ⟨rfl, rfl, rfl, rfl⟩
    · rw [h0] at h; cases h
    · rw [h0] at h
      simp only [Option.some.injEq] at h
      obtain ⟨c, hc⟩ := hsearch
      rw [h] at hc
      simp only at hc
      rw [hc]
      exact ⟨rfl, rfl, rfl, rfl⟩
  · intro hv
    rcases update_band_action_cases f g with h0 | h0 | ⟨h0, _, _⟩
    · exact ⟨BandPtr.null, g.current_band_action, by rw [h0]⟩
    · exfalso
      unfold update_band_action at h0
      by_cases hlen : g.band_actions.length = 0
      · simp [hlen] at h0
      · rw [if_neg hlen] at h0
        cases hp : g.current_band_action with
        | null => rw [hp] at h0; simp at h0
        | initial =>
          rw [hp] at h0
          simp only [Globals.deref] at h0
          split at h0 <;> simp at h0
        | elem i =>
          rw [hp] at h0 hv
          simp only [Globals.validPtr, decide_eq_true_eq] at hv
          simp only [Globals.deref, List.getElem?_eq_getElem hv] at h0
          split at h0 <;> simp at h0
    · obtain ⟨c, hc⟩ := hsearch
      exact ⟨(search_bands f g).1, c, by rw [h0, ← hc]⟩

/-- Witness of C7: the call at `13e6` from the initial cursor with the bands `A`,
`B` returns, and leaves the path, the band list, the status and the flag as
they were. -/
theorem update_band_action_frame_witness :
    (({ loaded bandsAB with current_band_action := BandPtr.elem 0 } : Globals).confFile
        = (loaded bandsAB).confFile ∧
      ({ loaded bandsAB with current_band_action := BandPtr.elem 0 } : Globals).band_actions
        = (loaded bandsAB).band_actions ∧
      ({ loaded bandsAB with current_band_action := BandPtr.elem 0 } : Globals).band_status
        = (loaded bandsAB).band_status ∧
      ({ loaded bandsAB with current_band_action := BandPtr.elem 0 } : Globals).processed
        = (loaded bandsAB).processed) ∧
    ∃ p c, update_band_action (Double.fin 13000000) (loaded bandsAB)
      = some (p, { loaded bandsAB with current_band_action := c }) :=
  ⟨(update_band_action_frame (Double.fin 13000000) (loaded bandsAB)).1 (BandPtr.elem 0)
      { loaded bandsAB with current_band_action := BandPtr.elem 0 } (by decide),
   (update_band_action_frame (Double.fin 13000000) (loaded bandsAB)).2 (by decide)⟩

/-! ## Lemmas on the stream and on `parse_band_action` -/

theorem OfStream.Extends.refl (out : OfStream) : out.Extends out := ⟨rfl, [], by simp⟩

theorem OfStream.Extends.trans {a b c : OfStream} (h1 : a.Extends b) (h2 : b.Extends c) :
    a.Extends c := by
  obtain ⟨ho1, e1, he1⟩ := h1
  obtain ⟨ho2, e2, he2⟩ := h2
  exact ⟨by rw [ho2, ho1], e1 ++ e2, by rw [he2, he1, List.append_assoc]⟩

theorem OfStream.extends_write (out : OfStream) (frags : List Frag) :
    out.Extends (out.write frags) := by
  unfold OfStream.write
  split
  · exact ⟨rfl, frags, rfl⟩
  · exact OfStream.Extends.refl out

theorem is_expected_value_type_true (id key ek : String) (val : Node) (out out1 : OfStream)
    (h : is_expected_value_type id key ek val out = (true, out1)) :
    key = ek ∧ val.is_number = true ∧ out1 = out := by
  unfold is_expected_value_type at h
  split_ifs at h with h1 h2
  · simp at h
  · simp at h; simp at h2; exact ⟨h1, h2, h.symm⟩
  · simp at h

theorem is_expected_value_type_false (id key ek : String) (val : Node) (out out1 : OfStream)
    (h : is_expected_value_type id key ek val out = (false, out1)) :
    out.Extends out1 := by
  unfold is_expected_value_type at h
  split_ifs at h with h1 h2
  · simp at h; rw [← h]; exact OfStream.extends_write _ _
  · simp at h
  · simp at h; rw [← h]; exact OfStream.Extends.refl _

theorem is_expected_bool_type_true (id key ek : String) (val : Node) (out out1 : OfStream)
    (h : is_expected_bool_type id key ek val out = (true, out1)) :
    key = ek ∧ val.is_boolean = true ∧ out1 = out := by
  unfold is_expected_bool_type at h
  split_ifs at h with h1 h2
  · simp at h
  · simp at h; simp at h2; exact ⟨h1, h2, h.symm⟩
  · simp at h

theorem is_expected_bool_type_false (id key ek : String) (val : Node) (out out1 : OfStream)
    (h : is_expected_bool_type id key ek val out = (false, out1)) :
    out.Extends out1 := by
  unfold is_expected_bool_type at h
  split_ifs at h with h1 h2
  · simp at h; rw [← h]; exact OfStream.extends_write _ _
  · simp at h
  · simp at h; rw [← h]; exact OfStream.Extends.refl _

theorem numeric_field_cases (key : String) (val : Node) {ba : BandAction} {out : OfStream}
    (set : Double → BandAction) (o : OfStream) (hext : out.Extends o)
    (hk : key ∈ numeric_keys) (hnum : val.is_number = true)
    (hset : ∀ d, SameKey ba (set d)) :
    (Option.map (fun d => (set d, o)) val.as_floating_point = none ∧ key ∈ numeric_keys ∧
        val.is_integer = true) ∨
    (∃ ba1 out1, Option.map (fun d => (set d, o)) val.as_floating_point = some (ba1, out1) ∧
      SameKey ba ba1 ∧ out.Extends out1) := by
  cases val with
  | integer i => exact Or.inl ⟨rfl, hk, rfl⟩
  | floating_point d => exact Or.inr ⟨_, _, rfl, hset d, hext⟩
  | _ => simp [Node.is_number, Node.is_integer, Node.is_floating_point] at hnum

theorem band_field_cases (id key : String) (val : Node) (ba : BandAction) (out : OfStream) :
    (band_field id key val ba out = none ∧ key ∈ numeric_keys ∧ val.is_integer = true) ∨
    (∃ ba1 out1, band_field id key val ba out = some (ba1, out1) ∧ SameKey ba ba1 ∧
      out.Extends out1) := by
  unfold band_field
  split_ifs
  · exact Or.inr ⟨ba, out, rfl, ⟨rfl, rfl, rfl⟩, OfStream.Extends.refl _⟩
  · exact Or.inr ⟨ba, _, rfl, ⟨rfl, rfl, rfl⟩, OfStream.extends_write _ _⟩
  · obtain ⟨str, hstr⟩ : ∃ str, val.as_string = some str := by
      cases val <;> simp_all [Node.is_string, Node.as_string]
    rw [hstr]
    exact Or.inr ⟨_, _, rfl, ⟨rfl, rfl, rfl⟩, OfStream.Extends.refl _⟩
  · exact Or.inr ⟨ba, _, rfl, ⟨rfl, rfl, rfl⟩, OfStream.extends_write _ _⟩
  · obtain ⟨str, hstr⟩ : ∃ str, val.as_string = some str := by
      cases val <;> simp_all [Node.is_string, Node.as_string]
    rw [hstr]
    simp only [Option.map_some']
    split_ifs
    · exact Or.inr ⟨_, _, rfl, ⟨rfl, rfl, rfl⟩, OfStream.Extends.refl _⟩
    · exact Or.inr ⟨_, _, rfl, ⟨rfl, rfl, rfl⟩, OfStream.extends_write _ _⟩
  · exact Or.inr ⟨ba, _, rfl, ⟨rfl, rfl, rfl⟩, OfStream.extends_write _ _⟩
  · obtain ⟨str, hstr⟩ : ∃ str, val.as_string = some str := by
      cases val <;> simp_all [Node.is_string, Node.as_string]
    rw [hstr]
    simp only [Option.map_some']
    split_ifs
    · exact Or.inr ⟨_, _, rfl, ⟨rfl, rfl, rfl⟩, OfStream.Extends.refl _⟩
    · exact Or.inr ⟨_, _, rfl, ⟨rfl, rfl, rfl⟩, OfStream.extends_write _ _⟩
  · have hext0 : out.Extends out := OfStream.Extends.refl out
    split
    · rename_i o heq
      obtain ⟨hk, hnum, ho⟩ := is_expected_value_type_true _ _ _ _ _ _ heq
      subst ho
      exact numeric_field_cases key val _ _ hext0 (by rw [hk]; decide) hnum
        (fun _ => ⟨rfl, rfl, rfl⟩)
    rename_i o1 heq1
    have hext1 := hext0.trans (is_expected_value_type_false _ _ _ _ _ _ heq1)
    split
    · rename_i o heq
      obtain ⟨hk, hnum, ho⟩ := is_expected_value_type_true _ _ _ _ _ _ heq
      subst ho
      exact numeric_field_cases key val _ _ hext1 (by rw [hk]; decide) hnum
        (fun _ => ⟨rfl, rfl, rfl⟩)
    rename_i o2 heq2
    have hext2 := hext1.trans (is_expected_value_type_false _ _ _ _ _ _ heq2)
    split
    · rename_i o heq
      obtain ⟨hk, hnum, ho⟩ := is_expected_value_type_true _ _ _ _ _ _ heq
      subst ho
      exact numeric_field_cases key val _ _ hext2 (by rw [hk]; decide) hnum
        (fun _ => ⟨rfl, rfl, rfl⟩)
    rename_i o3 heq3
    have hext3 := hext2.trans (is_expected_value_type_false _ _ _ _ _ _ heq3)
    split
    · rename_i o heq
      obtain ⟨hk, hnum, ho⟩ := is_expected_value_type_true _ _ _ _ _ _ heq
      subst ho
      exact numeric_field_cases key val _ _ hext3 (by rw [hk]; decide) hnum
        (fun _ => ⟨rfl, rfl, rfl⟩)
    rename_i o4 heq4
    have hext4 := hext3.trans (is_expected_value_type_false _ _ _ _ _ _ heq4)
    split
    · rename_i o heq
      obtain ⟨hk, hnum, ho⟩ := is_expected_value_type_true _ _ _ _ _ _ heq
      subst ho
      exact numeric_field_cases key val _ _ hext4 (by rw [hk]; decide) hnum
        (fun _ => ⟨rfl, rfl, rfl⟩)
    rename_i o5 heq5
    have hext5 := hext4.trans (is_expected_value_type_false _ _ _ _ _ _ heq5)
    split
    · rename_i o heq
      obtain ⟨hk, hnum, ho⟩ := is_expected_bool_type_true _ _ _ _ _ _ heq
      subst ho
      obtain ⟨d, hd⟩ : ∃ d, val.as_boolean = some d := by
        cases val <;> simp_all [Node.is_boolean, Node.as_boolean]
      rw [hd]
      exact Or.inr ⟨_, _, rfl, ⟨rfl, rfl, rfl⟩, hext5⟩
    rename_i o6 heq6
    have hext6 := hext5.trans (is_expected_bool_type_false _ _ _ _ _ _ heq6)
    split
    · rename_i o heq
      obtain ⟨hk, hnum, ho⟩ := is_expected_bool_type_true _ _ _ _ _ _ heq
      subst ho
      obtain ⟨d, hd⟩ : ∃ d, val.as_boolean = some d := by
        cases val <;> simp_all [Node.is_boolean, Node.as_boolean]
      rw [hd]
      exact Or.inr ⟨_, _, rfl, ⟨rfl, rfl, rfl⟩, hext6⟩
    rename_i o7 heq7
    have hext7 := hext6.trans (is_expected_bool_type_false _ _ _ _ _ _ heq7)
    split
    · rename_i o heq
      obtain ⟨hk, hnum, ho⟩ := is_expected_bool_type_true _ _ _ _ _ _ heq
      subst ho
      obtain ⟨d, hd⟩ : ∃ d, val.as_boolean = some d := by
        cases val <;> simp_all [Node.is_boolean, Node.as_boolean]
      rw [hd]
      exact Or.inr ⟨_, _, rfl, ⟨rfl, rfl, rfl⟩, hext7⟩
    rename_i o8 heq8
    have hext8 := hext7.trans (is_expected_bool_type_false _ _ _ _ _ _ heq8)
    split
    · rename_i o heq
      obtain ⟨hk, hnum, ho⟩ := is_expected_bool_type_true _ _ _ _ _ _ heq
      subst ho
      obtain ⟨d, hd⟩ : ∃ d, val.as_boolean = some d := by
        cases val <;> simp_all [Node.is_boolean, Node.as_boolean]
      rw [hd]
      exact Or.inr ⟨_, _, rfl, ⟨rfl, rfl, rfl⟩, hext8⟩
    rename_i o9 heq9
    have hext9 := hext8.trans (is_expected_bool_type_false _ _ _ _ _ _ heq9)
    split
    · rename_i o heq
      obtain ⟨hk, hnum, ho⟩ := is_expected_bool_type_true _ _ _ _ _ _ heq
      subst ho
      obtain ⟨d, hd⟩ : ∃ d, val.as_boolean = some d := by
        cases val <;> simp_all [Node.is_boolean, Node.as_boolean]
      rw [hd]
      exact Or.inr ⟨_, _, rfl, ⟨rfl, rfl, rfl⟩, hext9⟩
    rename_i o10 heq10
    have hext10 := hext9.trans (is_expected_bool_type_false _ _ _ _ _ _ heq10)
    split
    · rename_i o heq
      obtain ⟨hk, hnum, ho⟩ := is_expected_bool_type_true _ _ _ _ _ _ heq
      subst ho
      obtain ⟨d, hd⟩ : ∃ d, val.as_boolean = some d := by
        cases val <;> simp_all [Node.is_boolean, Node.as_boolean]
      rw [hd]
      exact Or.inr ⟨_, _, rfl, ⟨rfl, rfl, rfl⟩, hext10⟩
    rename_i o11 heq11
    have hext11 := hext10.trans (is_expected_bool_type_false _ _ _ _ _ _ heq11)
    split
    · rename_i o heq
      obtain ⟨hk, hnum, ho⟩ := is_expected_bool_type_true _ _ _ _ _ _ heq
      subst ho
      obtain ⟨d, hd⟩ : ∃ d, val.as_boolean = some d := by
        cases val <;> simp_all [Node.is_boolean, Node.as_boolean]
      rw [hd]
      exact Or.inr ⟨_, _, rfl, ⟨rfl, rfl, rfl⟩, hext11⟩
    rename_i o12 heq12
    have hext12 := hext11.trans (is_expected_bool_type_false _ _ _ _ _ _ heq12)
    split
    · rename_i o heq
      obtain ⟨hk, hnum, ho⟩ := is_expected_bool_type_true _ _ _ _ _ _ heq
      subst ho
      obtain ⟨d, hd⟩ : ∃ d, val.as_boolean = some d := by
        cases val <;> simp_all [Node.is_boolean, Node.as_boolean]
      rw [hd]
      exact Or.inr ⟨_, _, rfl, ⟨rfl, rfl, rfl⟩, hext12⟩
    rename_i o13 heq13
    have hext13 := hext12.trans (is_expected_bool_type_false _ _ _ _ _ _ heq13)
    split
    · rename_i o heq
      obtain ⟨hk, hnum, ho⟩ := is_expected_bool_type_true _ _ _ _ _ _ heq
      subst ho
      obtain ⟨d, hd⟩ : ∃ d, val.as_boolean = some d := by
        cases val <;> simp_all [Node.is_boolean, Node.as_boolean]
      rw [hd]
      exact Or.inr ⟨_, _, rfl, ⟨rfl, rfl, rfl⟩, hext13⟩
    rename_i o14 heq14
    have hext14 := hext13.trans (is_expected_bool_type_false _ _ _ _ _ _ heq14)
    exact Or.inr ⟨ba, _, rfl, ⟨rfl, rfl, rfl⟩, hext14.trans (OfStream.extends_write _ _)⟩

theorem SameKey.compose {a b c : BandAction} (h1 : SameKey a b) (h2 : SameKey b c) :
    SameKey a c :=
  ⟨h2.1.trans h1.1, h2.2.1.trans h1.2.1, h2.2.2.trans h1.2.2⟩

theorem band_fields_some (id : String) (tbl : Table) (ba : BandAction) (out : OfStream)
    (ba1 : BandAction) (out1 : OfStream)
    (h : band_fields id tbl ba out = some (ba1, out1)) :
    SameKey ba ba1 ∧ out.Extends out1 := by
  induction tbl generalizing ba out with
  | nil =>
    simp only [band_fields, Option.some.injEq, Prod.mk.injEq] at h
    rw [← h.1, ← h.2]
    exact ⟨⟨rfl, rfl, rfl⟩, OfStream.Extends.refl _⟩
  | cons e rest ih =>
    obtain ⟨key, val⟩ := e
    unfold band_fields at h
    rcases band_field_cases id key val ba out with ⟨hn, _, _⟩ | ⟨ba2, out2, hs, hk, he⟩
    · rw [hn] at h; cases h
    · rw [hs] at h
      obtain ⟨hk2, he2⟩ := ih ba2 out2 h
      exact ⟨hk.compose hk2, he.trans he2⟩

theorem band_fields_total (id : String) (tbl : Table) (ba : BandAction) (out : OfStream)
    (h : numeric_ok tbl = true) :
    ∃ ba1 out1, band_fields id tbl ba out = some (ba1, out1) := by
  induction tbl generalizing ba out with
  | nil => exact ⟨ba, out, rfl⟩
  | cons e rest ih =>
    obtain ⟨key, val⟩ := e
    simp only [numeric_ok, List.all_cons, Bool.and_eq_true, Bool.not_eq_true',
      Bool.and_eq_false_imp, decide_eq_true_eq] at h
    obtain ⟨hhead, hrest⟩ := h
    unfold band_fields
    rcases band_field_cases id key val ba out with ⟨_, hk, hi⟩ | ⟨ba2, out2, hs, _, _⟩
    · rw [hhead hk] at hi; cases hi
    · rw [hs]
      exact ih ba2 out2 (by simpa [numeric_ok] using hrest)

theorem float_bounds_true (tbl : Table) (h : float_bounds tbl = true) :
    ∃ a b, toml_find tbl key_freq_from = some (Node.floating_point a) ∧
      toml_find tbl key_freq_to = some (Node.floating_point b) := by
  unfold float_bounds at h
  split at h
  · rename_i x y hx hy
    simp only [Bool.and_eq_true] at h
    cases x <;> simp [Node.is_floating_point] at h
    cases y <;> simp [Node.is_floating_point] at h
    exact ⟨_, _, hx, hy⟩
  · cases h

theorem band_bounds_invalid (id : String) (tbl : Table) (out : OfStream)
    (h : float_bounds tbl = false) :
    ∃ out1, band_bounds id tbl out = Sum.inr out1 ∧ out.Extends out1 := by
  unfold band_bounds
  unfold float_bounds at h
  cases hf : toml_find tbl key_freq_from with
  | none => exact ⟨_, rfl, OfStream.extends_write _ _⟩
  | some x =>
    simp only
    by_cases hx : x.is_floating_point = true
    · rw [hx]
      simp only [Bool.not_true, Bool.false_eq_true, if_false]
      cases ht : toml_find tbl key_freq_to with
      | none => exact ⟨_, rfl, OfStream.extends_write _ _⟩
      | some y =>
        simp only
        by_cases hy : y.is_floating_point = true
        · rw [hf, ht] at h
          simp [hx, hy] at h
        · simp only [Bool.not_eq_true] at hy
          rw [hy]
          exact ⟨_, rfl, OfStream.extends_write _ _⟩
    · simp only [Bool.not_eq_true] at hx
      rw [hx]
      exact ⟨_, rfl, OfStream.extends_write _ _⟩

theorem band_bounds_valid (id : String) (tbl : Table) (out : OfStream) (a b : Double)
    (ha : toml_find tbl key_freq_from = some (Node.floating_point a))
    (hb : toml_find tbl key_freq_to = some (Node.floating_point b)) :
    band_bounds id tbl out = Sum.inl (some (bounds_record id a b out)) := by
  unfold band_bounds bounds_record
  rw [ha, hb]
  simp only [Node.is_floating_point, Bool.not_true, Bool.false_eq_true, if_false,
    Node.as_floating_point, Option.some_bind, Option.map_some']

theorem parse_band_action_invalid (id : String) (tbl : Table) (g : Globals) (out : OfStream)
    (h : float_bounds tbl = false) :
    ∃ out1, parse_band_action id tbl g out = some (g, out1) ∧ out.Extends out1 := by
  obtain ⟨out1, hb, he⟩ := band_bounds_invalid id tbl out h
  exact ⟨out1, by simp [parse_band_action, hb], he⟩

theorem parse_band_action_some (id : String) (tbl : Table) (g : Globals) (out : OfStream)
    (a b : Double)
    (ha : toml_find tbl key_freq_from = some (Node.floating_point a))
    (hb : toml_find tbl key_freq_to = some (Node.floating_point b))
    (g1 : Globals) (out1 : OfStream)
    (h : parse_band_action id tbl g out = some (g1, out1)) :
    ∃ ba, g1 = { g with band_actions := g.band_actions ++ [ba] } ∧
      SameKey (bounds_record id a b out).1 ba ∧ (bounds_record id a b out).2.Extends out1 := by
  unfold parse_band_action at h
  rw [band_bounds_valid id tbl out a b ha hb] at h
  simp only at h
  cases hf : band_fields id tbl (bounds_record id a b out).1 (bounds_record id a b out).2 with
  | none => rw [hf] at h; cases h
  | some r =>
    obtain ⟨ba, out2⟩ := r
    rw [hf] at h
    simp only [Option.some.injEq, Prod.mk.injEq] at h
    obtain ⟨hk, he⟩ := band_fields_some id tbl _ _ ba out2 hf
    refine ⟨ba, h.1.symm, hk, ?_⟩
    rw [← h.2]
    exact he.trans (OfStream.extends_write _ _)

theorem parse_band_action_total (id : String) (tbl : Table) (g : Globals) (out : OfStream)
    (h : numeric_ok tbl = true) :
    ∃ g1 out1, parse_band_action id tbl g out = some (g1, out1) := by
  by_cases hfb : float_bounds tbl = true
  · obtain ⟨a, b, ha, hb⟩ := float_bounds_true tbl hfb
    unfold parse_band_action
    rw [band_bounds_valid id tbl out a b ha hb]
    simp only
    obtain ⟨ba1, out1, hf⟩ := band_fields_total id tbl (bounds_record id a b out).1
      (bounds_record id a b out).2 h
    rw [hf]
    exact ⟨_, _, rfl⟩
  · simp only [Bool.not_eq_true] at hfb
    obtain ⟨out1, hp, _⟩ := parse_band_action_invalid id tbl g out hfb
    exact ⟨g, out1, hp⟩

theorem Double.le_of_not_gt (a b : Double) (ha : a.isNaN = false) (hb : b.isNaN = false)
    (h : Double.gt a b = false) : Double.le a b = true := by
  cases a <;> cases b <;> simp_all [Double.gt, Double.lt, Double.le, Double.isNaN]

theorem Double.le_of_gt (a b : Double) (h : Double.gt a b = true) : Double.le b a = true := by
  cases a <;> cases b <;> simp_all [Double.gt, Double.lt, Double.le]
  exact le_of_lt h

theorem bounds_record_id (id : String) (a b : Double) (out : OfStream) :
    (bounds_record id a b out).1.id = id := by
  unfold bounds_record
  split_ifs <;> rfl

theorem bounds_record_extends (id : String) (a b : Double) (out : OfStream) :
    out.Extends (bounds_record id a b out).2 := by
  unfold bounds_record
  split_ifs
  · exact OfStream.extends_write _ _
  · exact OfStream.Extends.refl _

theorem parse_band_action_spec (id : String) (tbl : Table) (g : Globals) (out : OfStream)
    (h : numeric_ok tbl = true) :
    ∃ added out1, parse_band_action id tbl g out
        = some ({ g with band_actions := g.band_actions ++ added }, out1) ∧
      out.Extends out1 ∧ (float_bounds tbl = true → ∃ b ∈ added, b.id = id) := by
  by_cases hfb : float_bounds tbl = true
  · obtain ⟨a, b, ha, hb⟩ := float_bounds_true tbl hfb
    obtain ⟨g1, out1, hp⟩ := parse_band_action_total id tbl g out h
    obtain ⟨ba, hg, hk, he⟩ := parse_band_action_some id tbl g out a b ha hb g1 out1 hp
    refine ⟨[ba], out1, by rw [hp, hg], (bounds_record_extends id a b out).trans he, ?_⟩
    intro _
    exact ⟨ba, by simp, hk.1.trans (bounds_record_id id a b out)⟩
  · simp only [Bool.not_eq_true] at hfb
    obtain ⟨out1, hp, he⟩ := parse_band_action_invalid id tbl g out hfb
    refine ⟨[], out1, by simpa using hp, he, ?_⟩
    intro hc
    rw [hfb] at hc
    cases hc

theorem is_comment_bands : is_comment "bands" = false := by decide

theorem print_toml_entry_leaf (level : Nat) (key : String) (val : Node) (g : Globals)
    (out : OfStream) (is_band : Bool) (hnt : ∀ t, val ≠ Node.table t) :
    ∃ out1, print_toml_entry level key val g out is_band = some (g, out1) ∧
      out.Extends out1 := by
  unfold print_toml_entry
  simp only
  by_cases hcom : is_comment key = true
  · simp only [hcom, if_true]
    exact ⟨_, rfl, (OfStream.extends_write _ _).trans (OfStream.extends_write _ _)⟩
  · simp only [hcom, Bool.false_eq_true, if_false]
    cases val with
    | table t => exact absurd rfl (hnt t)
    | _ => exact ⟨_, rfl, (OfStream.extends_write _ _).trans (OfStream.extends_write _ _)⟩

theorem Walks.inv {D T : Table} {b c : Bool} (h : Walks D b T c) :
    (D = T ∧ b = c) ∨
    ∃ k S, (k, Node.table S) ∈ D ∧ is_comment k = false ∧ Walks S (decide (k = "bands")) T c := by
  cases h with
  | here => exact Or.inl ⟨rfl, rfl⟩
  | sub hmem hcom hw => exact Or.inr ⟨_, _, hmem, hcom, hw⟩

theorem AppendsBands.append_right {T : Table} {new : List BandAction} (h : AppendsBands T new)
    (more : List BandAction) : AppendsBands T (new ++ more) := by
  intro k t hmem hcom hfb
  obtain ⟨b, hb, hid⟩ := h k t hmem hcom hfb
  exact ⟨b, List.mem_append_left _ hb, hid⟩

theorem AppendsBands.append_left {T : Table} {new : List BandAction} (h : AppendsBands T new)
    (before : List BandAction) : AppendsBands T (before ++ new) := by
  intro k t hmem hcom hfb
  obtain ⟨b, hb, hid⟩ := h k t hmem hcom hfb
  exact ⟨b, List.mem_append_right _ hb, hid⟩

mutual
theorem print_toml_tables_spec : ∀ (T : Table) (level : Nat) (g : Globals) (out : OfStream)
    (is_band : Bool), safe_table T = true →
    ∃ new out1, print_toml_tables level T g out is_band
        = some ({ g with band_actions := g.band_actions ++ new }, out1) ∧
      out.Extends out1 ∧ (∀ T1, Walks T is_band T1 true → AppendsBands T1 new)
  | [], level, g, out, is_band, _ => by
    refine ⟨[], out, by simp [print_toml_tables], OfStream.Extends.refl _, ?_⟩
    intro T1 hw
    rcases hw.inv with ⟨hT, _⟩ | ⟨k, S, hmem, _, _⟩
    · subst hT
      intro k t hmem
      cases hmem
    · cases hmem
  | (key, val) :: rest, level, g, out, is_band, hsafe => by
    simp only [safe_table, Bool.and_eq_true] at hsafe
    obtain ⟨new1, out1, h1, he1, hb1, hc1⟩ :=
      print_toml_entry_spec val level key g out is_band hsafe.1
    obtain ⟨new2, out2, h2, he2, hw2⟩ :=
      print_toml_tables_spec rest level { g with band_actions := g.band_actions ++ new1 } out1
        is_band hsafe.2
    refine ⟨new1 ++ new2, out2, ?_, he1.trans he2, ?_⟩
    · unfold print_toml_tables
      rw [h1]
      simp only
      rw [h2]
      simp [List.append_assoc]
    · intro T1 hw
      rcases hw.inv with ⟨hT, hband⟩ | ⟨k, S, hmem, hcom, hw1⟩
      · subst hT
        subst hband
        intro k t hmem hcom hfb
        rcases List.mem_cons.mp hmem with heq | hmem
        · simp only [Prod.mk.injEq] at heq
          obtain ⟨b, hb, hid⟩ := hb1 rfl (by rw [← heq.1]; exact hcom) t heq.2.symm hfb
          exact ⟨b, List.mem_append_left _ hb, by rw [hid, heq.1]⟩
        · exact (hw2 rest (Walks.here rest true)).append_left new1 k t hmem hcom hfb
      · rcases List.mem_cons.mp hmem with heq | hmem
        · simp only [Prod.mk.injEq] at heq
          obtain ⟨hk, hv⟩ := heq
          subst hk
          exact (hc1 hcom S hv.symm T1 hw1).append_right new2
        · exact (hw2 T1 (Walks.sub hmem hcom hw1)).append_left new1
theorem print_toml_entry_spec : ∀ (val : Node) (level : Nat) (key : String) (g : Globals)
    (out : OfStream) (is_band : Bool), safe_node val = true →
    ∃ new out1, print_toml_entry level key val g out is_band
        = some ({ g with band_actions := g.band_actions ++ new }, out1) ∧
      out.Extends out1 ∧
      (is_band = true → is_comment key = false → ∀ t, val = Node.table t →
        float_bounds t = true → ∃ b ∈ new, b.id = key) ∧
      (is_comment key = false → ∀ S, val = Node.table S →
        ∀ T1, Walks S (decide (key = "bands")) T1 true → AppendsBands T1 new)
  | Node.table sub, level, key, g, out, is_band, hsafe => by
    simp only [safe_node, Bool.and_eq_true] at hsafe
    unfold print_toml_entry
    by_cases hcom : is_comment key = true
    · simp only [hcom, if_true]
      refine ⟨[], ?_⟩
      simp only [List.append_nil]
      refine ⟨_, rfl, (OfStream.extends_write _ _).trans (OfStream.extends_write _ _), ?_, ?_⟩
      · intro _ hc; cases hc
      · intro hc; cases hc
    · simp only [hcom, Bool.false_eq_true, if_false]
      obtain ⟨new1, out1, h1, he1, hw1⟩ :=
        print_toml_tables_spec sub (level + 1) g
          ((out.write [Frag.text "level ", Frag.int level, Frag.text "  key: '", Frag.text key,
            Frag.text "'"]).write [Frag.text "\n"]) (decide (key = "bands")) hsafe.2
      rw [h1]
      simp only
      have hext := ((OfStream.extends_write out _).trans (OfStream.extends_write _ _)).trans he1
      cases is_band with
      | false =>
        simp only [Bool.false_eq_true, if_false]
        refine ⟨new1, out1, rfl, hext, ?_, ?_⟩
        · intro hc; cases hc
        · intro _ S hS T1 hw
          simp only [Node.table.injEq] at hS
          subst hS
          exact hw1 T1 hw
      | true =>
        simp only [if_true]
        obtain ⟨added, out2, hp, he2, hadd⟩ :=
          parse_band_action_spec key sub { g with band_actions := g.band_actions ++ new1 } out1
            hsafe.1
        rw [hp]
        refine ⟨new1 ++ added, out2, by simp [List.append_assoc], hext.trans he2, ?_, ?_⟩
        · intro _ _ t ht hfb
          simp only [Node.table.injEq] at ht
          subst ht
          obtain ⟨b, hb, hid⟩ := hadd hfb
          exact ⟨b, List.mem_append_right _ hb, hid⟩
        · intro _ S hS T1 hw
          simp only [Node.table.injEq] at hS
          subst hS
          exact (hw1 T1 hw).append_right added
  | Node.array x, level, key, g, out, is_band, _ => by
    obtain ⟨out1, h1, he1⟩ :=
      print_toml_entry_leaf level key (Node.array x) g out is_band (fun t ht => by cases ht)
    refine ⟨[], out1, by simpa using h1, he1, ?_, ?_⟩
    · intro _ _ t ht; cases ht
    · intro _ S hS; cases hS
  | Node.string x, level, key, g, out, is_band, _ => by
    obtain ⟨out1, h1, he1⟩ :=
      print_toml_entry_leaf level key (Node.string x) g out is_band (fun t ht => by cases ht)
    refine ⟨[], out1, by simpa using h1, he1, ?_, ?_⟩
    · intro _ _ t ht; cases ht
    · intro _ S hS; cases hS
  | Node.integer x, level, key, g, out, is_band, _ => by
    obtain ⟨out1, h1, he1⟩ :=
      print_toml_entry_leaf level key (Node.integer x) g out is_band (fun t ht => by cases ht)
    refine ⟨[], out1, by simpa using h1, he1, ?_, ?_⟩
    · intro _ _ t ht; cases ht
    · intro _ S hS; cases hS
  | Node.floating_point x, level, key, g, out, is_band, _ => by
    obtain ⟨out1, h1, he1⟩ :=
      print_toml_entry_leaf level key (Node.floating_point x) g out is_band (fun t ht => by cases ht)
    refine ⟨[], out1, by simpa using h1, he1, ?_, ?_⟩
    · intro _ _ t ht; cases ht
    · intro _ S hS; cases hS
  | Node.boolean x, level, key, g, out, is_band, _ => by
    obtain ⟨out1, h1, he1⟩ :=
      print_toml_entry_leaf level key (Node.boolean x) g out is_band (fun t ht => by cases ht)
    refine ⟨[], out1, by simpa using h1, he1, ?_, ?_⟩
    · intro _ _ t ht; cases ht
    · intro _ S hS; cases hS
  | Node.date, level, key, g, out, is_band, _ => by
    obtain ⟨out1, h1, he1⟩ :=
      print_toml_entry_leaf level key (Node.date) g out is_band (fun t ht => by cases ht)
    refine ⟨[], out1, by simpa using h1, he1, ?_, ?_⟩
    · intro _ _ t ht; cases ht
    · intro _ S hS; cases hS
  | Node.time, level, key, g, out, is_band, _ => by
    obtain ⟨out1, h1, he1⟩ :=
      print_toml_entry_leaf level key (Node.time) g out is_band (fun t ht => by cases ht)
    refine ⟨[], out1, by simpa using h1, he1, ?_, ?_⟩
    · intro _ _ t ht; cases ht
    · intro _ S hS; cases hS
  | Node.date_time, level, key, g, out, is_band, _ => by
    obtain ⟨out1, h1, he1⟩ :=
      print_toml_entry_leaf level key (Node.date_time) g out is_band (fun t ht => by cases ht)
    refine ⟨[], out1, by simpa using h1, he1, ?_, ?_⟩
    · intro _ _ t ht; cases ht
    · intro _ S hS; cases hS
end

/-! ## Lemmas on `init_toml_config` -/

theorem init_toml_config_enabled (w : World) (g : Globals) (D : Table)
    (hp : g.processed = false)
    (hcfg : w.config_file = some (ParseResult.ok D))
    (hen : toml_find D key_enable = some (Node.boolean true))
    (hsafe : safe_table D = true) :
    ∃ path g1 w1 new, init_toml_config w g = some (path, g1, w1) ∧
      g1.band_actions = g.band_actions ++ new ∧
      g1.band_status = (if new.length = 0 ∧ g.band_actions.length = 0
        then Band_Info.info_no_bands else Band_Info.info_ok) ∧
      ∀ T, Walks D false T true → AppendsBands T new := by
  unfold init_toml_config
  simp only [hp, Bool.false_eq_true, if_false, hcfg, toml_parse_file, hen, if_true]
  generalize hg0 : (match w.profile_dir with
    | some dir => ({ g with processed := true, confFile := dir ++ "\\" ++ config_fn } : Globals)
    | none => { g with processed := true, confFile := config_fn }) = g0
  have hg0b : g0.band_actions = g.band_actions := by
    rw [← hg0]; cases w.profile_dir <;> rfl
  have hstatus : ∀ new : List BandAction,
      (if (g0.band_actions ++ new).length = 0 then
          ({ g0 with band_actions := g0.band_actions ++ new,
                     band_status := Band_Info.info_no_bands } : Globals)
        else { g0 with band_actions := g0.band_actions ++ new,
                       band_status := Band_Info.info_ok }).band_status
        = (if new.length = 0 ∧ g.band_actions.length = 0
            then Band_Info.info_no_bands else Band_Info.info_ok) := by
    intro new
    have hlen : (g0.band_actions ++ new).length = g.band_actions.length + new.length := by
      rw [hg0b, List.length_append]
    split_ifs with h1 h2 h2
    · rfl
    · exfalso; omega
    · exfalso; omega
    · rfl
  have hlist : ∀ new : List BandAction,
      (if (g0.band_actions ++ new).length = 0 then
          ({ g0 with band_actions := g0.band_actions ++ new,
                     band_status := Band_Info.info_no_bands } : Globals)
        else { g0 with band_actions := g0.band_actions ++ new,
                       band_status := Band_Info.info_ok }).band_actions
        = g.band_actions ++ new := by
    intro new
    split_ifs <;> simp [hg0b]
  split_ifs
  · obtain ⟨new, out1, hw, _, hc⟩ :=
      print_toml_tables_spec D 0 g0 (open_parsed_infos w { is_open := false, written := [] }).1
        false hsafe
    rw [hw]
    exact ⟨_, _, _, new, rfl, hlist new, hstatus new, hc⟩
  · obtain ⟨new, out1, hw, _, hc⟩ :=
      print_toml_tables_spec D 0 g0 { is_open := false, written := [] } false hsafe
    rw [hw]
    exact ⟨_, _, _, new, rfl, hlist new, hstatus new, hc⟩

/-! ## Theorems on the load -/

/-- C9, as stated, fails: the sub-table `tableNaN` has floating-point bounds,
`freq_from = nan` and `freq_to = 1.0`; no comparison with NaN holds, so the
bounds are stored as given and the record does not satisfy
`freq_from <= freq_to`. -/
theorem parse_band_action_nan_bound :
    float_bounds tableNaN = true ∧
    parse_band_action "x" tableNaN Globals.start closedStream
      = some ({ Globals.start with band_actions :=
                  [{ id := "x", freq_from := Double.nan, freq_to := Double.fin 1 }] },
              closedStream) ∧
    BandAction.ordered { id := "x", freq_from := Double.nan, freq_to := Double.fin 1 } = false :=
  ⟨by decide, by decide, by decide⟩

/-- C9, amended: for a band sub-table with the floating-point bounds `a` and `b`,
the call returns whenever no optional numeric key of the sub-table holds an
integer, and whenever it returns it has appended exactly one record, with the
given id; when `a > b` the record has the two values swapped and the warning is
written to the diagnostics stream, otherwise the bounds are stored as given;
and when neither bound is NaN the record satisfies `freq_from <= freq_to`, so
that a band list of such records stays one. -/
theorem parse_band_action_bounds (id : String) (tbl : Table) (g : Globals) (out : OfStream)
    (a b : Double)
    (ha : toml_find tbl key_freq_from = some (Node.floating_point a))
    (hb : toml_find tbl key_freq_to = some (Node.floating_point b)) :
    (numeric_ok tbl = true → ∃ g1 out1, parse_band_action id tbl g out = some (g1, out1)) ∧
    (∀ g1 out1, parse_band_action id tbl g out = some (g1, out1) →
      ∃ ba, g1 = { g with band_actions := g.band_actions ++ [ba] } ∧ ba.id = id ∧
        (Double.gt a b = true → ba.freq_from = b ∧ ba.freq_to = a ∧
          (out.write (swap_warning id b a)).Extends out1) ∧
        (Double.gt a b = false → ba.freq_from = a ∧ ba.freq_to = b) ∧
        (a.isNaN = false → b.isNaN = false → ba.ordered = true ∧
          ((∀ x ∈ g.band_actions, x.ordered = true) →
            ∀ x ∈ g1.band_actions, x.ordered = true))) := by
  refine ⟨parse_band_action_total id tbl g out, ?_⟩
  intro g1 out1 h
  obtain ⟨ba, hg, hk, he⟩ := parse_band_action_some id tbl g out a b ha hb g1 out1 h
  have hord : a.isNaN = false → b.isNaN = false → ba.ordered = true := by
    intro hna hnb
    unfold BandAction.ordered
    rw [hk.2.1, hk.2.2]
    unfold bounds_record
    split_ifs with hgt
    · exact Double.le_of_gt a b hgt
    · exact Double.le_of_not_gt a b hna hnb (by simpa using hgt)
  refine ⟨ba, hg, hk.1.trans (bounds_record_id id a b out), ?_, ?_, ?_⟩
  · intro hgt
    simp only [bounds_record, hgt, if_true] at hk he
    exact ⟨hk.2.1, hk.2.2, he⟩
  · intro hgt
    simp only [bounds_record, hgt, Bool.false_eq_true, if_false] at hk
    exact ⟨hk.2.1, hk.2.2⟩
  · intro hna hnb
    refine ⟨hord hna hnb, ?_⟩
    intro hall x hx
    rw [hg] at hx
    rcases List.mem_append.mp hx with hx | hx
    · exact hall x hx
    · simp only [List.mem_singleton] at hx
      rw [hx]
      exact hord hna hnb

/-- Witness of C9, amended: for the sub-table with `freq_from = 5` and
`freq_to = 3` the call returns, the record has `freq_from = 3` and
`freq_to = 5`, and the open stream holds the warning. -/
theorem parse_band_action_bounds_witness :
    (∃ g1 out1, parse_band_action "r" tableReversed Globals.start openStream = some (g1, out1)) ∧
    (∃ ba, ({ Globals.start with band_actions :=
                [{ id := "r", freq_from := Double.fin 3, freq_to := Double.fin 5 }] } : Globals)
        = { Globals.start with band_actions := Globals.start.band_actions ++ [ba] } ∧
      ba.id = "r" ∧
      (Double.gt (Double.fin 5) (Double.fin 3) = true →
        ba.freq_from = Double.fin 3 ∧ ba.freq_to = Double.fin 5 ∧
        (openStream.write (swap_warning "r" (Double.fin 3) (Double.fin 5))).Extends
          (openStream.write (swap_warning "r" (Double.fin 3) (Double.fin 5) ++
            [Frag.text "info: adding band '", Frag.text "r", Frag.text "'\n"]))) ∧
      (Double.gt (Double.fin 5) (Double.fin 3) = false →
        ba.freq_from = Double.fin 5 ∧ ba.freq_to = Double.fin 3) ∧
      ((Double.fin 5).isNaN = false → (Double.fin 3).isNaN = false → ba.ordered = true ∧
        ((∀ x ∈ Globals.start.band_actions, x.ordered = true) →
          ∀ x ∈ ({ Globals.start with band_actions :=
                [{ id := "r", freq_from := Double.fin 3, freq_to := Double.fin 5 }] }
                  : Globals).band_actions, x.ordered = true))) :=
  ⟨(parse_band_action_bounds "r" tableReversed Globals.start openStream (Double.fin 5)
      (Double.fin 3) rfl rfl).1 (by decide),
   (parse_band_action_bounds "r" tableReversed Globals.start openStream (Double.fin 5)
      (Double.fin 3) rfl rfl).2 _ _ (by decide)⟩

/-- C10: for every document that parses and whose top-level `enable` is the boolean
false, the first load (the `processed` flag not yet set, the band list empty)
returns, sets the status to `info_disabled` and leaves the band list empty,
whatever else the document contains. -/
theorem init_toml_config_disabled (w : World) (g : Globals) (D : Table)
    (hp : g.processed = false) (hempty : g.band_actions = [])
    (hcfg : w.config_file = some (ParseResult.ok D))
    (hen : toml_find D key_enable = some (Node.boolean false)) :
    ∃ path g1 w1, init_toml_config w g = some (path, g1, w1) ∧
      g1.band_status = Band_Info.info_disabled ∧ g1.band_actions = [] ∧
      g1.processed = true := by
  unfold init_toml_config
  simp only [hp, Bool.false_eq_true, if_false, hcfg, toml_parse_file, hen]
  refine ⟨_, _, _, rfl, rfl, ?_, ?_⟩
  · cases w.profile_dir <;> exact hempty
  · cases w.profile_dir <;> rfl

/-- Witness of C10: the document `docDisabled` has `enable = false` and a valid
band under `bands`; its first load gives the status `info_disabled` and an
empty band list. -/
theorem init_toml_config_disabled_witness :
    ∃ path g1 w1, init_toml_config (worldWith docDisabled) Globals.start = some (path, g1, w1) ∧
      g1.band_status = Band_Info.info_disabled ∧ g1.band_actions = [] ∧
      g1.processed = true :=
  init_toml_config_disabled (worldWith docDisabled) Globals.start docDisabled rfl rfl rfl rfl

/-! ## Theorems on the cursor -/

theorem update_band_action_total (f : Double) (g : Globals)
    (hv : g.validPtr g.current_band_action = true) :
    ∃ p g1, update_band_action f g = some (p, g1) := by
  rcases update_band_action_cases f g with h0 | h0 | ⟨h0, _, _⟩
  · exact ⟨_, _, h0⟩
  · exfalso
    unfold update_band_action at h0
    by_cases hlen : g.band_actions.length = 0
    · simp [hlen] at h0
    · rw [if_neg hlen] at h0
      cases hp : g.current_band_action with
      | null => rw [hp] at h0; simp at h0
      | initial =>
        rw [hp] at h0
        simp only [Globals.deref] at h0
        split at h0 <;> simp at h0
      | elem i =>
        rw [hp] at h0 hv
        simp only [Globals.validPtr, decide_eq_true_eq] at hv
        simp only [Globals.deref, List.getElem?_eq_getElem hv] at h0
        split at h0 <;> simp at h0
  · exact ⟨_, _, h0⟩

theorem search_bands_spec (f : Double) (g : Globals) :
    (search_bands f g).2.band_actions = g.band_actions ∧
    (search_bands f g).2.validPtr (search_bands f g).2.current_band_action = true ∧
    ∀ c, (search_bands f g).2.deref (search_bands f g).2.current_band_action = some c →
      c.contains f = true := by
  unfold search_bands
  cases hs : scan_bands f g.band_actions 0 with
  | none =>
    refine ⟨rfl, rfl, ?_⟩
    intro c hc
    simp [Globals.deref] at hc
  | some j =>
    obtain ⟨b, hb, hcb, _⟩ := scan_bands_first f g.band_actions j hs
    refine ⟨rfl, ?_, ?_⟩
    · obtain ⟨hlt, _⟩ := List.getElem?_eq_some.mp hb
      simpa [Globals.validPtr] using hlt
    · intro c hc
      simp only [Globals.deref] at hc
      rw [hb] at hc
      simp only [Option.some.injEq] at hc
      rw [← hc]
      exact hcb

theorem update_band_action_step (f : Double) (g g1 : Globals) (p : BandPtr)
    (h : update_band_action f g = some (p, g1))
    (hv : g.validPtr g.current_band_action = true) :
    g1.band_actions = g.band_actions ∧ g1.validPtr g1.current_band_action = true ∧
    (g.band_actions ≠ [] → ∀ c, g1.deref g1.current_band_action = some c →
      c.contains f = true) := by
  have hs := search_bands_spec f g
  unfold update_band_action at h
  by_cases hlen : g.band_actions.length = 0
  · rw [if_pos hlen] at h
    simp only [Option.some.injEq, Prod.mk.injEq] at h
    rw [← h.2]
    exact ⟨rfl, hv, fun hne => absurd (List.length_eq_zero.mp hlen) hne⟩
  · rw [if_neg hlen] at h
    cases hp : g.current_band_action with
    | null =>
      rw [hp] at h
      simp only [Option.some.injEq] at h
      rw [h] at hs
      exact ⟨hs.1, hs.2.1, fun _ => hs.2.2⟩
    | initial =>
      rw [hp] at h
      simp only [Globals.deref] at h
      split_ifs at h with hc
      · simp only [Option.some.injEq, Prod.mk.injEq] at h
        rw [← h.2]
        refine ⟨rfl, hv, ?_⟩
        intro _ c hcur
        rw [hp] at hcur
        simp only [Globals.deref, Option.some.injEq] at hcur
        rw [← hcur]
        exact hc
      · simp only [Option.some.injEq] at h
        rw [h] at hs
        exact ⟨hs.1, hs.2.1, fun _ => hs.2.2⟩
    | elem i =>
      rw [hp] at h
      simp only [Globals.deref] at h
      cases hget : g.band_actions[i]? with
      | none => rw [hget] at h; cases h
      | some cur =>
        rw [hget] at h
        simp only at h
        split_ifs at h with hc
        · simp only [Option.some.injEq, Prod.mk.injEq] at h
          rw [← h.2]
          refine ⟨rfl, hv, ?_⟩
          intro _ c hcur
          rw [hp] at hcur
          simp only [Globals.deref] at hcur
          rw [hget] at hcur
          simp only [Option.some.injEq] at hcur
          rw [← hcur]
          exact hc
        · simp only [Option.some.injEq] at h
          rw [h] at hs
          exact ⟨hs.1, hs.2.1, fun _ => hs.2.2⟩

theorem reachable_valid (g0 g : Globals) (h0 : g0.current_band_action = BandPtr.initial)
    (hr : Reachable g0 g) :
    g.band_actions = g0.band_actions ∧ g.validPtr g.current_band_action = true := by
  induction hr with
  | start => exact ⟨rfl, by rw [h0]; rfl⟩
  | step f p _ hstep ih =>
    obtain ⟨hb, hv, _⟩ := update_band_action_step f _ _ p hstep ih.2
    exact ⟨hb.trans ih.1, hv⟩

/-- C20: in every state reachable from a state with the initial sentinel cursor
by calls of `update_band_action`, the band list is the one of the initial
state and the cursor is null, the initial sentinel, or a pointer to an element
of the band list; from such a state every call returns, and after a call at
`f` on a non-empty band list a cursor that is set points to a band whose
inclusive interval contains `f`. -/
theorem reachable_cursor_invariant (g0 g : Globals)
    (h0 : g0.current_band_action = BandPtr.initial) (hr : Reachable g0 g) :
    g.band_actions = g0.band_actions ∧
    (g.current_band_action = BandPtr.null ∨ g.current_band_action = BandPtr.initial ∨
      ∃ i b, g.current_band_action = BandPtr.elem i ∧ g.band_actions[i]? = some b) ∧
    ∀ f, ∃ p g1, update_band_action f g = some (p, g1) ∧
      (g.band_actions ≠ [] → ∀ c, g1.deref g1.current_band_action = some c →
        c.contains f = true) := by
  obtain ⟨hb, hv⟩ := reachable_valid g0 g h0 hr
  refine ⟨hb, ?_, ?_⟩
  · cases hp : g.current_band_action with
    | null => exact Or.inl rfl
    | initial => exact Or.inr (Or.inl rfl)
    | elem i =>
      rw [hp] at hv
      simp only [Globals.validPtr, decide_eq_true_eq] at hv
      exact Or.inr (Or.inr ⟨i, _, rfl, List.getElem?_eq_getElem hv⟩)
  · intro f
    obtain ⟨p, g1, h⟩ := update_band_action_total f g hv
    exact ⟨p, g1, h, (update_band_action_step f g g1 p h hv).2.2⟩

/-- Witness of C20: from the initial cursor with the bands `A`, `B`, after the
call at `5e6` the cursor is on `A`; in that state the invariant holds. -/
theorem reachable_cursor_invariant_witness :
    ({ loaded bandsAB with current_band_action := BandPtr.elem 0 } : Globals).band_actions
        = (loaded bandsAB).band_actions ∧
    (({ loaded bandsAB with current_band_action := BandPtr.elem 0 } : Globals).current_band_action
        = BandPtr.null ∨
      ({ loaded bandsAB with current_band_action := BandPtr.elem 0 } : Globals).current_band_action
        = BandPtr.initial ∨
      ∃ i b,
        ({ loaded bandsAB with current_band_action := BandPtr.elem 0 } : Globals).current_band_action
          = BandPtr.elem i ∧
        ({ loaded bandsAB with current_band_action := BandPtr.elem 0 } : Globals).band_actions[i]?
          = some b) ∧
    ∀ f, ∃ p g1,
      update_band_action f { loaded bandsAB with current_band_action := BandPtr.elem 0 }
        = some (p, g1) ∧
      (({ loaded bandsAB with current_band_action := BandPtr.elem 0 } : Globals).band_actions ≠ [] →
        ∀ c, g1.deref g1.current_band_action = some c → c.contains f = true) :=
  reachable_cursor_invariant (loaded bandsAB)
    { loaded bandsAB with current_band_action := BandPtr.elem 0 } rfl
    (Reachable.step (Double.fin 5000000) (BandPtr.elem 0) Reachable.start (by decide))

/-! ## The ids of the bands of a walk -/

theorem parse_band_action_ids (id : String) (tbl : Table) (g : Globals) (out : OfStream)
    (g1 : Globals) (out1 : OfStream)
    (h : parse_band_action id tbl g out = some (g1, out1)) :
    ∃ added, g1 = { g with band_actions := g.band_actions ++ added } ∧
      added.map (fun b => b.id) = if float_bounds tbl = true then [id] else [] := by
  by_cases hfb : float_bounds tbl = true
  · obtain ⟨a, b, ha, hb⟩ := float_bounds_true tbl hfb
    obtain ⟨ba, hg, hk, _⟩ := parse_band_action_some id tbl g out a b ha hb g1 out1 h
    refine ⟨[ba], hg, ?_⟩
    rw [if_pos hfb]
    simp only [List.map_cons, List.map_nil, List.cons.injEq, and_true]
    exact hk.1.trans (bounds_record_id id a b out)
  · simp only [Bool.not_eq_true] at hfb
    obtain ⟨out2, hp, _⟩ := parse_band_action_invalid id tbl g out hfb
    rw [hp] at h
    simp only [Option.some.injEq, Prod.mk.injEq] at h
    refine ⟨[], by simp [← h.1], ?_⟩
    simp [hfb]

theorem print_toml_entry_leaf_some (level : Nat) (key : String) (val : Node) (g : Globals)
    (out : OfStream) (is_band : Bool) (hnt : ∀ t, val ≠ Node.table t)
    (g1 : Globals) (out1 : OfStream)
    (h : print_toml_entry level key val g out is_band = some (g1, out1)) :
    ∃ new : List BandAction, g1 = { g with band_actions := g.band_actions ++ new } ∧
      new.map (fun b => b.id) = [] := by
  obtain ⟨out2, h2, _⟩ := print_toml_entry_leaf level key val g out is_band hnt
  rw [h2] at h
  simp only [Option.some.injEq, Prod.mk.injEq] at h
  exact ⟨[], by simp [← h.1], rfl⟩

mutual
theorem print_toml_tables_some : ∀ (T : Table) (level : Nat) (g : Globals) (out : OfStream)
    (is_band : Bool) (g1 : Globals) (out1 : OfStream),
    print_toml_tables level T g out is_band = some (g1, out1) →
    ∃ new, g1 = { g with band_actions := g.band_actions ++ new } ∧
      new.map (fun b => b.id) = band_ids is_band T
  | [], level, g, out, is_band, g1, out1, h => by
    simp only [print_toml_tables, Option.some.injEq, Prod.mk.injEq] at h
    exact ⟨[], by simp [← h.1], by simp [band_ids]⟩
  | (key, val) :: rest, level, g, out, is_band, g1, out1, h => by
    unfold print_toml_tables at h
    cases he : print_toml_entry level key val g out is_band with
    | none => rw [he] at h; cases h
    | some r =>
      obtain ⟨g2, out2⟩ := r
      rw [he] at h
      simp only at h
      obtain ⟨new1, hg2, hid1⟩ := print_toml_entry_some val level key g out is_band g2 out2 he
      obtain ⟨new2, hg1, hid2⟩ := print_toml_tables_some rest level g2 out2 is_band g1 out1 h
      refine ⟨new1 ++ new2, ?_, ?_⟩
      · rw [hg1, hg2]
        simp [List.append_assoc]
      · rw [List.map_append, hid1, hid2]
        simp [band_ids]
theorem print_toml_entry_some : ∀ (val : Node) (level : Nat) (key : String) (g : Globals)
    (out : OfStream) (is_band : Bool) (g1 : Globals) (out1 : OfStream),
    print_toml_entry level key val g out is_band = some (g1, out1) →
    ∃ new, g1 = { g with band_actions := g.band_actions ++ new } ∧
      new.map (fun b => b.id) = band_ids_entry is_band key val
  | Node.table sub, level, key, g, out, is_band, g1, out1, h => by
    unfold print_toml_entry at h
    unfold band_ids_entry
    by_cases hcom : is_comment key = true
    · simp only [hcom, if_true, Option.some.injEq, Prod.mk.injEq] at h
      exact ⟨[], by simp [← h.1], by simp [hcom]⟩
    · simp only [hcom, Bool.false_eq_true, if_false] at h
      simp only [hcom, Bool.false_eq_true, if_false]
      cases hw : print_toml_tables (level + 1) sub g
          ((out.write [Frag.text "level ", Frag.int level, Frag.text "  key: '", Frag.text key,
            Frag.text "'"]).write [Frag.text "\n"]) (decide (key = "bands")) with
      | none => rw [hw] at h; cases h
      | some r =>
        obtain ⟨g2, out2⟩ := r
        rw [hw] at h
        simp only at h
        obtain ⟨new1, hg2, hid1⟩ :=
          print_toml_tables_some sub (level + 1) g _ (decide (key = "bands")) g2 out2 hw
        cases is_band with
        | false =>
          simp only [Bool.false_eq_true, if_false, Option.some.injEq, Prod.mk.injEq] at h
          refine ⟨new1, by rw [← h.1, hg2], ?_⟩
          simp [hid1]
        | true =>
          simp only [if_true] at h
          obtain ⟨added, hg1, hida⟩ := parse_band_action_ids key sub g2 out2 g1 out1 h
          refine ⟨new1 ++ added, ?_, ?_⟩
          · rw [hg1, hg2]
            simp [List.append_assoc]
          · rw [List.map_append, hid1, hida]
            simp
  | Node.array x, level, key, g, out, is_band, g1, out1, h => by
    obtain ⟨new, hg, hid⟩ := print_toml_entry_leaf_some level key (Node.array x) g out is_band
      (fun t ht => by cases ht) g1 out1 h
    exact ⟨new, hg, by rw [hid]; simp [band_ids_entry]⟩
  | Node.string x, level, key, g, out, is_band, g1, out1, h => by
    obtain ⟨new, hg, hid⟩ := print_toml_entry_leaf_some level key (Node.string x) g out is_band
      (fun t ht => by cases ht) g1 out1 h
    exact ⟨new, hg, by rw [hid]; simp [band_ids_entry]⟩
  | Node.integer x, level, key, g, out, is_band, g1, out1, h => by
    obtain ⟨new, hg, hid⟩ := print_toml_entry_leaf_some level key (Node.integer x) g out is_band
      (fun t ht => by cases ht) g1 out1 h
    exact ⟨new, hg, by rw [hid]; simp [band_ids_entry]⟩
  | Node.floating_point x, level, key, g, out, is_band, g1, out1, h => by
    obtain ⟨new, hg, hid⟩ := print_toml_entry_leaf_some level key (Node.floating_point x) g out
      is_band (fun t ht => by cases ht) g1 out1 h
    exact ⟨new, hg, by rw [hid]; simp [band_ids_entry]⟩
  | Node.boolean x, level, key, g, out, is_band, g1, out1, h => by
    obtain ⟨new, hg, hid⟩ := print_toml_entry_leaf_some level key (Node.boolean x) g out is_band
      (fun t ht => by cases ht) g1 out1 h
    exact ⟨new, hg, by rw [hid]; simp [band_ids_entry]⟩
  | Node.date, level, key, g, out, is_band, g1, out1, h => by
    obtain ⟨new, hg, hid⟩ := print_toml_entry_leaf_some level key Node.date g out is_band
      (fun t ht => by cases ht) g1 out1 h
    exact ⟨new, hg, by rw [hid]; simp [band_ids_entry]⟩
  | Node.time, level, key, g, out, is_band, g1, out1, h => by
    obtain ⟨new, hg, hid⟩ := print_toml_entry_leaf_some level key Node.time g out is_band
      (fun t ht => by cases ht) g1 out1 h
    exact ⟨new, hg, by rw [hid]; simp [band_ids_entry]⟩
  | Node.date_time, level, key, g, out, is_band, g1, out1, h => by
    obtain ⟨new, hg, hid⟩ := print_toml_entry_leaf_some level key Node.date_time g out is_band
      (fun t ht => by cases ht) g1 out1 h
    exact ⟨new, hg, by rw [hid]; simp [band_ids_entry]⟩
end

/-! ## Walks and band ids -/

theorem band_ids_append (b : Bool) (l1 l2 : Table) :
    band_ids b (l1 ++ l2) = band_ids b l1 ++ band_ids b l2 := by
  induction l1 with
  | nil => simp [band_ids]
  | cons e rest ih =>
    obtain ⟨k, v⟩ := e
    simp [band_ids, ih, List.append_assoc]

theorem band_ids_entry_sublist (b : Bool) (T : Table) (k : String) (v : Node)
    (h : (k, v) ∈ T) : (band_ids_entry b k v).Sublist (band_ids b T) := by
  induction T with
  | nil => cases h
  | cons e rest ih =>
    obtain ⟨k0, v0⟩ := e
    rw [band_ids]
    rcases List.mem_cons.mp h with heq | hmem
    · simp only [Prod.mk.injEq] at heq
      rw [heq.1, heq.2]
      exact List.sublist_append_left _ _
    · exact (ih hmem).trans (List.sublist_append_right _ _)

theorem band_ids_sub_sublist (b : Bool) (T S : Table) (k : String)
    (h : (k, Node.table S) ∈ T) (hcom : is_comment k = false) :
    (band_ids (decide (k = "bands")) S).Sublist (band_ids b T) := by
  refine List.Sublist.trans ?_ (band_ids_entry_sublist b T k (Node.table S) h)
  rw [band_ids_entry]
  simp only [hcom, Bool.false_eq_true, if_false]
  exact List.sublist_append_left _ _

theorem band_ids_entry_self (k : String) (t : Table) (hcom : is_comment k = false)
    (hfb : float_bounds t = true) :
    [k].Sublist (band_ids_entry true k (Node.table t)) := by
  rw [band_ids_entry]
  simp only [hcom, Bool.false_eq_true, if_false, hfb, Bool.and_self, if_true]
  exact List.sublist_append_right _ _

theorem walks_band_ids_sublist {T T1 : Table} {b c : Bool} (h : Walks T b T1 c) :
    c = true → (band_ids true T1).Sublist (band_ids b T) := by
  induction h with
  | here D b =>
    intro hc
    subst hc
    exact List.Sublist.refl _
  | sub hmem hcom _ ih =>
    intro hc
    exact (ih hc).trans (band_ids_sub_sublist _ _ _ _ hmem hcom)

theorem mem_band_ids_of_walks {T T1 : Table} {b : Bool} (h : Walks T b T1 true)
    (k : String) (t : Table) (hmem : (k, Node.table t) ∈ T1) (hcom : is_comment k = false)
    (hfb : float_bounds t = true) : k ∈ band_ids b T := by
  apply (walks_band_ids_sublist h rfl).subset
  apply (band_ids_entry_sublist true T1 k (Node.table t) hmem).subset
  exact (band_ids_entry_self k t hcom hfb).subset (List.mem_singleton.mpr rfl)

theorem pair_band_ids_of_walks {T T1 : Table} {b : Bool} (h : Walks T b T1 true)
    (pre mid post : Table) (k1 k2 : String) (t1 t2 : Table)
    (hT : T1 = pre ++ (k1, Node.table t1) :: (mid ++ (k2, Node.table t2) :: post))
    (hc1 : is_comment k1 = false) (hf1 : float_bounds t1 = true)
    (hc2 : is_comment k2 = false) (hf2 : float_bounds t2 = true) :
    [k1, k2].Sublist (band_ids b T) := by
  refine List.Sublist.trans ?_ (walks_band_ids_sublist h rfl)
  rw [hT, band_ids_append, band_ids, band_ids_append, band_ids]
  refine List.Sublist.trans ?_ (List.sublist_append_right _ _)
  have h1 := band_ids_entry_self k1 t1 hc1 hf1
  have h2 := band_ids_entry_self k2 t2 hc2 hf2
  have h3 : [k2].Sublist (band_ids true mid ++
      (band_ids_entry true k2 (Node.table t2) ++ band_ids true post)) :=
    (h2.trans (List.sublist_append_left _ _)).trans (List.sublist_append_right _ _)
  exact h1.append h3

mutual
theorem walks_of_mem_band_ids : ∀ (T : Table) (b : Bool) (k : String), k ∈ band_ids b T →
    ∃ T1 t, Walks T b T1 true ∧ (k, Node.table t) ∈ T1 ∧ is_comment k = false ∧
      float_bounds t = true
  | [], b, k, h => by simp [band_ids] at h
  | (key, val) :: rest, b, k, h => by
    rw [band_ids] at h
    rcases List.mem_append.mp h with h1 | h2
    · rcases walks_of_mem_band_ids_entry val b key k h1 with
        ⟨t, hv, hk, hb, hc, hf⟩ | ⟨S, hv, hcom, T1, t, hw, hm, hc, hf⟩
      · subst hv
        subst hk
        subst hb
        exact ⟨_, t, Walks.here _ true, List.mem_cons_self _ _, hc, hf⟩
      · subst hv
        exact ⟨T1, t, Walks.sub (List.mem_cons_self _ _) hcom hw, hm, hc, hf⟩
    · obtain ⟨T1, t, hw, hm, hc, hf⟩ := walks_of_mem_band_ids rest b k h2
      rcases hw.inv with ⟨hT, hb⟩ | ⟨k0, S, hmem, hcom, hw1⟩
      · subst hT
        subst hb
        exact ⟨_, t, Walks.here _ true, List.mem_cons_of_mem _ hm, hc, hf⟩
      · exact ⟨T1, t, Walks.sub (List.mem_cons_of_mem _ hmem) hcom hw1, hm, hc, hf⟩
theorem walks_of_mem_band_ids_entry : ∀ (val : Node) (b : Bool) (key k : String),
    k ∈ band_ids_entry b key val →
    (∃ t, val = Node.table t ∧ k = key ∧ b = true ∧ is_comment k = false ∧
      float_bounds t = true) ∨
    (∃ S, val = Node.table S ∧ is_comment key = false ∧
      ∃ T1 t, Walks S (decide (key = "bands")) T1 true ∧ (k, Node.table t) ∈ T1 ∧
        is_comment k = false ∧ float_bounds t = true)
  | Node.table sub, b, key, k, h => by
    rw [band_ids_entry] at h
    by_cases hcom : is_comment key = true
    · simp [hcom] at h
    · simp only [Bool.not_eq_true] at hcom
      simp only [hcom, Bool.false_eq_true, if_false] at h
      rcases List.mem_append.mp h with h1 | h2
      · obtain ⟨T1, t, hw, hm, hc, hf⟩ :=
          walks_of_mem_band_ids sub (decide (key = "bands")) k h1
        exact Or.inr ⟨sub, rfl, hcom, T1, t, hw, hm, hc, hf⟩
      · split_ifs at h2 with hcond
        · simp only [List.mem_singleton] at h2
          simp only [Bool.and_eq_true] at hcond
          subst h2
          exact Or.inl ⟨sub, rfl, rfl, hcond.1, hcom, hcond.2⟩
        · cases h2
  | Node.array _, b, key, k, h => by simp [band_ids_entry] at h
  | Node.string _, b, key, k, h => by simp [band_ids_entry] at h
  | Node.integer _, b, key, k, h => by simp [band_ids_entry] at h
  | Node.floating_point _, b, key, k, h => by simp [band_ids_entry] at h
  | Node.boolean _, b, key, k, h => by simp [band_ids_entry] at h
  | Node.date, b, key, k, h => by simp [band_ids_entry] at h
  | Node.time, b, key, k, h => by simp [band_ids_entry] at h
  | Node.date_time, b, key, k, h => by simp [band_ids_entry] at h
end

theorem Walks.comp {D S T : Table} {b c d : Bool} (h1 : Walks D b S c) (h2 : Walks S c T d) :
    Walks D b T d := by
  induction h1 with
  | here => exact h2
  | sub hmem hcom _ ih => exact Walks.sub hmem hcom (ih h2)

theorem walks_true_iff (D T : Table) :
    Walks D false T true ↔ ∃ S c, Walks D false S c ∧ ("bands", Node.table T) ∈ S := by
  constructor
  · intro h
    have key : ∀ {D T : Table} {b c : Bool}, Walks D b T c → c = true →
        (D = T ∧ b = true) ∨ ∃ S c0, Walks D b S c0 ∧ ("bands", Node.table T) ∈ S := by
      intro D T b c hw
      induction hw with
      | here D b => intro hc; exact Or.inl ⟨rfl, hc⟩
      | sub hmem hcom hw1 ih =>
        intro hc
        rcases ih hc with ⟨hT, hk⟩ | ⟨S, c0, hS, hm⟩
        · right
          subst hT
          simp only [decide_eq_true_eq] at hk
          subst hk
          exact ⟨_, _, Walks.here _ _, hmem⟩
        · right
          exact ⟨S, c0, Walks.sub hmem hcom hS, hm⟩
    rcases key h rfl with ⟨_, hb⟩ | hex
    · cases hb
    · exact hex
  · rintro ⟨S, c, hw, hm⟩
    exact hw.comp (Walks.sub hm is_comment_bands (Walks.here T true))

/-! ## Lemmas on the first load -/

theorem init_toml_config_unfold (w : World) (g : Globals) (hp : g.processed = false) :
    init_toml_config w g =
      match toml_parse_file (init_world w) with
      | ParseResult.parse_error err =>
        some ((init_globals w g).confFile,
          { init_globals w g with band_status := Band_Info.info_parse_error },
          close_parsed_infos (init_world w)
            (OfStream.write { is_open := false, written := [] }
              [Frag.text "Parsing failed : \n", Frag.parse_error err, Frag.text "\n"]))
      | ParseResult.ok tbl =>
        if init_enable tbl then
          match print_toml_tables 0 tbl (init_globals w g) (init_stream w tbl).1 false with
          | none => none
          | some (g1, parsed_infos) =>
            some ((init_globals w g).confFile,
              (if g1.band_actions.length = 0 then
                { g1 with band_status := Band_Info.info_no_bands }
              else
                { g1 with band_status := Band_Info.info_ok }),
              close_parsed_infos (init_stream w tbl).2 parsed_infos)
        else
          some ((init_globals w g).confFile,
            { init_globals w g with band_status := Band_Info.info_disabled },
            close_parsed_infos (init_stream w tbl).2 (init_stream w tbl).1) := by
  unfold init_toml_config
  simp only [hp, Bool.false_eq_true, if_false]
  rfl

theorem init_globals_spec (w : World) (g : Globals) :
    (init_globals w g).processed = true ∧
    (init_globals w g).band_actions = g.band_actions ∧
    (init_globals w g).band_status = g.band_status ∧
    (init_globals w g).current_band_action = g.current_band_action := by
  unfold init_globals
  cases w.profile_dir <;> exact ⟨rfl, rfl, rfl, rfl⟩

theorem init_world_of_file (w : World) (r : ParseResult) (h : w.config_file = some r) :
    toml_parse_file (init_world w) = r := by
  unfold init_world
  rw [h]
  simp only [toml_parse_file, h]

theorem init_world_default (w : World) (h : w.config_file = none)
    (hw : w.config_writable = true) :
    toml_parse_file (init_world w) = ParseResult.ok default_config := by
  unfold init_world
  rw [h]
  simp only [write_default_config, hw, if_true, toml_parse_file]

theorem init_toml_config_first (w : World) (g : Globals) (path : String) (g1 : Globals)
    (w1 : World) (hp : g.processed = false)
    (h : init_toml_config w g = some (path, g1, w1)) :
    g1.processed = true ∧ path = g1.confFile ∧
    g1.current_band_action = g.current_band_action ∧
    (∀ tbl, toml_parse_file (init_world w) = ParseResult.ok tbl → init_enable tbl = true →
      ∃ new, g1.band_actions = g.band_actions ++ new ∧
        new.map (fun b => b.id) = band_ids false tbl ∧
        g1.band_status = (if g1.band_actions.length = 0 then Band_Info.info_no_bands
          else Band_Info.info_ok)) := by
  obtain ⟨hgp, hgb, _, hgc⟩ := init_globals_spec w g
  rw [init_toml_config_unfold w g hp] at h
  cases hr : toml_parse_file (init_world w) with
  | parse_error err =>
    rw [hr] at h
    simp only [Option.some.injEq, Prod.mk.injEq] at h
    obtain ⟨h1, h2, _⟩ := h
    rw [← h2, ← h1]
    exact ⟨hgp, rfl, hgc, fun tbl ht => by cases ht⟩
  | ok tbl =>
    rw [hr] at h
    simp only at h
    by_cases hen : init_enable tbl = true
    · rw [if_pos hen] at h
      cases hw : print_toml_tables 0 tbl (init_globals w g) (init_stream w tbl).1 false with
      | none => rw [hw] at h; cases h
      | some r =>
        obtain ⟨g2, out2⟩ := r
        rw [hw] at h
        simp only [Option.some.injEq, Prod.mk.injEq] at h
        obtain ⟨h1, h2, _⟩ := h
        obtain ⟨new, hg2, hid⟩ := print_toml_tables_some tbl 0 _ _ false g2 out2 hw
        have hg2p : g2.processed = true := by rw [hg2]; exact hgp
        have hg2c : g2.current_band_action = g.current_band_action := by rw [hg2]; exact hgc
        have hg2f : g2.confFile = (init_globals w g).confFile := by rw [hg2]
        have hg2b : g2.band_actions = g.band_actions ++ new := by rw [hg2, ← hgb]
        have hg1 : g1.processed = true ∧ g1.confFile = g2.confFile ∧
            g1.current_band_action = g2.current_band_action ∧
            g1.band_actions = g2.band_actions ∧
            g1.band_status = (if g1.band_actions.length = 0 then Band_Info.info_no_bands
              else Band_Info.info_ok) := by
          rw [← h2]
          split_ifs with hl
          · exact ⟨hg2p, rfl, rfl, rfl, by simp [hl]⟩
          · exact ⟨hg2p, rfl, rfl, rfl, by simp [hl]⟩
        refine ⟨hg1.1, by rw [← h1, hg1.2.1, hg2f], hg1.2.2.1.trans hg2c, ?_⟩
        intro tbl0 ht _
        simp only [ParseResult.ok.injEq] at ht
        subst ht
        exact ⟨new, hg1.2.2.2.1.trans hg2b, hid, hg1.2.2.2.2⟩
    · rw [if_neg hen] at h
      simp only [Option.some.injEq, Prod.mk.injEq] at h
      obtain ⟨h1, h2, _⟩ := h
      rw [← h2, ← h1]
      refine ⟨hgp, rfl, hgc, ?_⟩
      intro tbl0 ht hen0
      simp only [ParseResult.ok.injEq] at ht
      subst ht
      exact absurd hen0 hen

theorem init_enable_true (D : Table) (h : toml_find D key_enable = some (Node.boolean true)) :
    init_enable D = true := by
  simp only [init_enable, h]

theorem band_ids_eq_nil (D : Table) (b : Bool)
    (h : ∀ T k t, Walks D b T true → (k, Node.table t) ∈ T → is_comment k = false →
      float_bounds t = false) : band_ids b D = [] := by
  cases hb : band_ids b D with
  | nil => rfl
  | cons k rest =>
    exfalso
    obtain ⟨T1, t, hw, hm, hc, hf⟩ :=
      walks_of_mem_band_ids D b k (by rw [hb]; exact List.mem_cons_self _ _)
    rw [h T1 k t hw hm hc] at hf
    cases hf

/-! ## Theorems on the status of the load -/

/-- C11, as stated, fails: the enabled document `docTwoBands` has a top-level `bands`
table with zero valid sub-tables, and the status after the first load is
`info_ok`, not `info_no_bands`: the walk also extracts the band `b` of the
table keyed `bands` inside `more`. -/
theorem init_toml_config_second_bands_table :
    toml_find docTwoBands key_enable = some (Node.boolean true) ∧
    toml_find docTwoBands "bands" = some (Node.table [("a", Node.table tableNoTo)]) ∧
    float_bounds tableNoTo = false ∧
    (init_toml_config (worldWith docTwoBands) Globals.start).map
      (fun r => (r.2.1.band_status, r.2.1.band_actions.map (fun b => b.id)))
      = some (Band_Info.info_ok, ["b"]) :=
  ⟨rfl, rfl, by decide, by decide⟩

/-- C11, amended: for every document that parses and whose top-level `enable` is
the boolean true, the first load returns when no table holds an integer under
an optional numeric key, and whenever it returns the status is `info_no_bands`
if and only if the band list is empty, and `info_ok` otherwise; and the band
list is empty if and only if no table keyed `bands` that the walk comes to has
a table-valued entry whose key does not begin with `#` and that has
floating-point `freq_from` and `freq_to`. -/
theorem init_toml_config_status (w : World) (g : Globals) (D : Table)
    (hp : g.processed = false) (hempty : g.band_actions = [])
    (hcfg : w.config_file = some (ParseResult.ok D))
    (hen : toml_find D key_enable = some (Node.boolean true)) :
    (safe_table D = true → ∃ path g1 w1, init_toml_config w g = some (path, g1, w1)) ∧
    (∀ path g1 w1, init_toml_config w g = some (path, g1, w1) →
      (g1.band_status = Band_Info.info_no_bands ↔ g1.band_actions = []) ∧
      (g1.band_status = Band_Info.info_ok ↔ g1.band_actions ≠ []) ∧
      (g1.band_actions = [] ↔
        ∀ T k t, Walks D false T true → (k, Node.table t) ∈ T → is_comment k = false →
          float_bounds t = false)) := by
  constructor
  · intro hsafe
    obtain ⟨path, g1, w1, _, h, _⟩ := init_toml_config_enabled w g D hp hcfg hen hsafe
    exact ⟨path, g1, w1, h⟩
  · intro path g1 w1 h
    obtain ⟨_, _, _, hdoc⟩ := init_toml_config_first w g path g1 w1 hp h
    obtain ⟨new, hlist, hid, hstatus⟩ :=
      hdoc D (init_world_of_file w _ hcfg) (init_enable_true D hen)
    have hcases : (g1.band_actions = [] ∧ g1.band_status = Band_Info.info_no_bands) ∨
        (g1.band_actions ≠ [] ∧ g1.band_status = Band_Info.info_ok) := by
      by_cases hl : g1.band_actions.length = 0
      · rw [if_pos hl] at hstatus
        exact Or.inl ⟨List.length_eq_zero.mp hl, hstatus⟩
      · rw [if_neg hl] at hstatus
        exact Or.inr ⟨fun he => hl (by rw [he]; rfl), hstatus⟩
    have hnew : g1.band_actions = new := by
      rw [hlist, hempty]
      rfl
    refine ⟨?_, ?_, ?_, ?_⟩
    · rcases hcases with ⟨h1, h2⟩ | ⟨h1, h2⟩
      · exact ⟨fun _ => h1, fun _ => h2⟩
      · exact ⟨fun hs => (by rw [h2] at hs; cases hs), fun he => absurd he h1⟩
    · rcases hcases with ⟨h1, h2⟩ | ⟨h1, h2⟩
      · exact ⟨fun hs => (by rw [h2] at hs; cases hs), fun hne => absurd h1 hne⟩
      · exact ⟨fun _ => h1, fun _ => h2⟩
    · intro hnil T k t hT hmem hcom
      cases hfb : float_bounds t with
      | false => rfl
      | true =>
        exfalso
        have hk : k ∈ band_ids false D := mem_band_ids_of_walks hT k t hmem hcom hfb
        rw [← hid, ← hnew, hnil] at hk
        cases hk
    · intro hnone
      have hids := band_ids_eq_nil D false hnone
      rw [hids] at hid
      rw [hnew]
      exact List.map_eq_nil_iff.mp hid

/-- Witness of C11, amended: in the enabled document `docShadowed` the top-level
`bands` table has no valid sub-table, and the only other table keyed `bands`
is inside the table `#old`, to which the walk does not come; the first load
returns with the status `info_no_bands` and an empty band list. -/
theorem init_toml_config_status_witness :
    (∀ T k t, Walks docShadowed false T true → (k, Node.table t) ∈ T →
      is_comment k = false → float_bounds t = false) ∧
    ∃ path g1 w1, init_toml_config (worldWith docShadowed) Globals.start
        = some (path, g1, w1) ∧
      g1.band_status = Band_Info.info_no_bands ∧ g1.band_actions = [] := by
  have hall : ∀ T k t, Walks docShadowed false T true → (k, Node.table t) ∈ T →
      is_comment k = false → float_bounds t = false := by
    intro T k t hT hmem hcom
    cases hfb : float_bounds t with
    | false => rfl
    | true =>
      exfalso
      have hk : k ∈ band_ids false docShadowed :=
        mem_band_ids_of_walks hT k t hmem hcom hfb
      have hnil : band_ids false docShadowed = [] := by decide
      rw [hnil] at hk
      cases hk
  obtain ⟨path, g1, w1, h⟩ :=
    (init_toml_config_status (worldWith docShadowed) Globals.start docShadowed rfl rfl rfl
      rfl).1 (by decide)
  have hres :=
    (init_toml_config_status (worldWith docShadowed) Globals.start docShadowed rfl rfl rfl
      rfl).2 path g1 w1 h
  exact ⟨hall, path, g1, w1, h, hres.1.mpr (hres.2.2.mpr hall), hres.2.2.mpr hall⟩

/-- C12: loading the default document of `write_default_config` gives the status
`info_disabled` and an empty band list, both when the configuration file reads
as that document and when there is no file and the document is written first. -/
theorem init_toml_config_default (w : World) (g : Globals)
    (hp : g.processed = false) (hempty : g.band_actions = [])
    (hw : w.config_file = some (ParseResult.ok default_config) ∨
      (w.config_file = none ∧ w.config_writable = true)) :
    ∃ path g1 w1, init_toml_config w g = some (path, g1, w1) ∧
      g1.band_status = Band_Info.info_disabled ∧ g1.band_actions = [] := by
  have hparse : toml_parse_file (init_world w) = ParseResult.ok default_config := by
    rcases hw with h | ⟨h1, h2⟩
    · exact init_world_of_file w _ h
    · exact init_world_default w h1 h2
  have hen : init_enable default_config = false := rfl
  rw [init_toml_config_unfold w g hp, hparse]
  simp only [hen, Bool.false_eq_true, if_false]
  exact ⟨_, _, _, rfl, rfl, (init_globals_spec w g).2.1.trans hempty⟩

/-- Witness of C12: on a machine without configuration file the first load writes
the default document and loads it: the status is `info_disabled` and the band
list is empty. -/
theorem init_toml_config_default_witness :
    ∃ path g1 w1, init_toml_config worldNoFile Globals.start = some (path, g1, w1) ∧
      g1.band_status = Band_Info.info_disabled ∧ g1.band_actions = [] :=
  init_toml_config_default worldNoFile Globals.start rfl rfl (Or.inr ⟨rfl, rfl⟩)

/-- C13: `init_toml_config` is idempotent. In a state in which it has run (the flag
`processed` is set) a call returns the stored path and leaves the globals, so
the status, the band list and the cursor, and the machine as they are, whatever
the configuration file holds; and a first call that returns sets the flag and
returns the path it stores, so that every further call returns that same
path. -/
theorem init_toml_config_idempotent :
    (∀ (w : World) (g : Globals), g.processed = true →
      init_toml_config w g = some (g.confFile, g, w)) ∧
    (∀ (w : World) (g : Globals) (path : String) (g1 : Globals) (w1 : World),
      g.processed = false → init_toml_config w g = some (path, g1, w1) →
      ∀ w2, init_toml_config w2 g1 = some (path, g1, w2)) := by
  have hsecond : ∀ (w : World) (g : Globals), g.processed = true →
      init_toml_config w g = some (g.confFile, g, w) := by
    intro w g hp
    unfold init_toml_config
    rw [if_pos hp]
  refine ⟨hsecond, ?_⟩
  intro w g path g1 w1 hp h w2
  obtain ⟨hp1, hpath, _, _⟩ := init_toml_config_first w g path g1 w1 hp h
  rw [hsecond w2 g1 hp1, hpath]

/-- Witness of C13: after the first load of `docSiblings` a second call, on a
machine whose configuration file no longer parses, returns the same path and
changes nothing. -/
theorem init_toml_config_idempotent_witness :
    init_toml_config worldBroken (loaded bandsAB)
        = some ((loaded bandsAB).confFile, loaded bandsAB, worldBroken) ∧
    ∀ w2, init_toml_config w2 startDisabled = some (config_fn, startDisabled, w2) :=
  ⟨init_toml_config_idempotent.1 worldBroken (loaded bandsAB) rfl,
   init_toml_config_idempotent.2 (worldWith docDisabled) Globals.start config_fn
     startDisabled (worldWith docDisabled) rfl rfl⟩

/-! ## Theorems on the bands of the load -/

/-- C14, as stated, fails: in the enabled document `docCommentAncestor` the
sub-table `a` sits directly inside a table keyed `bands`, its key does not
begin with `#` and its bounds are floating-point values, and the load extracts
no band: the table keyed `bands` is inside the table `#old`, which the walk
skips as a comment. -/
theorem init_toml_config_comment_ancestor :
    toml_find docCommentAncestor key_enable = some (Node.boolean true) ∧
    toml_find docCommentAncestor "#old"
      = some (Node.table [("bands", Node.table [("a", Node.table tableOk)])]) ∧
    is_comment "a" = false ∧ float_bounds tableOk = true ∧
    (init_toml_config (worldWith docCommentAncestor) Globals.start).map
      (fun r => r.2.1.band_actions.map (fun b => b.id)) = some [] :=
  ⟨rfl, rfl, by decide, by decide, by decide⟩

/-- C14, amended: for every document that parses and whose top-level `enable` is
the boolean true, the first load returns when no table holds an integer under
an optional numeric key, and whenever it returns the ids of the loaded bands
are, in the order of the walk, the ids `band_ids` of the document: `k` is the
id of a loaded band exactly when `k` is the key, not beginning with `#`, of a
table-valued entry with floating-point `freq_from` and `freq_to` that sits
directly inside a table keyed `bands` which is an entry of a table `S` that
the walk comes to (the document itself, or a table below it none of whose
enclosing keys begins with `#`). -/
theorem init_toml_config_band_ids (w : World) (g : Globals) (D : Table)
    (hp : g.processed = false) (hempty : g.band_actions = [])
    (hcfg : w.config_file = some (ParseResult.ok D))
    (hen : toml_find D key_enable = some (Node.boolean true)) :
    (safe_table D = true → ∃ path g1 w1, init_toml_config w g = some (path, g1, w1)) ∧
    (∀ path g1 w1, init_toml_config w g = some (path, g1, w1) →
      g1.band_actions.map (fun b => b.id) = band_ids false D ∧
      ∀ k, k ∈ g1.band_actions.map (fun b => b.id) ↔
        ∃ S c T t, Walks D false S c ∧ ("bands", Node.table T) ∈ S ∧
          (k, Node.table t) ∈ T ∧ is_comment k = false ∧ float_bounds t = true) := by
  constructor
  · intro hsafe
    obtain ⟨path, g1, w1, _, h, _⟩ := init_toml_config_enabled w g D hp hcfg hen hsafe
    exact ⟨path, g1, w1, h⟩
  · intro path g1 w1 h
    obtain ⟨_, _, _, hdoc⟩ := init_toml_config_first w g path g1 w1 hp h
    obtain ⟨new, hlist, hid, _⟩ :=
      hdoc D (init_world_of_file w _ hcfg) (init_enable_true D hen)
    have hids : g1.band_actions.map (fun b => b.id) = band_ids false D := by
      rw [hlist, hempty, List.nil_append, hid]
    refine ⟨hids, ?_⟩
    intro k
    rw [hids]
    constructor
    · intro hk
      obtain ⟨T, t, hw, hm, hc, hf⟩ := walks_of_mem_band_ids D false k hk
      obtain ⟨S, c, hS, hT⟩ := (walks_true_iff D T).mp hw
      exact ⟨S, c, T, t, hS, hT, hm, hc, hf⟩
    · rintro ⟨S, c, T, t, hS, hT, hm, hc, hf⟩
      exact mem_band_ids_of_walks ((walks_true_iff D T).mpr ⟨S, c, hS, hT⟩) k t hm hc hf

/-- Witness of C14, amended: the first load of `docSiblings` returns, and the ids of
the bands of a result are the ids of the document, here the key `ok`. -/
theorem init_toml_config_band_ids_witness :
    (∃ path g1 w1, init_toml_config (worldWith docSiblings) Globals.start
      = some (path, g1, w1)) ∧
    (∀ path g1 w1, init_toml_config (worldWith docSiblings) Globals.start
        = some (path, g1, w1) →
      g1.band_actions.map (fun b => b.id) = band_ids false docSiblings ∧
      ∀ k, k ∈ g1.band_actions.map (fun b => b.id) ↔
        ∃ S c T t, Walks docSiblings false S c ∧ ("bands", Node.table T) ∈ S ∧
          (k, Node.table t) ∈ T ∧ is_comment k = false ∧ float_bounds t = true) ∧
    band_ids false docSiblings = ["ok"] :=
  ⟨(init_toml_config_band_ids (worldWith docSiblings) Globals.start docSiblings rfl rfl rfl
      rfl).1 (by decide),
   (init_toml_config_band_ids (worldWith docSiblings) Globals.start docSiblings rfl rfl rfl
      rfl).2,
   by decide⟩

/-- C16: on the machine `worldBroken`, whose configuration file does not parse, the
first load sets the status to `info_parse_error` and leaves the band list
empty, and it leaves the machine as it was: the file `parsed_infos.txt` is not
created, the error text is written to a stream that was never opened. -/
theorem init_toml_config_parse_error_unlogged :
    init_toml_config worldBroken Globals.start
      = some (config_fn,
          { confFile := config_fn, band_actions := [],
            band_status := Band_Info.info_parse_error,
            current_band_action := BandPtr.initial, processed := true },
          worldBroken) ∧
    worldBroken.log_openable = true ∧ worldBroken.parsed_infos = none :=
  ⟨rfl, rfl, rfl⟩

theorem init_toml_config_parse_error (w : World) (g : Globals) (err : String)
    (hp : g.processed = false) (hcfg : w.config_file = some (ParseResult.parse_error err)) :
    init_toml_config w g
      = some ((init_globals w g).confFile,
          { init_globals w g with band_status := Band_Info.info_parse_error }, w) := by
  rw [init_toml_config_unfold w g hp, init_world_of_file w _ hcfg]
  have hw : init_world w = w := by
    unfold init_world
    rw [hcfg]
  rw [hw]
  rfl

/-- C17, as stated, fails: `docOrder` is the table for an enabled document that
lists, under `bands`, the valid band `b` before the valid band `a`; a table
keeps its entries ordered by key, the walk visits `a` first, and in the band
list the record of `a` precedes the record of `b`. -/
theorem init_toml_config_key_order :
    toml_find docOrder key_enable = some (Node.boolean true) ∧
    float_bounds tableOk = true ∧
    (init_toml_config (worldWith docOrder) Globals.start).map
      (fun r => r.2.1.band_actions.map (fun b => b.id)) = some ["a", "b"] :=
  ⟨rfl, by decide, by decide⟩

/-- C17, amended: the loaded band list preserves the order in which the table is
iterated. For every document that parses and whose top-level `enable` is the
boolean true, and any two valid sub-tables with keys `k1` and `k2` of a table
keyed `bands` that the walk comes to, `k1` iterated before `k2`: the first
load returns when no table holds an integer under an optional numeric key, and
whenever it returns the id `k1` occurs before the id `k2` in the list of the
ids of the loaded bands. -/
theorem init_toml_config_iteration_order (w : World) (g : Globals) (D T : Table)
    (pre mid post : Table) (k1 k2 : String) (t1 t2 : Table)
    (hp : g.processed = false) (hempty : g.band_actions = [])
    (hcfg : w.config_file = some (ParseResult.ok D))
    (hen : toml_find D key_enable = some (Node.boolean true))
    (hT : Walks D false T true)
    (hsplit : T = pre ++ (k1, Node.table t1) :: (mid ++ (k2, Node.table t2) :: post))
    (hc1 : is_comment k1 = false) (hf1 : float_bounds t1 = true)
    (hc2 : is_comment k2 = false) (hf2 : float_bounds t2 = true) :
    (safe_table D = true → ∃ path g1 w1, init_toml_config w g = some (path, g1, w1)) ∧
    (∀ path g1 w1, init_toml_config w g = some (path, g1, w1) →
      [k1, k2].Sublist (g1.band_actions.map (fun b => b.id))) := by
  constructor
  · intro hsafe
    obtain ⟨path, g1, w1, _, h, _⟩ := init_toml_config_enabled w g D hp hcfg hen hsafe
    exact ⟨path, g1, w1, h⟩
  · intro path g1 w1 h
    obtain ⟨_, _, _, hdoc⟩ := init_toml_config_first w g path g1 w1 hp h
    obtain ⟨new, hlist, hid, _⟩ :=
      hdoc D (init_world_of_file w _ hcfg) (init_enable_true D hen)
    rw [hlist, hempty, List.nil_append, hid]
    exact pair_band_ids_of_walks hT pre mid post k1 k2 t1 t2 hsplit hc1 hf1 hc2 hf2

/-- Witness of C17, amended: in `docOrder` the table keyed `bands` is iterated `a`,
`b`; the first load returns and the id `a` occurs before the id `b`. -/
theorem init_toml_config_iteration_order_witness :
    (∃ path g1 w1, init_toml_config (worldWith docOrder) Globals.start
      = some (path, g1, w1)) ∧
    (∀ path g1 w1, init_toml_config (worldWith docOrder) Globals.start
        = some (path, g1, w1) →
      ["a", "b"].Sublist (g1.band_actions.map (fun b => b.id))) :=
  ⟨(init_toml_config_iteration_order (worldWith docOrder) Globals.start docOrder
      [("a", Node.table tableOk), ("b", Node.table tableOk)] [] [] [] "a" "b" tableOk tableOk
      rfl rfl rfl rfl
      (Walks.sub (List.mem_cons_self _ _) (by decide) (Walks.here _ true))
      rfl (by decide) (by decide) (by decide) (by decide)).1 (by decide),
   (init_toml_config_iteration_order (worldWith docOrder) Globals.start docOrder
      [("a", Node.table tableOk), ("b", Node.table tableOk)] [] [] [] "a" "b" tableOk tableOk
      rfl rfl rfl rfl
      (Walks.sub (List.mem_cons_self _ _) (by decide) (Walks.here _ true))
      rfl (by decide) (by decide) (by decide) (by decide)).2⟩

/-! ## Lemmas on the storage of one entry -/

theorem is_expected_value_type_false_key (id key ek : String) (val : Node)
    (out out1 : OfStream) (h : is_expected_value_type id key ek val out = (false, out1)) :
    ¬ (key = ek ∧ val.is_number = true) := by
  unfold is_expected_value_type at h
  split_ifs at h with h1 h2
  · simp only [Bool.not_eq_true'] at h2
    intro hc
    rw [hc.2] at h2
    cases h2
  · simp at h
  · exact fun hc => h1 hc.1

theorem is_expected_bool_type_false_key (id key ek : String) (val : Node)
    (out out1 : OfStream) (h : is_expected_bool_type id key ek val out = (false, out1)) :
    ¬ (key = ek ∧ val.is_boolean = true) := by
  unfold is_expected_bool_type at h
  split_ifs at h with h1 h2
  · simp only [Bool.not_eq_true'] at h2
    intro hc
    rw [hc.2] at h2
    cases h2
  · simp at h
  · exact fun hc => h1 hc.1

theorem store_field_unknown (key : String) (val : Node) (ba : BandAction)
    (h2 : ¬ key = key_band_name) (h4 : ¬ key = key_sampling_mode)
    (h6 : ¬ key = key_tuning_sideband)
    (hf1 : ¬ (key = key_samplerate ∧ val.is_number = true))
    (hf2 : ¬ (key = key_tuner_bandwidth ∧ val.is_number = true))
    (hf3 : ¬ (key = key_r820t_tuner_band_center ∧ val.is_number = true))
    (hf4 : ¬ (key = key_tuner_rf_gain_db ∧ val.is_number = true))
    (hf5 : ¬ (key = key_tuner_if_gain_db ∧ val.is_number = true))
    (hf6 : ¬ (key = key_tuner_rf_agc ∧ val.is_boolean = true))
    (hf7 : ¬ (key = key_tuner_if_agc ∧ val.is_boolean = true))
    (hf8 : ¬ (key = key_rtl_digital_agc ∧ val.is_boolean = true))
    (hf9 : ¬ (key = key_bias_tee ∧ val.is_boolean = true))
    (hf10 : ¬ (key = key_gpio_button0 ∧ val.is_boolean = true))
    (hf11 : ¬ (key = key_gpio_button1 ∧ val.is_boolean = true))
    (hf12 : ¬ (key = key_gpio_button2 ∧ val.is_boolean = true))
    (hf13 : ¬ (key = key_gpio_button3 ∧ val.is_boolean = true))
    (hf14 : ¬ (key = key_gpio_button4 ∧ val.is_boolean = true)) :
    store_field key val ba = ba := by
  unfold store_field
  rw [if_neg h2, if_neg h4, if_neg h6]
  by_cases hk1 : key = key_samplerate
  · rw [if_pos hk1]
    cases val <;> first | rfl | exact absurd ⟨hk1, rfl⟩ hf1
  rw [if_neg hk1]
  by_cases hk2 : key = key_tuner_bandwidth
  · rw [if_pos hk2]
    cases val <;> first | rfl | exact absurd ⟨hk2, rfl⟩ hf2
  rw [if_neg hk2]
  by_cases hk3 : key = key_r820t_tuner_band_center
  · rw [if_pos hk3]
    cases val <;> first | rfl | exact absurd ⟨hk3, rfl⟩ hf3
  rw [if_neg hk3]
  by_cases hk4 : key = key_tuner_rf_gain_db
  · rw [if_pos hk4]
    cases val <;> first | rfl | exact absurd ⟨hk4, rfl⟩ hf4
  rw [if_neg hk4]
  by_cases hk5 : key = key_tuner_if_gain_db
  · rw [if_pos hk5]
    cases val <;> first | rfl | exact absurd ⟨hk5, rfl⟩ hf5
  rw [if_neg hk5]
  by_cases hk6 : key = key_tuner_rf_agc
  · rw [if_pos hk6]
    cases val <;> first | rfl | exact absurd ⟨hk6, rfl⟩ hf6
  rw [if_neg hk6]
  by_cases hk7 : key = key_tuner_if_agc
  · rw [if_pos hk7]
    cases val <;> first | rfl | exact absurd ⟨hk7, rfl⟩ hf7
  rw [if_neg hk7]
  by_cases hk8 : key = key_rtl_digital_agc
  · rw [if_pos hk8]
    cases val <;> first | rfl | exact absurd ⟨hk8, rfl⟩ hf8
  rw [if_neg hk8]
  by_cases hk9 : key = key_bias_tee
  · rw [if_pos hk9]
    cases val <;> first | rfl | exact absurd ⟨hk9, rfl⟩ hf9
  rw [if_neg hk9]
  by_cases hk10 : key = key_gpio_button0
  · rw [if_pos hk10]
    cases val <;> first | rfl | exact absurd ⟨hk10, rfl⟩ hf10
  rw [if_neg hk10]
  by_cases hk11 : key = key_gpio_button1
  · rw [if_pos hk11]
    cases val <;> first | rfl | exact absurd ⟨hk11, rfl⟩ hf11
  rw [if_neg hk11]
  by_cases hk12 : key = key_gpio_button2
  · rw [if_pos hk12]
    cases val <;> first | rfl | exact absurd ⟨hk12, rfl⟩ hf12
  rw [if_neg hk12]
  by_cases hk13 : key = key_gpio_button3
  · rw [if_pos hk13]
    cases val <;> first | rfl | exact absurd ⟨hk13, rfl⟩ hf13
  rw [if_neg hk13]
  by_cases hk14 : key = key_gpio_button4
  · rw [if_pos hk14]
    cases val <;> first | rfl | exact absurd ⟨hk14, rfl⟩ hf14
  rw [if_neg hk14]

theorem band_field_store (id key : String) (val : Node) (ba : BandAction) (out : OfStream)
    (ba1 : BandAction) (out1 : OfStream)
    (h : band_field id key val ba out = some (ba1, out1)) :
    ba1 = store_field key val ba := by
  unfold band_field at h
  split_ifs at h with h1 h2 h3 h4 h5 h6 h7
  · simp only [Option.some.injEq, Prod.mk.injEq] at h
    rw [← h.1]
    rcases h1 with h1 | h1 <;> (rw [h1]; rfl)
  · simp only [Option.some.injEq, Prod.mk.injEq] at h
    rw [← h.1, h2]
    cases val <;> first | rfl | simp [Node.is_string] at h3
  · rw [h2]
    cases val <;> simp [Node.as_string] at h
    rw [← h.1]
    rfl
  · simp only [Option.some.injEq, Prod.mk.injEq] at h
    rw [← h.1, h4]
    cases val <;> first | rfl | simp [Node.is_string] at h5
  · rw [h4]
    cases val <;> simp [Node.as_string] at h
    rename_i s
    rw [show store_field key_sampling_mode (Node.string s) ba
      = (if s = "I" ∨ s = "Q" ∨ s = "C" then { ba with sampling_mode := some (s.get 0) }
         else ba) from rfl]
    split_ifs at h with hs
    · simp only [Prod.mk.injEq] at h
      rw [if_pos hs, ← h.1]
    · simp only [Prod.mk.injEq] at h
      rw [if_neg hs, ← h.1]
  · simp only [Option.some.injEq, Prod.mk.injEq] at h
    rw [← h.1, h6]
    cases val <;> first | rfl | simp [Node.is_string] at h7
  · rw [h6]
    cases val <;> simp [Node.as_string] at h
    rename_i s
    rw [show store_field key_tuning_sideband (Node.string s) ba
      = (if s = "L" ∨ s = "U" then { ba with tuning_sideband := some (s.get 0) }
         else ba) from rfl]
    split_ifs at h with hs
    · simp only [Prod.mk.injEq] at h
      rw [if_pos hs, ← h.1]
    · simp only [Prod.mk.injEq] at h
      rw [if_neg hs, ← h.1]
  · split at h
    · rename_i o heq
      obtain ⟨hk, _, _⟩ := is_expected_value_type_true _ _ _ _ _ _ heq
      rw [hk]
      cases val <;> simp [Node.as_floating_point] at h
      rw [← h.1]
      rfl
    rename_i o1 heq1
    have hf1 := is_expected_value_type_false_key _ _ _ _ _ _ heq1
    split at h
    · rename_i o heq
      obtain ⟨hk, _, _⟩ := is_expected_value_type_true _ _ _ _ _ _ heq
      rw [hk]
      cases val <;> simp [Node.as_floating_point] at h
      rw [← h.1]
      rfl
    rename_i o2 heq2
    have hf2 := is_expected_value_type_false_key _ _ _ _ _ _ heq2
    split at h
    · rename_i o heq
      obtain ⟨hk, _, _⟩ := is_expected_value_type_true _ _ _ _ _ _ heq
      rw [hk]
      cases val <;> simp [Node.as_floating_point] at h
      rw [← h.1]
      rfl
    rename_i o3 heq3
    have hf3 := is_expected_value_type_false_key _ _ _ _ _ _ heq3
    split at h
    · rename_i o heq
      obtain ⟨hk, _, _⟩ := is_expected_value_type_true _ _ _ _ _ _ heq
      rw [hk]
      cases val <;> simp [Node.as_floating_point] at h
      rw [← h.1]
      rfl
    rename_i o4 heq4
    have hf4 := is_expected_value_type_false_key _ _ _ _ _ _ heq4
    split at h
    · rename_i o heq
      obtain ⟨hk, _, _⟩ := is_expected_value_type_true _ _ _ _ _ _ heq
      rw [hk]
      cases val <;> simp [Node.as_floating_point] at h
      rw [← h.1]
      rfl
    rename_i o5 heq5
    have hf5 := is_expected_value_type_false_key _ _ _ _ _ _ heq5
    split at h
    · rename_i o heq
      obtain ⟨hk, _, _⟩ := is_expected_bool_type_true _ _ _ _ _ _ heq
      rw [hk]
      cases val <;> simp [Node.as_boolean] at h
      rw [← h.1]
      rfl
    rename_i o6 heq6
    have hf6 := is_expected_bool_type_false_key _ _ _ _ _ _ heq6
    split at h
    · rename_i o heq
      obtain ⟨hk, _, _⟩ := is_expected_bool_type_true _ _ _ _ _ _ heq
      rw [hk]
      cases val <;> simp [Node.as_boolean] at h
      rw [← h.1]
      rfl
    rename_i o7 heq7
    have hf7 := is_expected_bool_type_false_key _ _ _ _ _ _ heq7
    split at h
    · rename_i o heq
      obtain ⟨hk, _, _⟩ := is_expected_bool_type_true _ _ _ _ _ _ heq
      rw [hk]
      cases val <;> simp [Node.as_boolean] at h
      rw [← h.1]
      rfl
    rename_i o8 heq8
    have hf8 := is_expected_bool_type_false_key _ _ _ _ _ _ heq8
    split at h
    · rename_i o heq
      obtain ⟨hk, _, _⟩ := is_expected_bool_type_true _ _ _ _ _ _ heq
      rw [hk]
      cases val <;> simp [Node.as_boolean] at h
      rw [← h.1]
      rfl
    rename_i o9 heq9
    have hf9 := is_expected_bool_type_false_key _ _ _ _ _ _ heq9
    split at h
    · rename_i o heq
      obtain ⟨hk, _, _⟩ := is_expected_bool_type_true _ _ _ _ _ _ heq
      rw [hk]
      cases val <;> simp [Node.as_boolean] at h
      rw [← h.1]
      rfl
    rename_i o10 heq10
    have hf10 := is_expected_bool_type_false_key _ _ _ _ _ _ heq10
    split at h
    · rename_i o heq
      obtain ⟨hk, _, _⟩ := is_expected_bool_type_true _ _ _ _ _ _ heq
      rw [hk]
      cases val <;> simp [Node.as_boolean] at h
      rw [← h.1]
      rfl
    rename_i o11 heq11
    have hf11 := is_expected_bool_type_false_key _ _ _ _ _ _ heq11
    split at h
    · rename_i o heq
      obtain ⟨hk, _, _⟩ := is_expected_bool_type_true _ _ _ _ _ _ heq
      rw [hk]
      cases val <;> simp [Node.as_boolean] at h
      rw [← h.1]
      rfl
    rename_i o12 heq12
    have hf12 := is_expected_bool_type_false_key _ _ _ _ _ _ heq12
    split at h
    · rename_i o heq
      obtain ⟨hk, _, _⟩ := is_expected_bool_type_true _ _ _ _ _ _ heq
      rw [hk]
      cases val <;> simp [Node.as_boolean] at h
      rw [← h.1]
      rfl
    rename_i o13 heq13
    have hf13 := is_expected_bool_type_false_key _ _ _ _ _ _ heq13
    split at h
    · rename_i o heq
      obtain ⟨hk, _, _⟩ := is_expected_bool_type_true _ _ _ _ _ _ heq
      rw [hk]
      cases val <;> simp [Node.as_boolean] at h
      rw [← h.1]
      rfl
    rename_i o14 heq14
    have hf14 := is_expected_bool_type_false_key _ _ _ _ _ _ heq14
    simp only [Option.some.injEq, Prod.mk.injEq] at h
    rw [← h.1]
    exact (store_field_unknown key val ba h2 h4 h6 hf1 hf2 hf3 hf4 hf5 hf6 hf7 hf8 hf9 hf10
      hf11 hf12 hf13 hf14).symm

/-! ## The members of the stored record -/

theorem store_field_name (key : String) (val : Node) (ba : BandAction) :
    (store_field key val ba).name =
      if key = key_band_name then
        keep_or (Node.as_string val) ba.name
      else ba.name := by
  unfold store_field
  by_cases hk1 : key = key_band_name
  · rw [if_pos hk1, if_pos hk1]
    cases val <;> rfl
  rw [if_neg hk1, if_neg hk1]
  by_cases hk2 : key = key_sampling_mode
  · rw [if_pos hk2]
    cases val <;> first | rfl | (simp only [sampling_mode_value, tuning_sideband_value]; split_ifs <;> rfl)
  rw [if_neg hk2]
  by_cases hk3 : key = key_tuning_sideband
  · rw [if_pos hk3]
    cases val <;> first | rfl | (simp only [sampling_mode_value, tuning_sideband_value]; split_ifs <;> rfl)
  rw [if_neg hk3]
  by_cases hk4 : key = key_samplerate
  · rw [if_pos hk4]
    cases val <;> rfl
  rw [if_neg hk4]
  by_cases hk5 : key = key_tuner_bandwidth
  · rw [if_pos hk5]
    cases val <;> rfl
  rw [if_neg hk5]
  by_cases hk6 : key = key_r820t_tuner_band_center
  · rw [if_pos hk6]
    cases val <;> rfl
  rw [if_neg hk6]
  by_cases hk7 : key = key_tuner_rf_gain_db
  · rw [if_pos hk7]
    cases val <;> rfl
  rw [if_neg hk7]
  by_cases hk8 : key = key_tuner_if_gain_db
  · rw [if_pos hk8]
    cases val <;> rfl
  rw [if_neg hk8]
  by_cases hk9 : key = key_tuner_rf_agc
  · rw [if_pos hk9]
    cases val <;> rfl
  rw [if_neg hk9]
  by_cases hk10 : key = key_tuner_if_agc
  · rw [if_pos hk10]
    cases val <;> rfl
  rw [if_neg hk10]
  by_cases hk11 : key = key_rtl_digital_agc
  · rw [if_pos hk11]
    cases val <;> rfl
  rw [if_neg hk11]
  by_cases hk12 : key = key_bias_tee
  · rw [if_pos hk12]
    cases val <;> rfl
  rw [if_neg hk12]
  by_cases hk13 : key = key_gpio_button0
  · rw [if_pos hk13]
    cases val <;> rfl
  rw [if_neg hk13]
  by_cases hk14 : key = key_gpio_button1
  · rw [if_pos hk14]
    cases val <;> rfl
  rw [if_neg hk14]
  by_cases hk15 : key = key_gpio_button2
  · rw [if_pos hk15]
    cases val <;> rfl
  rw [if_neg hk15]
  by_cases hk16 : key = key_gpio_button3
  · rw [if_pos hk16]
    cases val <;> rfl
  rw [if_neg hk16]
  by_cases hk17 : key = key_gpio_button4
  · rw [if_pos hk17]
    cases val <;> rfl
  rw [if_neg hk17]

theorem store_field_sampling_mode (key : String) (val : Node) (ba : BandAction) :
    (store_field key val ba).sampling_mode =
      if key = key_sampling_mode then
        keep_or (sampling_mode_value val) ba.sampling_mode
      else ba.sampling_mode := by
  unfold store_field
  by_cases hk1 : key = key_band_name
  · have hF : ¬ (key = key_sampling_mode) := by rw [hk1]; decide
    rw [if_pos hk1, if_neg hF]
    cases val <;> rfl
  rw [if_neg hk1]
  by_cases hk2 : key = key_sampling_mode
  · rw [if_pos hk2, if_pos hk2]
    cases val <;> first | rfl | (simp only [sampling_mode_value, tuning_sideband_value]; split_ifs <;> rfl)
  rw [if_neg hk2, if_neg hk2]
  by_cases hk3 : key = key_tuning_sideband
  · rw [if_pos hk3]
    cases val <;> first | rfl | (simp only [sampling_mode_value, tuning_sideband_value]; split_ifs <;> rfl)
  rw [if_neg hk3]
  by_cases hk4 : key = key_samplerate
  · rw [if_pos hk4]
    cases val <;> rfl
  rw [if_neg hk4]
  by_cases hk5 : key = key_tuner_bandwidth
  · rw [if_pos hk5]
    cases val <;> rfl
  rw [if_neg hk5]
  by_cases hk6 : key = key_r820t_tuner_band_center
  · rw [if_pos hk6]
    cases val <;> rfl
  rw [if_neg hk6]
  by_cases hk7 : key = key_tuner_rf_gain_db
  · rw [if_pos hk7]
    cases val <;> rfl
  rw [if_neg hk7]
  by_cases hk8 : key = key_tuner_if_gain_db
  · rw [if_pos hk8]
    cases val <;> rfl
  rw [if_neg hk8]
  by_cases hk9 : key = key_tuner_rf_agc
  · rw [if_pos hk9]
    cases val <;> rfl
  rw [if_neg hk9]
  by_cases hk10 : key = key_tuner_if_agc
  · rw [if_pos hk10]
    cases val <;> rfl
  rw [if_neg hk10]
  by_cases hk11 : key = key_rtl_digital_agc
  · rw [if_pos hk11]
    cases val <;> rfl
  rw [if_neg hk11]
  by_cases hk12 : key = key_bias_tee
  · rw [if_pos hk12]
    cases val <;> rfl
  rw [if_neg hk12]
  by_cases hk13 : key = key_gpio_button0
  · rw [if_pos hk13]
    cases val <;> rfl
  rw [if_neg hk13]
  by_cases hk14 : key = key_gpio_button1
  · rw [if_pos hk14]
    cases val <;> rfl
  rw [if_neg hk14]
  by_cases hk15 : key = key_gpio_button2
  · rw [if_pos hk15]
    cases val <;> rfl
  rw [if_neg hk15]
  by_cases hk16 : key = key_gpio_button3
  · rw [if_pos hk16]
    cases val <;> rfl
  rw [if_neg hk16]
  by_cases hk17 : key = key_gpio_button4
  · rw [if_pos hk17]
    cases val <;> rfl
  rw [if_neg hk17]

theorem store_field_tuning_sideband (key : String) (val : Node) (ba : BandAction) :
    (store_field key val ba).tuning_sideband =
      if key = key_tuning_sideband then
        keep_or (tuning_sideband_value val) ba.tuning_sideband
      else ba.tuning_sideband := by
  unfold store_field
  by_cases hk1 : key = key_band_name
  · have hF : ¬ (key = key_tuning_sideband) := by rw [hk1]; decide
    rw [if_pos hk1, if_neg hF]
    cases val <;> rfl
  rw [if_neg hk1]
  by_cases hk2 : key = key_sampling_mode
  · have hF : ¬ (key = key_tuning_sideband) := by rw [hk2]; decide
    rw [if_pos hk2, if_neg hF]
    cases val <;> first | rfl | (simp only [sampling_mode_value, tuning_sideband_value]; split_ifs <;> rfl)
  rw [if_neg hk2]
  by_cases hk3 : key = key_tuning_sideband
  · rw [if_pos hk3, if_pos hk3]
    cases val <;> first | rfl | (simp only [sampling_mode_value, tuning_sideband_value]; split_ifs <;> rfl)
  rw [if_neg hk3, if_neg hk3]
  by_cases hk4 : key = key_samplerate
  · rw [if_pos hk4]
    cases val <;> rfl
  rw [if_neg hk4]
  by_cases hk5 : key = key_tuner_bandwidth
  · rw [if_pos hk5]
    cases val <;> rfl
  rw [if_neg hk5]
  by_cases hk6 : key = key_r820t_tuner_band_center
  · rw [if_pos hk6]
    cases val <;> rfl
  rw [if_neg hk6]
  by_cases hk7 : key = key_tuner_rf_gain_db
  · rw [if_pos hk7]
    cases val <;> rfl
  rw [if_neg hk7]
  by_cases hk8 : key = key_tuner_if_gain_db
  · rw [if_pos hk8]
    cases val <;> rfl
  rw [if_neg hk8]
  by_cases hk9 : key = key_tuner_rf_agc
  · rw [if_pos hk9]
    cases val <;> rfl
  rw [if_neg hk9]
  by_cases hk10 : key = key_tuner_if_agc
  · rw [if_pos hk10]
    cases val <;> rfl
  rw [if_neg hk10]
  by_cases hk11 : key = key_rtl_digital_agc
  · rw [if_pos hk11]
    cases val <;> rfl
  rw [if_neg hk11]
  by_cases hk12 : key = key_bias_tee
  · rw [if_pos hk12]
    cases val <;> rfl
  rw [if_neg hk12]
  by_cases hk13 : key = key_gpio_button0
  · rw [if_pos hk13]
    cases val <;> rfl
  rw [if_neg hk13]
  by_cases hk14 : key = key_gpio_button1
  · rw [if_pos hk14]
    cases val <;> rfl
  rw [if_neg hk14]
  by_cases hk15 : key = key_gpio_button2
  · rw [if_pos hk15]
    cases val <;> rfl
  rw [if_neg hk15]
  by_cases hk16 : key = key_gpio_button3
  · rw [if_pos hk16]
    cases val <;> rfl
  rw [if_neg hk16]
  by_cases hk17 : key = key_gpio_button4
  · rw [if_pos hk17]
    cases val <;> rfl
  rw [if_neg hk17]

theorem store_field_samplerate (key : String) (val : Node) (ba : BandAction) :
    (store_field key val ba).samplerate =
      if key = key_samplerate then
        keep_or (Node.as_floating_point val) ba.samplerate
      else ba.samplerate := by
  unfold store_field
  by_cases hk1 : key = key_band_name
  · have hF : ¬ (key = key_samplerate) := by rw [hk1]; decide
    rw [if_pos hk1, if_neg hF]
    cases val <;> rfl
  rw [if_neg hk1]
  by_cases hk2 : key = key_sampling_mode
  · have hF : ¬ (key = key_samplerate) := by rw [hk2]; decide
    rw [if_pos hk2, if_neg hF]
    cases val <;> first | rfl | (simp only [sampling_mode_value, tuning_sideband_value]; split_ifs <;> rfl)
  rw [if_neg hk2]
  by_cases hk3 : key = key_tuning_sideband
  · have hF : ¬ (key = key_samplerate) := by rw [hk3]; decide
    rw [if_pos hk3, if_neg hF]
    cases val <;> first | rfl | (simp only [sampling_mode_value, tuning_sideband_value]; split_ifs <;> rfl)
  rw [if_neg hk3]
  by_cases hk4 : key = key_samplerate
  · rw [if_pos hk4, if_pos hk4]
    cases val <;> rfl
  rw [if_neg hk4, if_neg hk4]
  by_cases hk5 : key = key_tuner_bandwidth
  · rw [if_pos hk5]
    cases val <;> rfl
  rw [if_neg hk5]
  by_cases hk6 : key = key_r820t_tuner_band_center
  · rw [if_pos hk6]
    cases val <;> rfl
  rw [if_neg hk6]
  by_cases hk7 : key = key_tuner_rf_gain_db
  · rw [if_pos hk7]
    cases val <;> rfl
  rw [if_neg hk7]
  by_cases hk8 : key = key_tuner_if_gain_db
  · rw [if_pos hk8]
    cases val <;> rfl
  rw [if_neg hk8]
  by_cases hk9 : key = key_tuner_rf_agc
  · rw [if_pos hk9]
    cases val <;> rfl
  rw [if_neg hk9]
  by_cases hk10 : key = key_tuner_if_agc
  · rw [if_pos hk10]
    cases val <;> rfl
  rw [if_neg hk10]
  by_cases hk11 : key = key_rtl_digital_agc
  · rw [if_pos hk11]
    cases val <;> rfl
  rw [if_neg hk11]
  by_cases hk12 : key = key_bias_tee
  · rw [if_pos hk12]
    cases val <;> rfl
  rw [if_neg hk12]
  by_cases hk13 : key = key_gpio_button0
  · rw [if_pos hk13]
    cases val <;> rfl
  rw [if_neg hk13]
  by_cases hk14 : key = key_gpio_button1
  · rw [if_pos hk14]
    cases val <;> rfl
  rw [if_neg hk14]
  by_cases hk15 : key = key_gpio_button2
  · rw [if_pos hk15]
    cases val <;> rfl
  rw [if_neg hk15]
  by_cases hk16 : key = key_gpio_button3
  · rw [if_pos hk16]
    cases val <;> rfl
  rw [if_neg hk16]
  by_cases hk17 : key = key_gpio_button4
  · rw [if_pos hk17]
    cases val <;> rfl
  rw [if_neg hk17]

theorem store_field_tuner_bandwidth (key : String) (val : Node) (ba : BandAction) :
    (store_field key val ba).tuner_bandwidth =
      if key = key_tuner_bandwidth then
        keep_or (Node.as_floating_point val) ba.tuner_bandwidth
      else ba.tuner_bandwidth := by
  unfold store_field
  by_cases hk1 : key = key_band_name
  · have hF : ¬ (key = key_tuner_bandwidth) := by rw [hk1]; decide
    rw [if_pos hk1, if_neg hF]
    cases val <;> rfl
  rw [if_neg hk1]
  by_cases hk2 : key = key_sampling_mode
  · have hF : ¬ (key = key_tuner_bandwidth) := by rw [hk2]; decide
    rw [if_pos hk2, if_neg hF]
    cases val <;> first | rfl | (simp only [sampling_mode_value, tuning_sideband_value]; split_ifs <;> rfl)
  rw [if_neg hk2]
  by_cases hk3 : key = key_tuning_sideband
  · have hF : ¬ (key = key_tuner_bandwidth) := by rw [hk3]; decide
    rw [if_pos hk3, if_neg hF]
    cases val <;> first | rfl | (simp only [sampling_mode_value, tuning_sideband_value]; split_ifs <;> rfl)
  rw [if_neg hk3]
  by_cases hk4 : key = key_samplerate
  · have hF : ¬ (key = key_tuner_bandwidth) := by rw [hk4]; decide
    rw [if_pos hk4, if_neg hF]
    cases val <;> rfl
  rw [if_neg hk4]
  by_cases hk5 : key = key_tuner_bandwidth
  · rw [if_pos hk5, if_pos hk5]
    cases val <;> rfl
  rw [if_neg hk5, if_neg hk5]
  by_cases hk6 : key = key_r820t_tuner_band_center
  · rw [if_pos hk6]
    cases val <;> rfl
  rw [if_neg hk6]
  by_cases hk7 : key = key_tuner_rf_gain_db
  · rw [if_pos hk7]
    cases val <;> rfl
  rw [if_neg hk7]
  by_cases hk8 : key = key_tuner_if_gain_db
  · rw [if_pos hk8]
    cases val <;> rfl
  rw [if_neg hk8]
  by_cases hk9 : key = key_tuner_rf_agc
  · rw [if_pos hk9]
    cases val <;> rfl
  rw [if_neg hk9]
  by_cases hk10 : key = key_tuner_if_agc
  · rw [if_pos hk10]
    cases val <;> rfl
  rw [if_neg hk10]
  by_cases hk11 : key = key_rtl_digital_agc
  · rw [if_pos hk11]
    cases val <;> rfl
  rw [if_neg hk11]
  by_cases hk12 : key = key_bias_tee
  · rw [if_pos hk12]
    cases val <;> rfl
  rw [if_neg hk12]
  by_cases hk13 : key = key_gpio_button0
  · rw [if_pos hk13]
    cases val <;> rfl
  rw [if_neg hk13]
  by_cases hk14 : key = key_gpio_button1
  · rw [if_pos hk14]
    cases val <;> rfl
  rw [if_neg hk14]
  by_cases hk15 : key = key_gpio_button2
  · rw [if_pos hk15]
    cases val <;> rfl
  rw [if_neg hk15]
  by_cases hk16 : key = key_gpio_button3
  · rw [if_pos hk16]
    cases val <;> rfl
  rw [if_neg hk16]
  by_cases hk17 : key = key_gpio_button4
  · rw [if_pos hk17]
    cases val <;> rfl
  rw [if_neg hk17]

theorem store_field_r820t_tuner_band_center (key : String) (val : Node) (ba : BandAction) :
    (store_field key val ba).r820t_tuner_band_center =
      if key = key_r820t_tuner_band_center then
        keep_or (Node.as_floating_point val) ba.r820t_tuner_band_center
      else ba.r820t_tuner_band_center := by
  unfold store_field
  by_cases hk1 : key = key_band_name
  · have hF : ¬ (key = key_r820t_tuner_band_center) := by rw [hk1]; decide
    rw [if_pos hk1, if_neg hF]
    cases val <;> rfl
  rw [if_neg hk1]
  by_cases hk2 : key = key_sampling_mode
  · have hF : ¬ (key = key_r820t_tuner_band_center) := by rw [hk2]; decide
    rw [if_pos hk2, if_neg hF]
    cases val <;> first | rfl | (simp only [sampling_mode_value, tuning_sideband_value]; split_ifs <;> rfl)
  rw [if_neg hk2]
  by_cases hk3 : key = key_tuning_sideband
  · have hF : ¬ (key = key_r820t_tuner_band_center) := by rw [hk3]; decide
    rw [if_pos hk3, if_neg hF]
    cases val <;> first | rfl | (simp only [sampling_mode_value, tuning_sideband_value]; split_ifs <;> rfl)
  rw [if_neg hk3]
  by_cases hk4 : key = key_samplerate
  · have hF : ¬ (key = key_r820t_tuner_band_center) := by rw [hk4]; decide
    rw [if_pos hk4, if_neg hF]
    cases val <;> rfl
  rw [if_neg hk4]
  by_cases hk5 : key = key_tuner_bandwidth
  · have hF : ¬ (key = key_r820t_tuner_band_center) := by rw [hk5]; decide
    rw [if_pos hk5, if_neg hF]
    cases val <;> rfl
  rw [if_neg hk5]
  by_cases hk6 : key = key_r820t_tuner_band_center
  · rw [if_pos hk6, if_pos hk6]
    cases val <;> rfl
  rw [if_neg hk6, if_neg hk6]
  by_cases hk7 : key = key_tuner_rf_gain_db
  · rw [if_pos hk7]
    cases val <;> rfl
  rw [if_neg hk7]
  by_cases hk8 : key = key_tuner_if_gain_db
  · rw [if_pos hk8]
    cases val <;> rfl
  rw [if_neg hk8]
  by_cases hk9 : key = key_tuner_rf_agc
  · rw [if_pos hk9]
    cases val <;> rfl
  rw [if_neg hk9]
  by_cases hk10 : key = key_tuner_if_agc
  · rw [if_pos hk10]
    cases val <;> rfl
  rw [if_neg hk10]
  by_cases hk11 : key = key_rtl_digital_agc
  · rw [if_pos hk11]
    cases val <;> rfl
  rw [if_neg hk11]
  by_cases hk12 : key = key_bias_tee
  · rw [if_pos hk12]
    cases val <;> rfl
  rw [if_neg hk12]
  by_cases hk13 : key = key_gpio_button0
  · rw [if_pos hk13]
    cases val <;> rfl
  rw [if_neg hk13]
  by_cases hk14 : key = key_gpio_button1
  · rw [if_pos hk14]
    cases val <;> rfl
  rw [if_neg hk14]
  by_cases hk15 : key = key_gpio_button2
  · rw [if_pos hk15]
    cases val <;> rfl
  rw [if_neg hk15]
  by_cases hk16 : key = key_gpio_button3
  · rw [if_pos hk16]
    cases val <;> rfl
  rw [if_neg hk16]
  by_cases hk17 : key = key_gpio_button4
  · rw [if_pos hk17]
    cases val <;> rfl
  rw [if_neg hk17]

theorem store_field_tuner_rf_gain_db (key : String) (val : Node) (ba : BandAction) :
    (store_field key val ba).tuner_rf_gain_db =
      if key = key_tuner_rf_gain_db then
        keep_or (Node.as_floating_point val) ba.tuner_rf_gain_db
      else ba.tuner_rf_gain_db := by
  unfold store_field
  by_cases hk1 : key = key_band_name
  · have hF : ¬ (key = key_tuner_rf_gain_db) := by rw [hk1]; decide
    rw [if_pos hk1, if_neg hF]
    cases val <;> rfl
  rw [if_neg hk1]
  by_cases hk2 : key = key_sampling_mode
  · have hF : ¬ (key = key_tuner_rf_gain_db) := by rw [hk2]; decide
    rw [if_pos hk2, if_neg hF]
    cases val <;> first | rfl | (simp only [sampling_mode_value, tuning_sideband_value]; split_ifs <;> rfl)
  rw [if_neg hk2]
  by_cases hk3 : key = key_tuning_sideband
  · have hF : ¬ (key = key_tuner_rf_gain_db) := by rw [hk3]; decide
    rw [if_pos hk3, if_neg hF]
    cases val <;> first | rfl | (simp only [sampling_mode_value, tuning_sideband_value]; split_ifs <;> rfl)
  rw [if_neg hk3]
  by_cases hk4 : key = key_samplerate
  · have hF : ¬ (key = key_tuner_rf_gain_db) := by rw [hk4]; decide
    rw [if_pos hk4, if_neg hF]
    cases val <;> rfl
  rw [if_neg hk4]
  by_cases hk5 : key = key_tuner_bandwidth
  · have hF : ¬ (key = key_tuner_rf_gain_db) := by rw [hk5]; decide
    rw [if_pos hk5, if_neg hF]
    cases val <;> rfl
  rw [if_neg hk5]
  by_cases hk6 : key = key_r820t_tuner_band_center
  · have hF : ¬ (key = key_tuner_rf_gain_db) := by rw [hk6]; decide
    rw [if_pos hk6, if_neg hF]
    cases val <;> rfl
  rw [if_neg hk6]
  by_cases hk7 : key = key_tuner_rf_gain_db
  · rw [if_pos hk7, if_pos hk7]
    cases val <;> rfl
  rw [if_neg hk7, if_neg hk7]
  by_cases hk8 : key = key_tuner_if_gain_db
  · rw [if_pos hk8]
    cases val <;> rfl
  rw [if_neg hk8]
  by_cases hk9 : key = key_tuner_rf_agc
  · rw [if_pos hk9]
    cases val <;> rfl
  rw [if_neg hk9]
  by_cases hk10 : key = key_tuner_if_agc
  · rw [if_pos hk10]
    cases val <;> rfl
  rw [if_neg hk10]
  by_cases hk11 : key = key_rtl_digital_agc
  · rw [if_pos hk11]
    cases val <;> rfl
  rw [if_neg hk11]
  by_cases hk12 : key = key_bias_tee
  · rw [if_pos hk12]
    cases val <;> rfl
  rw [if_neg hk12]
  by_cases hk13 : key = key_gpio_button0
  · rw [if_pos hk13]
    cases val <;> rfl
  rw [if_neg hk13]
  by_cases hk14 : key = key_gpio_button1
  · rw [if_pos hk14]
    cases val <;> rfl
  rw [if_neg hk14]
  by_cases hk15 : key = key_gpio_button2
  · rw [if_pos hk15]
    cases val <;> rfl
  rw [if_neg hk15]
  by_cases hk16 : key = key_gpio_button3
  · rw [if_pos hk16]
    cases val <;> rfl
  rw [if_neg hk16]
  by_cases hk17 : key = key_gpio_button4
  · rw [if_pos hk17]
    cases val <;> rfl
  rw [if_neg hk17]

theorem store_field_tuner_if_gain_db (key : String) (val : Node) (ba : BandAction) :
    (store_field key val ba).tuner_if_gain_db =
      if key = key_tuner_if_gain_db then
        keep_or (Node.as_floating_point val) ba.tuner_if_gain_db
      else ba.tuner_if_gain_db := by
  unfold store_field
  by_cases hk1 : key = key_band_name
  · have hF : ¬ (key = key_tuner_if_gain_db) := by rw [hk1]; decide
    rw [if_pos hk1, if_neg hF]
    cases val <;> rfl
  rw [if_neg hk1]
  by_cases hk2 : key = key_sampling_mode
  · have hF : ¬ (key = key_tuner_if_gain_db) := by rw [hk2]; decide
    rw [if_pos hk2, if_neg hF]
    cases val <;> first | rfl | (simp only [sampling_mode_value, tuning_sideband_value]; split_ifs <;> rfl)
  rw [if_neg hk2]
  by_cases hk3 : key = key_tuning_sideband
  · have hF : ¬ (key = key_tuner_if_gain_db) := by rw [hk3]; decide
    rw [if_pos hk3, if_neg hF]
    cases val <;> first | rfl | (simp only [sampling_mode_value, tuning_sideband_value]; split_ifs <;> rfl)
  rw [if_neg hk3]
  by_cases hk4 : key = key_samplerate
  · have hF : ¬ (key = key_tuner_if_gain_db) := by rw [hk4]; decide
    rw [if_pos hk4, if_neg hF]
    cases val <;> rfl
  rw [if_neg hk4]
  by_cases hk5 : key = key_tuner_bandwidth
  · have hF : ¬ (key = key_tuner_if_gain_db) := by rw [hk5]; decide
    rw [if_pos hk5, if_neg hF]
    cases val <;> rfl
  rw [if_neg hk5]
  by_cases hk6 : key = key_r820t_tuner_band_center
  · have hF : ¬ (key = key_tuner_if_gain_db) := by rw [hk6]; decide
    rw [if_pos hk6, if_neg hF]
    cases val <;> rfl
  rw [if_neg hk6]
  by_cases hk7 : key = key_tuner_rf_gain_db
  · have hF : ¬ (key = key_tuner_if_gain_db) := by rw [hk7]; decide
    rw [if_pos hk7, if_neg hF]
    cases val <;> rfl
  rw [if_neg hk7]
  by_cases hk8 : key = key_tuner_if_gain_db
  · rw [if_pos hk8, if_pos hk8]
    cases val <;> rfl
  rw [if_neg hk8, if_neg hk8]
  by_cases hk9 : key = key_tuner_rf_agc
  · rw [if_pos hk9]
    cases val <;> rfl
  rw [if_neg hk9]
  by_cases hk10 : key = key_tuner_if_agc
  · rw [if_pos hk10]
    cases val <;> rfl
  rw [if_neg hk10]
  by_cases hk11 : key = key_rtl_digital_agc
  · rw [if_pos hk11]
    cases val <;> rfl
  rw [if_neg hk11]
  by_cases hk12 : key = key_bias_tee
  · rw [if_pos hk12]
    cases val <;> rfl
  rw [if_neg hk12]
  by_cases hk13 : key = key_gpio_button0
  · rw [if_pos hk13]
    cases val <;> rfl
  rw [if_neg hk13]
  by_cases hk14 : key = key_gpio_button1
  · rw [if_pos hk14]
    cases val <;> rfl
  rw [if_neg hk14]
  by_cases hk15 : key = key_gpio_button2
  · rw [if_pos hk15]
    cases val <;> rfl
  rw [if_neg hk15]
  by_cases hk16 : key = key_gpio_button3
  · rw [if_pos hk16]
    cases val <;> rfl
  rw [if_neg hk16]
  by_cases hk17 : key = key_gpio_button4
  · rw [if_pos hk17]
    cases val <;> rfl
  rw [if_neg hk17]

theorem store_field_tuner_rf_agc (key : String) (val : Node) (ba : BandAction) :
    (store_field key val ba).tuner_rf_agc =
      if key = key_tuner_rf_agc then
        keep_or (Node.as_boolean val) ba.tuner_rf_agc
      else ba.tuner_rf_agc := by
  unfold store_field
  by_cases hk1 : key = key_band_name
  · have hF : ¬ (key = key_tuner_rf_agc) := by rw [hk1]; decide
    rw [if_pos hk1, if_neg hF]
    cases val <;> rfl
  rw [if_neg hk1]
  by_cases hk2 : key = key_sampling_mode
  · have hF : ¬ (key = key_tuner_rf_agc) := by rw [hk2]; decide
    rw [if_pos hk2, if_neg hF]
    cases val <;> first | rfl | (simp only [sampling_mode_value, tuning_sideband_value]; split_ifs <;> rfl)
  rw [if_neg hk2]
  by_cases hk3 : key = key_tuning_sideband
  · have hF : ¬ (key = key_tuner_rf_agc) := by rw [hk3]; decide
    rw [if_pos hk3, if_neg hF]
    cases val <;> first | rfl | (simp only [sampling_mode_value, tuning_sideband_value]; split_ifs <;> rfl)
  rw [if_neg hk3]
  by_cases hk4 : key = key_samplerate
  · have hF : ¬ (key = key_tuner_rf_agc) := by rw [hk4]; decide
    rw [if_pos hk4, if_neg hF]
    cases val <;> rfl
  rw [if_neg hk4]
  by_cases hk5 : key = key_tuner_bandwidth
  · have hF : ¬ (key = key_tuner_rf_agc) := by rw [hk5]; decide
    rw [if_pos hk5, if_neg hF]
    cases val <;> rfl
  rw [if_neg hk5]
  by_cases hk6 : key = key_r820t_tuner_band_center
  · have hF : ¬ (key = key_tuner_rf_agc) := by rw [hk6]; decide
    rw [if_pos hk6, if_neg hF]
    cases val <;> rfl
  rw [if_neg hk6]
  by_cases hk7 : key = key_tuner_rf_gain_db
  · have hF : ¬ (key = key_tuner_rf_agc) := by rw [hk7]; decide
    rw [if_pos hk7, if_neg hF]
    cases val <;> rfl
  rw [if_neg hk7]
  by_cases hk8 : key = key_tuner_if_gain_db
  · have hF : ¬ (key = key_tuner_rf_agc) := by rw [hk8]; decide
    rw [if_pos hk8, if_neg hF]
    cases val <;> rfl
  rw [if_neg hk8]
  by_cases hk9 : key = key_tuner_rf_agc
  · rw [if_pos hk9, if_pos hk9]
    cases val <;> rfl
  rw [if_neg hk9, if_neg hk9]
  by_cases hk10 : key = key_tuner_if_agc
  · rw [if_pos hk10]
    cases val <;> rfl
  rw [if_neg hk10]
  by_cases hk11 : key = key_rtl_digital_agc
  · rw [if_pos hk11]
    cases val <;> rfl
  rw [if_neg hk11]
  by_cases hk12 : key = key_bias_tee
  · rw [if_pos hk12]
    cases val <;> rfl
  rw [if_neg hk12]
  by_cases hk13 : key = key_gpio_button0
  · rw [if_pos hk13]
    cases val <;> rfl
  rw [if_neg hk13]
  by_cases hk14 : key = key_gpio_button1
  · rw [if_pos hk14]
    cases val <;> rfl
  rw [if_neg hk14]
  by_cases hk15 : key = key_gpio_button2
  · rw [if_pos hk15]
    cases val <;> rfl
  rw [if_neg hk15]
  by_cases hk16 : key = key_gpio_button3
  · rw [if_pos hk16]
    cases val <;> rfl
  rw [if_neg hk16]
  by_cases hk17 : key = key_gpio_button4
  · rw [if_pos hk17]
    cases val <;> rfl
  rw [if_neg hk17]

theorem store_field_tuner_if_agc (key : String) (val : Node) (ba : BandAction) :
    (store_field key val ba).tuner_if_agc =
      if key = key_tuner_if_agc then
        keep_or (Node.as_boolean val) ba.tuner_if_agc
      else ba.tuner_if_agc := by
  unfold store_field
  by_cases hk1 : key = key_band_name
  · have hF : ¬ (key = key_tuner_if_agc) := by rw [hk1]; decide
    rw [if_pos hk1, if_neg hF]
    cases val <;> rfl
  rw [if_neg hk1]
  by_cases hk2 : key = key_sampling_mode
  · have hF : ¬ (key = key_tuner_if_agc) := by rw [hk2]; decide
    rw [if_pos hk2, if_neg hF]
    cases val <;> first | rfl | (simp only [sampling_mode_value, tuning_sideband_value]; split_ifs <;> rfl)
  rw [if_neg hk2]
  by_cases hk3 : key = key_tuning_sideband
  · have hF : ¬ (key = key_tuner_if_agc) := by rw [hk3]; decide
    rw [if_pos hk3, if_neg hF]
    cases val <;> first | rfl | (simp only [sampling_mode_value, tuning_sideband_value]; split_ifs <;> rfl)
  rw [if_neg hk3]
  by_cases hk4 : key = key_samplerate
  · have hF : ¬ (key = key_tuner_if_agc) := by rw [hk4]; decide
    rw [if_pos hk4, if_neg hF]
    cases val <;> rfl
  rw [if_neg hk4]
  by_cases hk5 : key = key_tuner_bandwidth
  · have hF : ¬ (key = key_tuner_if_agc) := by rw [hk5]; decide
    rw [if_pos hk5, if_neg hF]
    cases val <;> rfl
  rw [if_neg hk5]
  by_cases hk6 : key = key_r820t_tuner_band_center
  · have hF : ¬ (key = key_tuner_if_agc) := by rw [hk6]; decide
    rw [if_pos hk6, if_neg hF]
    cases val <;> rfl
  rw [if_neg hk6]
  by_cases hk7 : key = key_tuner_rf_gain_db
  · have hF : ¬ (key = key_tuner_if_agc) := by rw [hk7]; decide
    rw [if_pos hk7, if_neg hF]
    cases val <;> rfl
  rw [if_neg hk7]
  by_cases hk8 : key = key_tuner_if_gain_db
  · have hF : ¬ (key = key_tuner_if_agc) := by rw [hk8]; decide
    rw [if_pos hk8, if_neg hF]
    cases val <;> rfl
  rw [if_neg hk8]
  by_cases hk9 : key = key_tuner_rf_agc
  · have hF : ¬ (key = key_tuner_if_agc) := by rw [hk9]; decide
    rw [if_pos hk9, if_neg hF]
    cases val <;> rfl
  rw [if_neg hk9]
  by_cases hk10 : key = key_tuner_if_agc
  · rw [if_pos hk10, if_pos hk10]
    cases val <;> rfl
  rw [if_neg hk10, if_neg hk10]
  by_cases hk11 : key = key_rtl_digital_agc
  · rw [if_pos hk11]
    cases val <;> rfl
  rw [if_neg hk11]
  by_cases hk12 : key = key_bias_tee
  · rw [if_pos hk12]
    cases val <;> rfl
  rw [if_neg hk12]
  by_cases hk13 : key = key_gpio_button0
  · rw [if_pos hk13]
    cases val <;> rfl
  rw [if_neg hk13]
  by_cases hk14 : key = key_gpio_button1
  · rw [if_pos hk14]
    cases val <;> rfl
  rw [if_neg hk14]
  by_cases hk15 : key = key_gpio_button2
  · rw [if_pos hk15]
    cases val <;> rfl
  rw [if_neg hk15]
  by_cases hk16 : key = key_gpio_button3
  · rw [if_pos hk16]
    cases val <;> rfl
  rw [if_neg hk16]
  by_cases hk17 : key = key_gpio_button4
  · rw [if_pos hk17]
    cases val <;> rfl
  rw [if_neg hk17]

theorem store_field_rtl_digital_agc (key : String) (val : Node) (ba : BandAction) :
    (store_field key val ba).rtl_digital_agc =
      if key = key_rtl_digital_agc then
        keep_or (Node.as_boolean val) ba.rtl_digital_agc
      else ba.rtl_digital_agc := by
  unfold store_field
  by_cases hk1 : key = key_band_name
  · have hF : ¬ (key = key_rtl_digital_agc) := by rw [hk1]; decide
    rw [if_pos hk1, if_neg hF]
    cases val <;> rfl
  rw [if_neg hk1]
  by_cases hk2 : key = key_sampling_mode
  · have hF : ¬ (key = key_rtl_digital_agc) := by rw [hk2]; decide
    rw [if_pos hk2, if_neg hF]
    cases val <;> first | rfl | (simp only [sampling_mode_value, tuning_sideband_value]; split_ifs <;> rfl)
  rw [if_neg hk2]
  by_cases hk3 : key = key_tuning_sideband
  · have hF : ¬ (key = key_rtl_digital_agc) := by rw [hk3]; decide
    rw [if_pos hk3, if_neg hF]
    cases val <;> first | rfl | (simp only [sampling_mode_value, tuning_sideband_value]; split_ifs <;> rfl)
  rw [if_neg hk3]
  by_cases hk4 : key = key_samplerate
  · have hF : ¬ (key = key_rtl_digital_agc) := by rw [hk4]; decide
    rw [if_pos hk4, if_neg hF]
    cases val <;> rfl
  rw [if_neg hk4]
  by_cases hk5 : key = key_tuner_bandwidth
  · have hF : ¬ (key = key_rtl_digital_agc) := by rw [hk5]; decide
    rw [if_pos hk5, if_neg hF]
    cases val <;> rfl
  rw [if_neg hk5]
  by_cases hk6 : key = key_r820t_tuner_band_center
  · have hF : ¬ (key = key_rtl_digital_agc) := by rw [hk6]; decide
    rw [if_pos hk6, if_neg hF]
    cases val <;> rfl
  rw [if_neg hk6]
  by_cases hk7 : key = key_tuner_rf_gain_db
  · have hF : ¬ (key = key_rtl_digital_agc) := by rw [hk7]; decide
    rw [if_pos hk7, if_neg hF]
    cases val <;> rfl
  rw [if_neg hk7]
  by_cases hk8 : key = key_tuner_if_gain_db
  · have hF : ¬ (key = key_rtl_digital_agc) := by rw [hk8]; decide
    rw [if_pos hk8, if_neg hF]
    cases val <;> rfl
  rw [if_neg hk8]
  by_cases hk9 : key = key_tuner_rf_agc
  · have hF : ¬ (key = key_rtl_digital_agc) := by rw [hk9]; decide
    rw [if_pos hk9, if_neg hF]
    cases val <;> rfl
  rw [if_neg hk9]
  by_cases hk10 : key = key_tuner_if_agc
  · have hF : ¬ (key = key_rtl_digital_agc) := by rw [hk10]; decide
    rw [if_pos hk10, if_neg hF]
    cases val <;> rfl
  rw [if_neg hk10]
  by_cases hk11 : key = key_rtl_digital_agc
  · rw [if_pos hk11, if_pos hk11]
    cases val <;> rfl
  rw [if_neg hk11, if_neg hk11]
  by_cases hk12 : key = key_bias_tee
  · rw [if_pos hk12]
    cases val <;> rfl
  rw [if_neg hk12]
  by_cases hk13 : key = key_gpio_button0
  · rw [if_pos hk13]
    cases val <;> rfl
  rw [if_neg hk13]
  by_cases hk14 : key = key_gpio_button1
  · rw [if_pos hk14]
    cases val <;> rfl
  rw [if_neg hk14]
  by_cases hk15 : key = key_gpio_button2
  · rw [if_pos hk15]
    cases val <;> rfl
  rw [if_neg hk15]
  by_cases hk16 : key = key_gpio_button3
  · rw [if_pos hk16]
    cases val <;> rfl
  rw [if_neg hk16]
  by_cases hk17 : key = key_gpio_button4
  · rw [if_pos hk17]
    cases val <;> rfl
  rw [if_neg hk17]

theorem store_field_gpio_button0 (key : String) (val : Node) (ba : BandAction) :
    (store_field key val ba).gpio_button0 =
      if key = key_bias_tee ∨ key = key_gpio_button0 then
        keep_or (Node.as_boolean val) ba.gpio_button0
      else ba.gpio_button0 := by
  unfold store_field
  by_cases hk1 : key = key_band_name
  · have hF : ¬ (key = key_bias_tee ∨ key = key_gpio_button0) := by rw [hk1]; decide
    rw [if_pos hk1, if_neg hF]
    cases val <;> rfl
  rw [if_neg hk1]
  by_cases hk2 : key = key_sampling_mode
  · have hF : ¬ (key = key_bias_tee ∨ key = key_gpio_button0) := by rw [hk2]; decide
    rw [if_pos hk2, if_neg hF]
    cases val <;> first | rfl | (simp only [sampling_mode_value, tuning_sideband_value]; split_ifs <;> rfl)
  rw [if_neg hk2]
  by_cases hk3 : key = key_tuning_sideband
  · have hF : ¬ (key = key_bias_tee ∨ key = key_gpio_button0) := by rw [hk3]; decide
    rw [if_pos hk3, if_neg hF]
    cases val <;> first | rfl | (simp only [sampling_mode_value, tuning_sideband_value]; split_ifs <;> rfl)
  rw [if_neg hk3]
  by_cases hk4 : key = key_samplerate
  · have hF : ¬ (key = key_bias_tee ∨ key = key_gpio_button0) := by rw [hk4]; decide
    rw [if_pos hk4, if_neg hF]
    cases val <;> rfl
  rw [if_neg hk4]
  by_cases hk5 : key = key_tuner_bandwidth
  · have hF : ¬ (key = key_bias_tee ∨ key = key_gpio_button0) := by rw [hk5]; decide
    rw [if_pos hk5, if_neg hF]
    cases val <;> rfl
  rw [if_neg hk5]
  by_cases hk6 : key = key_r820t_tuner_band_center
  · have hF : ¬ (key = key_bias_tee ∨ key = key_gpio_button0) := by rw [hk6]; decide
    rw [if_pos hk6, if_neg hF]
    cases val <;> rfl
  rw [if_neg hk6]
  by_cases hk7 : key = key_tuner_rf_gain_db
  · have hF : ¬ (key = key_bias_tee ∨ key = key_gpio_button0) := by rw [hk7]; decide
    rw [if_pos hk7, if_neg hF]
    cases val <;> rfl
  rw [if_neg hk7]
  by_cases hk8 : key = key_tuner_if_gain_db
  · have hF : ¬ (key = key_bias_tee ∨ key = key_gpio_button0) := by rw [hk8]; decide
    rw [if_pos hk8, if_neg hF]
    cases val <;> rfl
  rw [if_neg hk8]
  by_cases hk9 : key = key_tuner_rf_agc
  · have hF : ¬ (key = key_bias_tee ∨ key = key_gpio_button0) := by rw [hk9]; decide
    rw [if_pos hk9, if_neg hF]
    cases val <;> rfl
  rw [if_neg hk9]
  by_cases hk10 : key = key_tuner_if_agc
  · have hF : ¬ (key = key_bias_tee ∨ key = key_gpio_button0) := by rw [hk10]; decide
    rw [if_pos hk10, if_neg hF]
    cases val <;> rfl
  rw [if_neg hk10]
  by_cases hk11 : key = key_rtl_digital_agc
  · have hF : ¬ (key = key_bias_tee ∨ key = key_gpio_button0) := by rw [hk11]; decide
    rw [if_pos hk11, if_neg hF]
    cases val <;> rfl
  rw [if_neg hk11]
  by_cases hk12 : key = key_bias_tee
  · rw [if_pos hk12, if_pos (show key = key_bias_tee ∨ key = key_gpio_button0 from Or.inl hk12)]
    cases val <;> rfl
  rw [if_neg hk12]
  by_cases hk13 : key = key_gpio_button0
  · rw [if_pos hk13, if_pos (show key = key_bias_tee ∨ key = key_gpio_button0 from Or.inr hk13)]
    cases val <;> rfl
  rw [if_neg hk13]
  by_cases hk14 : key = key_gpio_button1
  · have hF : ¬ (key = key_bias_tee ∨ key = key_gpio_button0) := by rw [hk14]; decide
    rw [if_pos hk14, if_neg hF]
    cases val <;> rfl
  rw [if_neg hk14]
  by_cases hk15 : key = key_gpio_button2
  · have hF : ¬ (key = key_bias_tee ∨ key = key_gpio_button0) := by rw [hk15]; decide
    rw [if_pos hk15, if_neg hF]
    cases val <;> rfl
  rw [if_neg hk15]
  by_cases hk16 : key = key_gpio_button3
  · have hF : ¬ (key = key_bias_tee ∨ key = key_gpio_button0) := by rw [hk16]; decide
    rw [if_pos hk16, if_neg hF]
    cases val <;> rfl
  rw [if_neg hk16]
  by_cases hk17 : key = key_gpio_button4
  · have hF : ¬ (key = key_bias_tee ∨ key = key_gpio_button0) := by rw [hk17]; decide
    rw [if_pos hk17, if_neg hF]
    cases val <;> rfl
  rw [if_neg hk17]
  rw [if_neg (not_or.mpr ⟨hk12, hk13⟩)]

theorem store_field_gpio_button1 (key : String) (val : Node) (ba : BandAction) :
    (store_field key val ba).gpio_button1 =
      if key = key_gpio_button1 then
        keep_or (Node.as_boolean val) ba.gpio_button1
      else ba.gpio_button1 := by
  unfold store_field
  by_cases hk1 : key = key_band_name
  · have hF : ¬ (key = key_gpio_button1) := by rw [hk1]; decide
    rw [if_pos hk1, if_neg hF]
    cases val <;> rfl
  rw [if_neg hk1]
  by_cases hk2 : key = key_sampling_mode
  · have hF : ¬ (key = key_gpio_button1) := by rw [hk2]; decide
    rw [if_pos hk2, if_neg hF]
    cases val <;> first | rfl | (simp only [sampling_mode_value, tuning_sideband_value]; split_ifs <;> rfl)
  rw [if_neg hk2]
  by_cases hk3 : key = key_tuning_sideband
  · have hF : ¬ (key = key_gpio_button1) := by rw [hk3]; decide
    rw [if_pos hk3, if_neg hF]
    cases val <;> first | rfl | (simp only [sampling_mode_value, tuning_sideband_value]; split_ifs <;> rfl)
  rw [if_neg hk3]
  by_cases hk4 : key = key_samplerate
  · have hF : ¬ (key = key_gpio_button1) := by rw [hk4]; decide
    rw [if_pos hk4, if_neg hF]
    cases val <;> rfl
  rw [if_neg hk4]
  by_cases hk5 : key = key_tuner_bandwidth
  · have hF : ¬ (key = key_gpio_button1) := by rw [hk5]; decide
    rw [if_pos hk5, if_neg hF]
    cases val <;> rfl
  rw [if_neg hk5]
  by_cases hk6 : key = key_r820t_tuner_band_center
  · have hF : ¬ (key = key_gpio_button1) := by rw [hk6]; decide
    rw [if_pos hk6, if_neg hF]
    cases val <;> rfl
  rw [if_neg hk6]
  by_cases hk7 : key = key_tuner_rf_gain_db
  · have hF : ¬ (key = key_gpio_button1) := by rw [hk7]; decide
    rw [if_pos hk7, if_neg hF]
    cases val <;> rfl
  rw [if_neg hk7]
  by_cases hk8 : key = key_tuner_if_gain_db
  · have hF : ¬ (key = key_gpio_button1) := by rw [hk8]; decide
    rw [if_pos hk8, if_neg hF]
    cases val <;> rfl
  rw [if_neg hk8]
  by_cases hk9 : key = key_tuner_rf_agc
  · have hF : ¬ (key = key_gpio_button1) := by rw [hk9]; decide
    rw [if_pos hk9, if_neg hF]
    cases val <;> rfl
  rw [if_neg hk9]
  by_cases hk10 : key = key_tuner_if_agc
  · have hF : ¬ (key = key_gpio_button1) := by rw [hk10]; decide
    rw [if_pos hk10, if_neg hF]
    cases val <;> rfl
  rw [if_neg hk10]
  by_cases hk11 : key = key_rtl_digital_agc
  · have hF : ¬ (key = key_gpio_button1) := by rw [hk11]; decide
    rw [if_pos hk11, if_neg hF]
    cases val <;> rfl
  rw [if_neg hk11]
  by_cases hk12 : key = key_bias_tee
  · have hF : ¬ (key = key_gpio_button1) := by rw [hk12]; decide
    rw [if_pos hk12, if_neg hF]
    cases val <;> rfl
  rw [if_neg hk12]
  by_cases hk13 : key = key_gpio_button0
  · have hF : ¬ (key = key_gpio_button1) := by rw [hk13]; decide
    rw [if_pos hk13, if_neg hF]
    cases val <;> rfl
  rw [if_neg hk13]
  by_cases hk14 : key = key_gpio_button1
  · rw [if_pos hk14, if_pos hk14]
    cases val <;> rfl
  rw [if_neg hk14, if_neg hk14]
  by_cases hk15 : key = key_gpio_button2
  · rw [if_pos hk15]
    cases val <;> rfl
  rw [if_neg hk15]
  by_cases hk16 : key = key_gpio_button3
  · rw [if_pos hk16]
    cases val <;> rfl
  rw [if_neg hk16]
  by_cases hk17 : key = key_gpio_button4
  · rw [if_pos hk17]
    cases val <;> rfl
  rw [if_neg hk17]

theorem store_field_gpio_button2 (key : String) (val : Node) (ba : BandAction) :
    (store_field key val ba).gpio_button2 =
      if key = key_gpio_button2 then
        keep_or (Node.as_boolean val) ba.gpio_button2
      else ba.gpio_button2 := by
  unfold store_field
  by_cases hk1 : key = key_band_name
  · have hF : ¬ (key = key_gpio_button2) := by rw [hk1]; decide
    rw [if_pos hk1, if_neg hF]
    cases val <;> rfl
  rw [if_neg hk1]
  by_cases hk2 : key = key_sampling_mode
  · have hF : ¬ (key = key_gpio_button2) := by rw [hk2]; decide
    rw [if_pos hk2, if_neg hF]
    cases val <;> first | rfl | (simp only [sampling_mode_value, tuning_sideband_value]; split_ifs <;> rfl)
  rw [if_neg hk2]
  by_cases hk3 : key = key_tuning_sideband
  · have hF : ¬ (key = key_gpio_button2) := by rw [hk3]; decide
    rw [if_pos hk3, if_neg hF]
    cases val <;> first | rfl | (simp only [sampling_mode_value, tuning_sideband_value]; split_ifs <;> rfl)
  rw [if_neg hk3]
  by_cases hk4 : key = key_samplerate
  · have hF : ¬ (key = key_gpio_button2) := by rw [hk4]; decide
    rw [if_pos hk4, if_neg hF]
    cases val <;> rfl
  rw [if_neg hk4]
  by_cases hk5 : key = key_tuner_bandwidth
  · have hF : ¬ (key = key_gpio_button2) := by rw [hk5]; decide
    rw [if_pos hk5, if_neg hF]
    cases val <;> rfl
  rw [if_neg hk5]
  by_cases hk6 : key = key_r820t_tuner_band_center
  · have hF : ¬ (key = key_gpio_button2) := by rw [hk6]; decide
    rw [if_pos hk6, if_neg hF]
    cases val <;> rfl
  rw [if_neg hk6]
  by_cases hk7 : key = key_tuner_rf_gain_db
  · have hF : ¬ (key = key_gpio_button2) := by rw [hk7]; decide
    rw [if_pos hk7, if_neg hF]
    cases val <;> rfl
  rw [if_neg hk7]
  by_cases hk8 : key = key_tuner_if_gain_db
  · have hF : ¬ (key = key_gpio_button2) := by rw [hk8]; decide
    rw [if_pos hk8, if_neg hF]
    cases val <;> rfl
  rw [if_neg hk8]
  by_cases hk9 : key = key_tuner_rf_agc
  · have hF : ¬ (key = key_gpio_button2) := by rw [hk9]; decide
    rw [if_pos hk9, if_neg hF]
    cases val <;> rfl
  rw [if_neg hk9]
  by_cases hk10 : key = key_tuner_if_agc
  · have hF : ¬ (key = key_gpio_button2) := by rw [hk10]; decide
    rw [if_pos hk10, if_neg hF]
    cases val <;> rfl
  rw [if_neg hk10]
  by_cases hk11 : key = key_rtl_digital_agc
  · have hF : ¬ (key = key_gpio_button2) := by rw [hk11]; decide
    rw [if_pos hk11, if_neg hF]
    cases val <;> rfl
  rw [if_neg hk11]
  by_cases hk12 : key = key_bias_tee
  · have hF : ¬ (key = key_gpio_button2) := by rw [hk12]; decide
    rw [if_pos hk12, if_neg hF]
    cases val <;> rfl
  rw [if_neg hk12]
  by_cases hk13 : key = key_gpio_button0
  · have hF : ¬ (key = key_gpio_button2) := by rw [hk13]; decide
    rw [if_pos hk13, if_neg hF]
    cases val <;> rfl
  rw [if_neg hk13]
  by_cases hk14 : key = key_gpio_button1
  · have hF : ¬ (key = key_gpio_button2) := by rw [hk14]; decide
    rw [if_pos hk14, if_neg hF]
    cases val <;> rfl
  rw [if_neg hk14]
  by_cases hk15 : key = key_gpio_button2
  · rw [if_pos hk15, if_pos hk15]
    cases val <;> rfl
  rw [if_neg hk15, if_neg hk15]
  by_cases hk16 : key = key_gpio_button3
  · rw [if_pos hk16]
    cases val <;> rfl
  rw [if_neg hk16]
  by_cases hk17 : key = key_gpio_button4
  · rw [if_pos hk17]
    cases val <;> rfl
  rw [if_neg hk17]

theorem store_field_gpio_button3 (key : String) (val : Node) (ba : BandAction) :
    (store_field key val ba).gpio_button3 =
      if key = key_gpio_button3 then
        keep_or (Node.as_boolean val) ba.gpio_button3
      else ba.gpio_button3 := by
  unfold store_field
  by_cases hk1 : key = key_band_name
  · have hF : ¬ (key = key_gpio_button3) := by rw [hk1]; decide
    rw [if_pos hk1, if_neg hF]
    cases val <;> rfl
  rw [if_neg hk1]
  by_cases hk2 : key = key_sampling_mode
  · have hF : ¬ (key = key_gpio_button3) := by rw [hk2]; decide
    rw [if_pos hk2, if_neg hF]
    cases val <;> first | rfl | (simp only [sampling_mode_value, tuning_sideband_value]; split_ifs <;> rfl)
  rw [if_neg hk2]
  by_cases hk3 : key = key_tuning_sideband
  · have hF : ¬ (key = key_gpio_button3) := by rw [hk3]; decide
    rw [if_pos hk3, if_neg hF]
    cases val <;> first | rfl | (simp only [sampling_mode_value, tuning_sideband_value]; split_ifs <;> rfl)
  rw [if_neg hk3]
  by_cases hk4 : key = key_samplerate
  · have hF : ¬ (key = key_gpio_button3) := by rw [hk4]; decide
    rw [if_pos hk4, if_neg hF]
    cases val <;> rfl
  rw [if_neg hk4]
  by_cases hk5 : key = key_tuner_bandwidth
  · have hF : ¬ (key = key_gpio_button3) := by rw [hk5]; decide
    rw [if_pos hk5, if_neg hF]
    cases val <;> rfl
  rw [if_neg hk5]
  by_cases hk6 : key = key_r820t_tuner_band_center
  · have hF : ¬ (key = key_gpio_button3) := by rw [hk6]; decide
    rw [if_pos hk6, if_neg hF]
    cases val <;> rfl
  rw [if_neg hk6]
  by_cases hk7 : key = key_tuner_rf_gain_db
  · have hF : ¬ (key = key_gpio_button3) := by rw [hk7]; decide
    rw [if_pos hk7, if_neg hF]
    cases val <;> rfl
  rw [if_neg hk7]
  by_cases hk8 : key = key_tuner_if_gain_db
  · have hF : ¬ (key = key_gpio_button3) := by rw [hk8]; decide
    rw [if_pos hk8, if_neg hF]
    cases val <;> rfl
  rw [if_neg hk8]
  by_cases hk9 : key = key_tuner_rf_agc
  · have hF : ¬ (key = key_gpio_button3) := by rw [hk9]; decide
    rw [if_pos hk9, if_neg hF]
    cases val <;> rfl
  rw [if_neg hk9]
  by_cases hk10 : key = key_tuner_if_agc
  · have hF : ¬ (key = key_gpio_button3) := by rw [hk10]; decide
    rw [if_pos hk10, if_neg hF]
    cases val <;> rfl
  rw [if_neg hk10]
  by_cases hk11 : key = key_rtl_digital_agc
  · have hF : ¬ (key = key_gpio_button3) := by rw [hk11]; decide
    rw [if_pos hk11, if_neg hF]
    cases val <;> rfl
  rw [if_neg hk11]
  by_cases hk12 : key = key_bias_tee
  · have hF : ¬ (key = key_gpio_button3) := by rw [hk12]; decide
    rw [if_pos hk12, if_neg hF]
    cases val <;> rfl
  rw [if_neg hk12]
  by_cases hk13 : key = key_gpio_button0
  · have hF : ¬ (key = key_gpio_button3) := by rw [hk13]; decide
    rw [if_pos hk13, if_neg hF]
    cases val <;> rfl
  rw [if_neg hk13]
  by_cases hk14 : key = key_gpio_button1
  · have hF : ¬ (key = key_gpio_button3) := by rw [hk14]; decide
    rw [if_pos hk14, if_neg hF]
    cases val <;> rfl
  rw [if_neg hk14]
  by_cases hk15 : key = key_gpio_button2
  · have hF : ¬ (key = key_gpio_button3) := by rw [hk15]; decide
    rw [if_pos hk15, if_neg hF]
    cases val <;> rfl
  rw [if_neg hk15]
  by_cases hk16 : key = key_gpio_button3
  · rw [if_pos hk16, if_pos hk16]
    cases val <;> rfl
  rw [if_neg hk16, if_neg hk16]
  by_cases hk17 : key = key_gpio_button4
  · rw [if_pos hk17]
    cases val <;> rfl
  rw [if_neg hk17]

theorem store_field_gpio_button4 (key : String) (val : Node) (ba : BandAction) :
    (store_field key val ba).gpio_button4 =
      if key = key_gpio_button4 then
        keep_or (Node.as_boolean val) ba.gpio_button4
      else ba.gpio_button4 := by
  unfold store_field
  by_cases hk1 : key = key_band_name
  · have hF : ¬ (key = key_gpio_button4) := by rw [hk1]; decide
    rw [if_pos hk1, if_neg hF]
    cases val <;> rfl
  rw [if_neg hk1]
  by_cases hk2 : key = key_sampling_mode
  · have hF : ¬ (key = key_gpio_button4) := by rw [hk2]; decide
    rw [if_pos hk2, if_neg hF]
    cases val <;> first | rfl | (simp only [sampling_mode_value, tuning_sideband_value]; split_ifs <;> rfl)
  rw [if_neg hk2]
  by_cases hk3 : key = key_tuning_sideband
  · have hF : ¬ (key = key_gpio_button4) := by rw [hk3]; decide
    rw [if_pos hk3, if_neg hF]
    cases val <;> first | rfl | (simp only [sampling_mode_value, tuning_sideband_value]; split_ifs <;> rfl)
  rw [if_neg hk3]
  by_cases hk4 : key = key_samplerate
  · have hF : ¬ (key = key_gpio_button4) := by rw [hk4]; decide
    rw [if_pos hk4, if_neg hF]
    cases val <;> rfl
  rw [if_neg hk4]
  by_cases hk5 : key = key_tuner_bandwidth
  · have hF : ¬ (key = key_gpio_button4) := by rw [hk5]; decide
    rw [if_pos hk5, if_neg hF]
    cases val <;> rfl
  rw [if_neg hk5]
  by_cases hk6 : key = key_r820t_tuner_band_center
  · have hF : ¬ (key = key_gpio_button4) := by rw [hk6]; decide
    rw [if_pos hk6, if_neg hF]
    cases val <;> rfl
  rw [if_neg hk6]
  by_cases hk7 : key = key_tuner_rf_gain_db
  · have hF : ¬ (key = key_gpio_button4) := by rw [hk7]; decide
    rw [if_pos hk7, if_neg hF]
    cases val <;> rfl
  rw [if_neg hk7]
  by_cases hk8 : key = key_tuner_if_gain_db
  · have hF : ¬ (key = key_gpio_button4) := by rw [hk8]; decide
    rw [if_pos hk8, if_neg hF]
    cases val <;> rfl
  rw [if_neg hk8]
  by_cases hk9 : key = key_tuner_rf_agc
  · have hF : ¬ (key = key_gpio_button4) := by rw [hk9]; decide
    rw [if_pos hk9, if_neg hF]
    cases val <;> rfl
  rw [if_neg hk9]
  by_cases hk10 : key = key_tuner_if_agc
  · have hF : ¬ (key = key_gpio_button4) := by rw [hk10]; decide
    rw [if_pos hk10, if_neg hF]
    cases val <;> rfl
  rw [if_neg hk10]
  by_cases hk11 : key = key_rtl_digital_agc
  · have hF : ¬ (key = key_gpio_button4) := by rw [hk11]; decide
    rw [if_pos hk11, if_neg hF]
    cases val <;> rfl
  rw [if_neg hk11]
  by_cases hk12 : key = key_bias_tee
  · have hF : ¬ (key = key_gpio_button4) := by rw [hk12]; decide
    rw [if_pos hk12, if_neg hF]
    cases val <;> rfl
  rw [if_neg hk12]
  by_cases hk13 : key = key_gpio_button0
  · have hF : ¬ (key = key_gpio_button4) := by rw [hk13]; decide
    rw [if_pos hk13, if_neg hF]
    cases val <;> rfl
  rw [if_neg hk13]
  by_cases hk14 : key = key_gpio_button1
  · have hF : ¬ (key = key_gpio_button4) := by rw [hk14]; decide
    rw [if_pos hk14, if_neg hF]
    cases val <;> rfl
  rw [if_neg hk14]
  by_cases hk15 : key = key_gpio_button2
  · have hF : ¬ (key = key_gpio_button4) := by rw [hk15]; decide
    rw [if_pos hk15, if_neg hF]
    cases val <;> rfl
  rw [if_neg hk15]
  by_cases hk16 : key = key_gpio_button3
  · have hF : ¬ (key = key_gpio_button4) := by rw [hk16]; decide
    rw [if_pos hk16, if_neg hF]
    cases val <;> rfl
  rw [if_neg hk16]
  by_cases hk17 : key = key_gpio_button4
  · rw [if_pos hk17, if_pos hk17]
    cases val <;> rfl
  rw [if_neg hk17, if_neg hk17]

/-! ## Lemmas on the storage of a sub-table -/

theorem band_fields_store (id : String) (tbl : Table) (ba : BandAction) (out : OfStream)
    (ba1 : BandAction) (out1 : OfStream)
    (h : band_fields id tbl ba out = some (ba1, out1)) :
    ba1 = store_fields tbl ba := by
  induction tbl generalizing ba out with
  | nil =>
    simp only [band_fields, Option.some.injEq, Prod.mk.injEq] at h
    rw [← h.1]
    rfl
  | cons e rest ih =>
    obtain ⟨key, val⟩ := e
    unfold band_fields at h
    cases hf : band_field id key val ba out with
    | none => rw [hf] at h; cases h
    | some r =>
      obtain ⟨ba2, out2⟩ := r
      rw [hf] at h
      simp only at h
      rw [ih ba2 out2 h, band_field_store id key val ba out ba2 out2 hf]
      rfl

theorem band_field_crash (id key : String) (val : Node) (ba : BandAction) (out : OfStream)
    (hk : key ∈ numeric_keys) (hi : val.is_integer = true) :
    band_field id key val ba out = none := by
  cases val <;> simp [Node.is_integer] at hi
  simp only [numeric_keys, List.mem_cons, List.mem_singleton, List.not_mem_nil, or_false] at hk
  rcases hk with h | h | h | h | h <;> (rw [h]; rfl)

theorem band_fields_crash (id : String) (tbl : Table) (ba : BandAction) (out : OfStream)
    (h : numeric_ok tbl = false) : band_fields id tbl ba out = none := by
  induction tbl generalizing ba out with
  | nil => simp [numeric_ok] at h
  | cons e rest ih =>
    obtain ⟨key, val⟩ := e
    unfold band_fields
    cases hf : band_field id key val ba out with
    | none => rfl
    | some r =>
      obtain ⟨ba2, out2⟩ := r
      simp only
      apply ih
      by_cases hbad : key ∈ numeric_keys ∧ val.is_integer = true
      · rw [band_field_crash id key val ba out hbad.1 hbad.2] at hf
        cases hf
      · simp only [numeric_ok, List.all_cons, Bool.and_eq_false_imp] at h
        apply h
        simp only [Bool.not_eq_true', Bool.and_eq_false_imp, decide_eq_true_eq]
        intro hk
        by_contra hne
        exact hbad ⟨hk, by simpa using hne⟩

theorem parse_band_action_crash (id : String) (tbl : Table) (g : Globals) (out : OfStream)
    (hfb : float_bounds tbl = true) (h : numeric_ok tbl = false) :
    parse_band_action id tbl g out = none := by
  obtain ⟨a, b, ha, hb⟩ := float_bounds_true tbl hfb
  unfold parse_band_action
  rw [band_bounds_valid id tbl out a b ha hb]
  simp only
  rw [band_fields_crash id tbl _ _ h]

theorem parse_band_action_record (id : String) (tbl : Table) (g : Globals) (out : OfStream)
    (a b : Double)
    (ha : toml_find tbl key_freq_from = some (Node.floating_point a))
    (hb : toml_find tbl key_freq_to = some (Node.floating_point b))
    (g1 : Globals) (out1 : OfStream)
    (h : parse_band_action id tbl g out = some (g1, out1)) :
    g1 = { g with band_actions :=
      g.band_actions ++ [store_fields tbl (bounds_record id a b out).1] } := by
  unfold parse_band_action at h
  rw [band_bounds_valid id tbl out a b ha hb] at h
  simp only at h
  cases hf : band_fields id tbl (bounds_record id a b out).1 (bounds_record id a b out).2 with
  | none => rw [hf] at h; cases h
  | some r =>
    obtain ⟨ba, out2⟩ := r
    rw [hf] at h
    simp only [Option.some.injEq, Prod.mk.injEq] at h
    rw [← h.1, band_fields_store id tbl _ _ ba out2 hf]

theorem toml_find_eq_none (tbl : Table) (k : String) (h : k ∉ tbl.map Prod.fst) :
    toml_find tbl k = none := by
  induction tbl with
  | nil => rfl
  | cons e rest ih =>
    obtain ⟨k0, v0⟩ := e
    simp only [List.map_cons, List.mem_cons, not_or] at h
    unfold toml_find
    rw [if_neg (fun hc => h.1 hc.symm)]
    exact ih h.2

theorem store_fields_append (l1 l2 : Table) (ba : BandAction) :
    store_fields (l1 ++ l2) ba = store_fields l2 (store_fields l1 ba) := by
  induction l1 generalizing ba with
  | nil => rfl
  | cons e rest ih =>
    obtain ⟨k, v⟩ := e
    simp only [List.cons_append, store_fields]
    exact ih _

theorem store_fields_inert {α : Type} (proj : BandAction → Option α) (K K2 : String)
    (typed : Node → Option α)
    (hstep : ∀ key val ba, proj (store_field key val ba) =
      if key = K ∨ key = K2 then
        keep_or (typed val) (proj ba)
      else proj ba)
    (l : Table) (h : ∀ e ∈ l, e.1 ≠ K ∧ e.1 ≠ K2) (ba : BandAction) :
    proj (store_fields l ba) = proj ba := by
  induction l generalizing ba with
  | nil => rfl
  | cons e rest ih =>
    obtain ⟨k, v⟩ := e
    simp only [store_fields]
    rw [ih (fun e he => h e (List.mem_cons_of_mem _ he)), hstep]
    have := h (k, v) (List.mem_cons_self _ _)
    rw [if_neg (not_or.mpr ⟨this.1, this.2⟩)]

theorem store_fields_proj {α : Type} (proj : BandAction → Option α) (K K2 : String)
    (typed : Node → Option α)
    (hstep : ∀ key val ba, proj (store_field key val ba) =
      if key = K ∨ key = K2 then
        keep_or (typed val) (proj ba)
      else proj ba)
    (tbl : Table) (ba : BandAction) (hnd : (tbl.map Prod.fst).Nodup)
    (h2 : (toml_find tbl K2).bind typed = none ∨ K2 = K) :
    proj (store_fields tbl ba) =
      keep_or ((toml_find tbl K).bind typed) (proj ba) := by
  induction tbl generalizing ba with
  | nil => rfl
  | cons e rest ih =>
    obtain ⟨k, v⟩ := e
    simp only [List.map_cons, List.nodup_cons] at hnd
    obtain ⟨hk, hnd⟩ := hnd
    simp only [store_fields]
    by_cases hK : k = K
    · have hfind : toml_find ((k, v) :: rest) K = some v := by
        unfold toml_find; rw [if_pos hK]
      have hrest : toml_find rest K = none := toml_find_eq_none rest K (by rw [← hK]; exact hk)
      have h2r : (toml_find rest K2).bind typed = none ∨ K2 = K := by
        rcases h2 with h2 | h2
        · by_cases hKK : K2 = K
          · exact Or.inr hKK
          · left
            unfold toml_find at h2
            rw [if_neg (fun hc => hKK (hc.symm.trans hK))] at h2
            exact h2
        · exact Or.inr h2
      rw [ih _ hnd h2r, hrest, hfind, hstep, if_pos (Or.inl hK)]
      rfl
    · have hfind : toml_find ((k, v) :: rest) K = toml_find rest K := by
        conv => lhs; unfold toml_find
        rw [if_neg hK]
      by_cases hK2 : k = K2
      · have hrest2 : toml_find rest K2 = none :=
          toml_find_eq_none rest K2 (by rw [← hK2]; exact hk)
        have htyped : typed v = none := by
          rcases h2 with h2 | h2
          · unfold toml_find at h2
            rw [if_pos hK2] at h2
            exact h2
          · exact absurd (hK2.trans h2) hK
        rw [ih _ hnd (Or.inl (by rw [hrest2]; rfl)), hfind, hstep, if_pos (Or.inr hK2), htyped]
        rfl
      · have h2r : (toml_find rest K2).bind typed = none ∨ K2 = K := by
          rcases h2 with h2 | h2
          · left
            unfold toml_find at h2
            rw [if_neg hK2] at h2
            exact h2
          · exact Or.inr h2
        rw [ih _ hnd h2r, hfind, hstep, if_neg (not_or.mpr ⟨hK, hK2⟩)]

/-! ## The record of a band sub-table -/

theorem keep_or_none {α : Type} (o : Option α) : keep_or o none = o := by
  cases o <;> rfl

theorem store_fields_single {α : Type} (proj : BandAction → Option α) (K : String)
    (typed : Node → Option α)
    (hstep : ∀ key val ba, proj (store_field key val ba) =
      if key = K then
        keep_or (typed val) (proj ba)
      else proj ba)
    (tbl : Table) (ba : BandAction) (hnd : (tbl.map Prod.fst).Nodup) (h0 : proj ba = none) :
    proj (store_fields tbl ba) = (toml_find tbl K).bind typed := by
  rw [store_fields_proj proj K K typed
    (fun key val ba => by rw [hstep]; simp only [or_self]) tbl ba hnd (Or.inr rfl), h0]
  exact keep_or_none _

theorem store_field_gpio_button0_swap (key : String) (val : Node) (ba : BandAction) :
    (store_field key val ba).gpio_button0 =
      if key = key_gpio_button0 ∨ key = key_bias_tee then
        keep_or (Node.as_boolean val) ba.gpio_button0
      else ba.gpio_button0 := by
  rw [store_field_gpio_button0]
  by_cases h : key = key_bias_tee ∨ key = key_gpio_button0
  · rw [if_pos h, if_pos (Or.symm h)]
  · rw [if_neg h, if_neg (fun hc => h (Or.symm hc))]

theorem bounds_record_fst (id : String) (a b : Double) (out : OfStream) :
    ∃ x y, (bounds_record id a b out).1 = { id := id, freq_from := x, freq_to := y } := by
  unfold bounds_record
  split_ifs
  · exact ⟨b, a, rfl⟩
  · exact ⟨a, b, rfl⟩

theorem store_fields_stored (tbl : Table) (id : String) (x y : Double)
    (hnd : (tbl.map Prod.fst).Nodup) :
    StoredFields tbl (store_fields tbl { id := id, freq_from := x, freq_to := y }) := by
  refine ⟨?_, ?_, ?_, ?_, ?_, ?_, ?_, ?_, ?_, ?_, ?_, ?_, ?_, ?_, ?_, ?_, ?_⟩
  · exact store_fields_single (fun ba => ba.name) key_band_name Node.as_string store_field_name tbl _ hnd rfl
  · exact store_fields_single (fun ba => ba.sampling_mode) key_sampling_mode sampling_mode_value store_field_sampling_mode tbl _ hnd rfl
  · exact store_fields_single (fun ba => ba.samplerate) key_samplerate Node.as_floating_point store_field_samplerate tbl _ hnd rfl
  · exact store_fields_single (fun ba => ba.tuner_bandwidth) key_tuner_bandwidth Node.as_floating_point store_field_tuner_bandwidth tbl _ hnd rfl
  · exact store_fields_single (fun ba => ba.r820t_tuner_band_center) key_r820t_tuner_band_center Node.as_floating_point store_field_r820t_tuner_band_center tbl _ hnd rfl
  · exact store_fields_single (fun ba => ba.tuning_sideband) key_tuning_sideband tuning_sideband_value store_field_tuning_sideband tbl _ hnd rfl
  · exact store_fields_single (fun ba => ba.tuner_rf_agc) key_tuner_rf_agc Node.as_boolean store_field_tuner_rf_agc tbl _ hnd rfl
  · exact store_fields_single (fun ba => ba.tuner_rf_gain_db) key_tuner_rf_gain_db Node.as_floating_point store_field_tuner_rf_gain_db tbl _ hnd rfl
  · exact store_fields_single (fun ba => ba.tuner_if_agc) key_tuner_if_agc Node.as_boolean store_field_tuner_if_agc tbl _ hnd rfl
  · exact store_fields_single (fun ba => ba.tuner_if_gain_db) key_tuner_if_gain_db Node.as_floating_point store_field_tuner_if_gain_db tbl _ hnd rfl
  · exact store_fields_single (fun ba => ba.rtl_digital_agc) key_rtl_digital_agc Node.as_boolean store_field_rtl_digital_agc tbl _ hnd rfl
  · exact store_fields_single (fun ba => ba.gpio_button1) key_gpio_button1 Node.as_boolean store_field_gpio_button1 tbl _ hnd rfl
  · exact store_fields_single (fun ba => ba.gpio_button2) key_gpio_button2 Node.as_boolean store_field_gpio_button2 tbl _ hnd rfl
  · exact store_fields_single (fun ba => ba.gpio_button3) key_gpio_button3 Node.as_boolean store_field_gpio_button3 tbl _ hnd rfl
  · exact store_fields_single (fun ba => ba.gpio_button4) key_gpio_button4 Node.as_boolean store_field_gpio_button4 tbl _ hnd rfl
  · intro h
    rw [store_fields_proj (fun ba => ba.gpio_button0) key_gpio_button0 key_bias_tee
      Node.as_boolean store_field_gpio_button0_swap tbl _ hnd (Or.inl h)]
    exact keep_or_none _
  · intro h
    rw [store_fields_proj (fun ba => ba.gpio_button0) key_bias_tee key_gpio_button0
      Node.as_boolean store_field_gpio_button0 tbl _ hnd (Or.inl h)]
    exact keep_or_none _

theorem parse_band_action_stored (id : String) (tbl : Table) (g : Globals) (out : OfStream)
    (a b : Double)
    (ha : toml_find tbl key_freq_from = some (Node.floating_point a))
    (hb : toml_find tbl key_freq_to = some (Node.floating_point b))
    (g1 : Globals) (out1 : OfStream)
    (h : parse_band_action id tbl g out = some (g1, out1)) :
    ∃ x y, g1 = { g with band_actions := g.band_actions ++
        [store_fields tbl { id := id, freq_from := x, freq_to := y }] } ∧
      (store_fields tbl { id := id, freq_from := x, freq_to := y }).id = id := by
  obtain ⟨x, y, hxy⟩ := bounds_record_fst id a b out
  have hrec := parse_band_action_record id tbl g out a b ha hb g1 out1 h
  rw [hxy] at hrec
  refine ⟨x, y, hrec, ?_⟩
  obtain ⟨ba, hg, hk, _⟩ := parse_band_action_some id tbl g out a b ha hb g1 out1 h
  rw [hrec] at hg
  have hlist : g.band_actions ++ [store_fields tbl { id := id, freq_from := x, freq_to := y }]
      = g.band_actions ++ [ba] := congrArg Globals.band_actions hg
  have hba := List.append_cancel_left hlist
  simp only [List.cons.injEq, and_true] at hba
  rw [hba]
  exact hk.1.trans (bounds_record_id id a b out)

/-! ## Theorems on the fields of a record -/

/-- C15, as stated, fails: in the band sub-table `tableBoth` the entry
`bias_tee = true` is recognised and correctly typed, and its value is not
stored: the entry `gpio_button0 = false`, visited later, writes the same
member, and no member of the record holds `true`. -/
theorem parse_band_action_alias_overwrites :
    float_bounds tableBoth = true ∧
    toml_find tableBoth key_bias_tee = some (Node.boolean true) ∧
    parse_band_action "x" tableBoth Globals.start closedStream
      = some ({ Globals.start with band_actions :=
                  [{ id := "x", freq_from := Double.fin 1, freq_to := Double.fin 2,
                     gpio_button0 := some false }] },
              closedStream) :=
  ⟨by decide, rfl, by decide⟩

/-- C15, amended: for a band sub-table, each key held once, with floating-point
`freq_from` and `freq_to`, the call returns whenever no optional numeric key
holds an integer, and whenever it returns it has appended exactly one record,
with the given id, in which every optional member whose entry has the wrong
type, or is a string outside the allowed letters, or is absent, is unset, and
every other member holds the value of its entry; for the member shared by
`bias_tee` and `gpio_button0` this holds of either key when the other key has
no boolean value. A wrong-typed or unrecognised entry never ends the call. -/
theorem parse_band_action_fields (id : String) (tbl : Table) (g : Globals) (out : OfStream)
    (a b : Double)
    (ha : toml_find tbl key_freq_from = some (Node.floating_point a))
    (hb : toml_find tbl key_freq_to = some (Node.floating_point b))
    (hnd : (tbl.map Prod.fst).Nodup) :
    (numeric_ok tbl = true → ∃ g1 out1, parse_band_action id tbl g out = some (g1, out1)) ∧
    (∀ g1 out1, parse_band_action id tbl g out = some (g1, out1) →
      ∃ ba, g1 = { g with band_actions := g.band_actions ++ [ba] } ∧ ba.id = id ∧
        StoredFields tbl ba) := by
  refine ⟨parse_band_action_total id tbl g out, ?_⟩
  intro g1 out1 h
  obtain ⟨x, y, hg, hid⟩ := parse_band_action_stored id tbl g out a b ha hb g1 out1 h
  exact ⟨_, hg, hid, store_fields_stored tbl id x y hnd⟩

/-- Witness of C15, amended: the sub-table `tableMixed` has an integer `name`, the
string `X` as `sampling_mode`, an unknown key and a floating-point
`samplerate`; the call returns, and the record it appends has the `samplerate`
and neither `name` nor `sampling_mode`. -/
theorem parse_band_action_fields_witness :
    (∃ g1 out1, parse_band_action "m" tableMixed Globals.start closedStream = some (g1, out1)) ∧
    (∃ ba, ({ Globals.start with band_actions :=
                [{ id := "m", freq_from := Double.fin 1, freq_to := Double.fin 2,
                   samplerate := some (Double.fin 2400000) }] } : Globals)
        = { Globals.start with band_actions := Globals.start.band_actions ++ [ba] } ∧
      ba.id = "m" ∧ StoredFields tableMixed ba) :=
  ⟨(parse_band_action_fields "m" tableMixed Globals.start closedStream (Double.fin 1)
      (Double.fin 2) rfl rfl (by decide)).1 (by decide),
   (parse_band_action_fields "m" tableMixed Globals.start closedStream (Double.fin 1)
      (Double.fin 2) rfl rfl (by decide)).2 _ closedStream (by decide)⟩

/-- C18: `bias_tee` and `gpio_button0` write the same member, the last writer
winning. For a band sub-table, each key held once, with floating-point
`freq_from` and `freq_to`, the call returns whenever no optional numeric key
holds an integer, and whenever it returns it has appended one record, in which
`gpio_button0` is: when both keys hold booleans, the value of the one that is
visited later; when one key holds a boolean and the other key is absent, that
value. -/
theorem parse_band_action_alias (id : String) (tbl : Table) (g : Globals) (out : OfStream)
    (a b : Double)
    (ha : toml_find tbl key_freq_from = some (Node.floating_point a))
    (hb : toml_find tbl key_freq_to = some (Node.floating_point b))
    (hnd : (tbl.map Prod.fst).Nodup) :
    (numeric_ok tbl = true → ∃ g1 out1, parse_band_action id tbl g out = some (g1, out1)) ∧
    (∀ g1 out1, parse_band_action id tbl g out = some (g1, out1) →
      ∃ ba, g1 = { g with band_actions := g.band_actions ++ [ba] } ∧
        (∀ pre mid post k1 k2 v1 v2,
          tbl = pre ++ (k1, Node.boolean v1) :: (mid ++ (k2, Node.boolean v2) :: post) →
          ((k1 = key_bias_tee ∧ k2 = key_gpio_button0) ∨
            (k1 = key_gpio_button0 ∧ k2 = key_bias_tee)) →
          ba.gpio_button0 = some v2) ∧
        (∀ v, toml_find tbl key_bias_tee = some (Node.boolean v) →
          toml_find tbl key_gpio_button0 = none → ba.gpio_button0 = some v) ∧
        (∀ v, toml_find tbl key_gpio_button0 = some (Node.boolean v) →
          toml_find tbl key_bias_tee = none → ba.gpio_button0 = some v)) := by
  refine ⟨parse_band_action_total id tbl g out, ?_⟩
  intro g1 out1 h
  obtain ⟨x, y, hg, _⟩ := parse_band_action_stored id tbl g out a b ha hb g1 out1 h
  have hst := store_fields_stored tbl id x y hnd
  refine ⟨_, hg, ?_, ?_, ?_⟩
  · intro pre mid post k1 k2 v1 v2 hsplit hkeys
    have hsplit2 : tbl = (pre ++ (k1, Node.boolean v1) :: mid) ++
        (k2, Node.boolean v2) :: post := by
      rw [hsplit]; simp [List.append_assoc]
    have hnd2 := hnd
    rw [hsplit] at hnd2
    simp only [List.map_append, List.map_cons, List.nodup_append, List.nodup_cons,
      List.mem_append, List.mem_cons, not_or] at hnd2
    have hk1post : k1 ∉ post.map Prod.fst := hnd2.2.1.1.2.2
    have hk2post : k2 ∉ post.map Prod.fst := hnd2.2.1.2.2.1.1
    have hinert : ∀ e ∈ post, e.1 ≠ key_bias_tee ∧ e.1 ≠ key_gpio_button0 := by
      intro e he
      have hmem : e.1 ∈ post.map Prod.fst := List.mem_map_of_mem _ he
      rcases hkeys with ⟨h1, h2⟩ | ⟨h1, h2⟩
      · exact ⟨fun hc => hk1post (by rw [h1, ← hc]; exact hmem),
          fun hc => hk2post (by rw [h2, ← hc]; exact hmem)⟩
      · exact ⟨fun hc => hk2post (by rw [h2, ← hc]; exact hmem),
          fun hc => hk1post (by rw [h1, ← hc]; exact hmem)⟩
    rw [hsplit2, store_fields_append]
    simp only [store_fields]
    rw [store_fields_inert (fun ba => ba.gpio_button0) key_bias_tee key_gpio_button0
      Node.as_boolean store_field_gpio_button0 post hinert, store_field_gpio_button0]
    have hk2 : k2 = key_bias_tee ∨ k2 = key_gpio_button0 := by
      rcases hkeys with ⟨_, h2⟩ | ⟨_, h2⟩
      · exact Or.inr h2
      · exact Or.inl h2
    rw [if_pos hk2]
    rfl
  · intro v hbias hgpio
    rw [hst.2.2.2.2.2.2.2.2.2.2.2.2.2.2.2.2 (by rw [hgpio]; rfl), hbias]
    rfl
  · intro v hgpio hbias
    rw [hst.2.2.2.2.2.2.2.2.2.2.2.2.2.2.2.1 (by rw [hbias]; rfl), hgpio]
    rfl

/-- Witness of C18: in `tableBoth` the key `bias_tee` holds true and
`gpio_button0`, visited later, holds false; the call returns and the record
has `gpio_button0 = false`. -/
theorem parse_band_action_alias_witness :
    (∃ g1 out1, parse_band_action "x" tableBoth Globals.start closedStream = some (g1, out1)) ∧
    (∃ ba, ({ Globals.start with band_actions :=
                [{ id := "x", freq_from := Double.fin 1, freq_to := Double.fin 2,
                   gpio_button0 := some false }] } : Globals)
        = { Globals.start with band_actions := Globals.start.band_actions ++ [ba] } ∧
      (∀ pre mid post k1 k2 v1 v2,
        tableBoth = pre ++ (k1, Node.boolean v1) :: (mid ++ (k2, Node.boolean v2) :: post) →
        ((k1 = key_bias_tee ∧ k2 = key_gpio_button0) ∨
          (k1 = key_gpio_button0 ∧ k2 = key_bias_tee)) →
        ba.gpio_button0 = some v2) ∧
      (∀ v, toml_find tableBoth key_bias_tee = some (Node.boolean v) →
        toml_find tableBoth key_gpio_button0 = none → ba.gpio_button0 = some v) ∧
      (∀ v, toml_find tableBoth key_gpio_button0 = some (Node.boolean v) →
        toml_find tableBoth key_bias_tee = none → ba.gpio_button0 = some v)) :=
  ⟨(parse_band_action_alias "x" tableBoth Globals.start closedStream (Double.fin 1)
      (Double.fin 2) rfl rfl (by decide)).1 (by decide),
   (parse_band_action_alias "x" tableBoth Globals.start closedStream (Double.fin 1)
      (Double.fin 2) rfl rfl (by decide)).2 _ closedStream (by decide)⟩

/-- C19: the band sub-table `tableIntRate` has floating-point bounds and the TOML
integer 2400000 under `samplerate`; the value passes `is_number`, its
floating-point view is absent, and `parse_band_action` reads through it: the
call does not return, and neither does the load of a document with that
band. -/
theorem parse_band_action_integer_samplerate :
    float_bounds tableIntRate = true ∧
    toml_find tableIntRate key_samplerate = some (Node.integer 2400000) ∧
    (Node.integer 2400000).is_number = true ∧
    (Node.integer 2400000).as_floating_point = none ∧
    parse_band_action "x" tableIntRate Globals.start closedStream = none ∧
    init_toml_config (worldWith docIntRate) Globals.start = none :=
  ⟨by decide, rfl, rfl, rfl, by decide, rfl⟩

end ExtIO
